import Mathlib

/-!
PROXY protocol detection on an accepted connection (dynamic-proxyproto-go).

A shallow embedding of `bytesutils.go`, `proxyprotocol.go` and `listener.go`.

* Go byte slices and strings are lists of bytes; a byte is a natural number
  below 256.
* `dynamicPPConn` is a record, and every method takes the record and returns
  the updated one together with its results.
* A destination slice `b []byte` is represented by its length; a read returns
  the bytes it wrote (their number is Go's `n`).
* The underlying `net.Conn` is a script of read events.
* `net.ParseIP` is a parameter of the development; `strconv.Atoi` and
  `binary.Read` are modelled for the inputs the source gives them.
-/

namespace DynamicPP

/-! ## Values -/

/-- Go `error` values that occur in the package. -/
inductive GoError where
  | EOF
  | ErrUnexpectedEOF
  | errorf (msg : String)
  | wrap (msg : String) (cause : GoError)
  | conn (code : Nat)
  deriving DecidableEq, Repr

/-- The type `net.TCPAddr` (the zone is never set by the package). -/
structure TCPAddr where
  IP : List Nat
  Port : Int
  deriving DecidableEq, Repr

/-- The type `net.UnixAddr` (the net is never set by the package). -/
structure UnixAddr where
  Name : List Nat
  deriving DecidableEq, Repr

/-- A value of the interface type `net.Addr`: the nil interface, or a dynamic
type together with a pointer, which may itself be a nil pointer. -/
inductive NetAddr where
  | nil
  | tcp (p : Option TCPAddr)
  | unix (p : Option UnixAddr)
  deriving DecidableEq, Repr

/-- The Go comparison `a != nil` on an interface value. -/
def NetAddr.notNil : NetAddr → Bool
  | .nil => false
  | _ => true

/-! ## The underlying connection -/

/-- What one `Read` of the underlying connection finds: bytes that have
arrived, or a failure. -/
inductive ReadEvent where
  | data (bytes : List Nat)
  | fail (err : GoError)
  deriving DecidableEq, Repr

/-- The underlying `net.Conn`: the events its reads will meet, and its own
addresses. -/
structure RawConn where
  script : List ReadEvent
  localAddr : NetAddr
  remoteAddr : NetAddr
  deriving DecidableEq, Repr

/-- The result of a `Read`: the bytes written to the destination and the
error. -/
abbrev ReadResult := List Nat × Option GoError

/-- One `Read` of the underlying connection into a destination of `cap`
bytes: at most `cap` of the arrived bytes are delivered, the others stay for
the next read; a connection with nothing left reports `io.EOF`. -/
def RawConn.Read (r : RawConn) (cap : Nat) : ReadResult × RawConn :=
  match r.script with
  | [] => (([], some GoError.EOF), r)
  | ReadEvent.fail e :: rest => (([], some e), { r with script := rest })
  | ReadEvent.data bs :: rest =>
    if bs.length ≤ cap then ((bs, none), { r with script := rest })
    else ((bs.take cap, none), { r with script := ReadEvent.data (bs.drop cap) :: rest })

/-- Everything the underlying connection still has to deliver. -/
def RawConn.pending (r : RawConn) : List Nat :=
  (r.script.map fun e => match e with
    | ReadEvent.data bs => bs
    | ReadEvent.fail _ => []).flatten

/-! ## Library functions used by the source -/

/-- The function `bytes.IndexByte`: index of the first `c` in `s`. -/
def IndexByte : List Nat → Nat → Option Nat
  | [], _ => none
  | x :: xs, c => if x = c then some 0 else (IndexByte xs c).map (· + 1)

/-- The function `bytes.Index`: index of the first occurrence of `sep` in
`s`. -/
def Index : List Nat → List Nat → Option Nat
  | [], sep => if sep = [] then some 0 else none
  | x :: xs, sep =>
    if sep <+: x :: xs then some 0 else (Index xs sep).map (· + 1)

/-- The Go slice expression `b[lo:hi]`. -/
def slice (b : List Nat) (lo hi : Nat) : List Nat :=
  (b.drop lo).take (hi - lo)

/-- The digit loop of `strconv.Atoi`: `n = n*10 + int(ch - '0')`, a syntax
error at the first byte that is not an ASCII digit. -/
def atoiDigits : List Nat → Nat → Option Nat
  | [], acc => some acc
  | ch :: rest, acc =>
    if 48 ≤ ch ∧ ch ≤ 57 then atoiDigits rest (acc * 10 + (ch - 48)) else none

/-- The function `strconv.Atoi` with a 64-bit `int`: an optional sign, at
least one decimal digit, and a value in the range of `int`; `none` is a
syntax or range error. -/
def Atoi (s : List Nat) : Option Int :=
  match s with
  | [] => none
  | c0 :: tl =>
    let body := if c0 = 45 ∨ c0 = 43 then tl else s
    if body = [] then none
    else
      match atoiDigits body 0 with
      | none => none
      | some n =>
        if c0 = 45 then (if n ≤ 2 ^ 63 then some (-(n : Int)) else none)
        else (if n < 2 ^ 63 then some (n : Int) else none)

/-- The function `binary.BigEndian.Uint16`: `uint16(b[1]) | uint16(b[0])<<8`,
which is below `2 ^ 16` for bytes. -/
def Uint16 (b : List Nat) : Nat :=
  b.getD 0 0 * 256 + b.getD 1 0

/-- An address block of the INET family (`_addr4`). -/
structure Addr4 where
  Src : List Nat
  Dst : List Nat
  SrcPort : Nat
  DstPort : Nat
  deriving DecidableEq, Repr

/-- An address block of the INET6 family (`_addr6`). -/
structure Addr6 where
  Src : List Nat
  Dst : List Nat
  SrcPort : Nat
  DstPort : Nat
  deriving DecidableEq, Repr

/-- An address block of the UNIX family (`_addrUnix`). -/
structure AddrUnix where
  Src : List Nat
  Dst : List Nat
  deriving DecidableEq, Repr

/-- The error of `io.ReadFull` on a reader that holds `n` bytes, fewer than
asked for: `io.EOF` when it holds none, `io.ErrUnexpectedEOF` otherwise. -/
def readFullError (n : Nat) : GoError :=
  if n = 0 then GoError.EOF else GoError.ErrUnexpectedEOF

/-- The call `binary.Read(bytes.NewReader(data), binary.BigEndian, &addr)` for
`_addr4`: the 12 bytes of the struct are read with `io.ReadFull`, which fails
when `data` is shorter, and decoded field by field; bytes of `data` beyond the
struct are not looked at. -/
def binaryReadAddr4 (data : List Nat) : Except GoError Addr4 :=
  if data.length < 12 then .error (readFullError data.length)
  else .ok { Src := slice data 0 4, Dst := slice data 4 8,
             SrcPort := Uint16 (slice data 8 10), DstPort := Uint16 (slice data 10 12) }

/-- The same call for `_addr6`, a struct of 36 bytes. -/
def binaryReadAddr6 (data : List Nat) : Except GoError Addr6 :=
  if data.length < 36 then .error (readFullError data.length)
  else .ok { Src := slice data 0 16, Dst := slice data 16 32,
             SrcPort := Uint16 (slice data 32 34), DstPort := Uint16 (slice data 34 36) }

/-- The same call for `_addrUnix`, a struct of 216 bytes. -/
def binaryReadAddrUnix (data : List Nat) : Except GoError AddrUnix :=
  if data.length < 216 then .error (readFullError data.length)
  else .ok { Src := slice data 0 108, Dst := slice data 108 216 }

/-! ## `listener.go`: the connection record -/

/-- The two values the field `readFunc` takes. -/
inductive ReadFunc where
  | deferredReadFunc
  | connRead
  deriving DecidableEq, Repr

/-- The struct `dynamicPPConn`; `once` records whether the `sync.Once` has
run. -/
structure dynamicPPConn where
  Conn : RawConn
  once : Bool
  buff : List Nat
  offset : Nat
  readFunc : ReadFunc
  readErr : Option GoError
  srcAddr : NetAddr
  dstAddr : NetAddr
  deriving DecidableEq, Repr

/-- The constructor `newDynamicPPConn`: a buffer of 512 zero bytes. -/
def newDynamicPPConn (conn : RawConn) : dynamicPPConn :=
  { Conn := conn, once := false, buff := List.replicate 512 0, offset := 0,
    readFunc := ReadFunc.deferredReadFunc, readErr := none,
    srcAddr := NetAddr.nil, dstAddr := NetAddr.nil }

/-! ## `bytesutils.go` -/

/-- The method `readString`. -/
def readString (c : dynamicPPConn) (delim : Nat) :
    Except GoError (List Nat) × dynamicPPConn :=
  match IndexByte (c.buff.drop c.offset) delim with
  | none => (.error GoError.EOF, c)
  | some i =>
    let c1 := { c with offset := c.offset + (i + 1) }
    (.ok (slice c1.buff (c1.offset - i - 1) (c1.offset - 1)), c1)

/-- The method `readString2`. -/
def readString2 (c : dynamicPPConn) (delim : List Nat) :
    Except GoError (List Nat) × dynamicPPConn :=
  match Index (c.buff.drop c.offset) delim with
  | none => (.error GoError.EOF, c)
  | some i =>
    let c1 := { c with offset := c.offset + (i + delim.length) }
    (.ok (slice c1.buff (c1.offset - i - delim.length) (c1.offset - delim.length)), c1)

/-- The method `readByte`. -/
def readByte (c : dynamicPPConn) : Except GoError Nat × dynamicPPConn :=
  if c.offset ≥ c.buff.length then (.error GoError.EOF, c)
  else
    let c1 := { c with offset := c.offset + 1 }
    (.ok (c1.buff.getD (c1.offset - 1) 0), c1)

/-- The method `readBytes`. -/
def readBytes (c : dynamicPPConn) (n : Nat) :
    Except GoError (List Nat) × dynamicPPConn :=
  if c.offset + n > c.buff.length then (.error GoError.EOF, c)
  else
    let c1 := { c with offset := c.offset + n }
    (.ok (slice c1.buff (c1.offset - n) c1.offset), c1)

/-! ## `proxyprotocol.go` -/

/-- The variable `PPv1IdentifierLen`. -/
def PPv1IdentifierLen : Nat := 6

/-- The variable `PPv1Identifier`, the bytes of `"PROXY "`. -/
def PPv1Identifier : List Nat := [0x50, 0x52, 0x4F, 0x58, 0x59, 0x20]

/-- The variable `PPv2IdentifierLen`. -/
def PPv2IdentifierLen : Nat := 12

/-- The variable `PPv2Identifier`. -/
def PPv2Identifier : List Nat :=
  [0x0D, 0x0A, 0x0D, 0x0A, 0x00, 0x0D, 0x0A, 0x51, 0x55, 0x49, 0x54, 0x0A]

/-- The string `"TCP4"`. -/
def TCP4 : List Nat := [0x54, 0x43, 0x50, 0x34]

/-- The string `"TCP6"`. -/
def TCP6 : List Nat := [0x54, 0x43, 0x50, 0x36]

/-- The two bytes `'\r', '\n'`. -/
def CRLF : List Nat := [0x0D, 0x0A]

/-- What `parseV1` returns: two `*net.TCPAddr` pointers and an error. -/
abbrev V1Result := Option TCPAddr × Option TCPAddr × Option GoError

/-- The method `parseV1`; `ParseIP` stands for `net.ParseIP`, `none` for its
nil result. -/
def parseV1 (ParseIP : List Nat → Option (List Nat)) (c : dynamicPPConn) :
    V1Result × dynamicPPConn :=
  match readString c 0x20 with
  | (.error err, c) =>
    ((none, none, some (.wrap "failed to read inet protocol and family" err)), c)
  | (.ok inetProtocolAndFamily, c) =>
    if ¬ (inetProtocolAndFamily = TCP4 ∨ inetProtocolAndFamily = TCP6) then
      ((none, none, some (.errorf "unsupported inet protocol and family")), c)
    else
      match readString c 0x20 with
      | (.error err, c) => ((none, none, some (.wrap "failed to read source ip" err)), c)
      | (.ok si, c) =>
        match ParseIP si with
        | none => ((none, none, some (.errorf "invalid source ip")), c)
        | some sourceIP =>
          match readString c 0x20 with
          | (.error err, c) =>
            ((none, none, some (.wrap "failed to read destination ip" err)), c)
          | (.ok di, c) =>
            match ParseIP di with
            | none => ((none, none, some (.errorf "invalid destination ip")), c)
            | some destinationIP =>
              match readString c 0x20 with
              | (.error err, c) =>
                ((none, none, some (.wrap "failed to read source port" err)), c)
              | (.ok sp, c) =>
                match Atoi sp with
                | none => ((none, none, some (.errorf "invalid source port")), c)
                | some sourcePort =>
                  match readString2 c CRLF with
                  | (.error err, c) =>
                    ((none, none, some (.wrap "failed to read destination port" err)), c)
                  | (.ok dp, c) =>
                    match Atoi dp with
                    | none => ((none, none, some (.errorf "invalid destination port")), c)
                    | some destinationPort =>
                      ((some { IP := sourceIP, Port := sourcePort },
                        some { IP := destinationIP, Port := destinationPort }, none), c)

/-- What `parseV2` returns: two `net.Addr` interface values and an error. -/
abbrev V2Result := NetAddr × NetAddr × Option GoError

/-- The last `switch` of `parseV2`: decoding of the address block. -/
def decodeV2 (addressFamily : Nat) (followingHeaderBytes : List Nat) : V2Result :=
  if addressFamily = 0x01 then
    match binaryReadAddr4 followingHeaderBytes with
    | .error err => (.nil, .nil, some (.wrap "failed to read INET address" err))
    | .ok addr =>
      (.tcp (some { IP := addr.Src, Port := (addr.SrcPort : Int) }),
       .tcp (some { IP := addr.Dst, Port := (addr.DstPort : Int) }), none)
  else if addressFamily = 0x02 then
    match binaryReadAddr6 followingHeaderBytes with
    | .error err => (.nil, .nil, some (.wrap "failed to read INET6 address" err))
    | .ok addr =>
      (.tcp (some { IP := addr.Src, Port := (addr.SrcPort : Int) }),
       .tcp (some { IP := addr.Dst, Port := (addr.DstPort : Int) }), none)
  else if addressFamily = 0x03 then
    match binaryReadAddrUnix followingHeaderBytes with
    | .error err => (.nil, .nil, some (.wrap "failed to read UNIX address" err))
    | .ok addr =>
      (.unix (some { Name := addr.Src }), .unix (some { Name := addr.Dst }), none)
  else (.nil, .nil, some (.errorf "unsupported address family"))

/-- The method `parseV2`. -/
def parseV2 (c : dynamicPPConn) : V2Result × dynamicPPConn :=
  match readByte c with
  | (.error err, c) =>
    ((.nil, .nil, some (.wrap "failed to read protocol version and command byte" err)), c)
  | (.ok protocolVersionAndCommand, c) =>
    let version := protocolVersionAndCommand / 16
    let command := protocolVersionAndCommand % 16
    if version ≠ 2 then ((.nil, .nil, some (.errorf "unsupported protocol version")), c)
    else if command = 0x00 then
      ((.nil, .nil, some (.errorf "LOCAL command is not supported")), c)
    else if command ≠ 0x01 then ((.nil, .nil, some (.errorf "unsupported command")), c)
    else
      match readByte c with
      | (.error err, c) =>
        ((.nil, .nil,
          some (.wrap "failed to read address family and transport byte" err)), c)
      | (.ok addressFamilyAndTransport, c) =>
        let addressFamily := addressFamilyAndTransport / 16
        let transport := addressFamilyAndTransport % 16
        if addressFamily = 0x00 then
          ((.nil, .nil, some (.errorf "UNSPEC address family is not supported")), c)
        else if ¬ (addressFamily = 0x01 ∨ addressFamily = 0x02 ∨ addressFamily = 0x03) then
          ((.nil, .nil, some (.errorf "unsupported address family")), c)
        else if transport = 0x00 then
          ((.nil, .nil, some (.errorf "UNSPEC transport is not supported")), c)
        else if transport = 0x02 then
          ((.nil, .nil, some (.errorf "DGRAM(UDP) transport is not supported")), c)
        else if transport ≠ 0x01 then
          ((.nil, .nil, some (.errorf "unsupported transport")), c)
        else
          match readBytes c 2 with
          | (.error err, c) =>
            ((.nil, .nil, some (.wrap "failed to read following length" err)), c)
          | (.ok followingLengthBytes, c) =>
            let followingLength := Uint16 followingLengthBytes
            match readBytes c followingLength with
            | (.error err, c) =>
              ((.nil, .nil, some (.wrap "failed to read following header" err)), c)
            | (.ok followingHeaderBytes, c) =>
              (decodeV2 addressFamily followingHeaderBytes, c)

/-! ## `listener.go`: detection and reads -/

/-- The first `case` condition of the `switch` in `readProxyProtocol`. -/
def isV1 (buff : List Nat) : Prop :=
  PPv1IdentifierLen ≤ buff.length ∧ buff.take PPv1IdentifierLen = PPv1Identifier

/-- The second `case` condition of the `switch` in `readProxyProtocol`. -/
def isV2 (buff : List Nat) : Prop :=
  PPv2IdentifierLen ≤ buff.length ∧ buff.take PPv2IdentifierLen = PPv2Identifier

instance (buff : List Nat) : Decidable (isV1 buff) := by unfold isV1; infer_instance

instance (buff : List Nat) : Decidable (isV2 buff) := by unfold isV2; infer_instance

/-- The v1 `case` of `readProxyProtocol`, entered with the buffer filled. The
two `*net.TCPAddr` results are stored in fields of interface type. -/
def detectV1 (ParseIP : List Nat → Option (List Nat)) (c : dynamicPPConn) :
    dynamicPPConn :=
  let c := { c with offset := PPv1IdentifierLen }
  match parseV1 ParseIP c with
  | ((srcAddr, dstAddr, err), c) =>
    let c := if err.isSome then { c with offset := 0 } else c
    { c with srcAddr := NetAddr.tcp srcAddr, dstAddr := NetAddr.tcp dstAddr }

/-- The v2 `case` of `readProxyProtocol`, entered with the buffer filled. -/
def detectV2 (c : dynamicPPConn) : dynamicPPConn :=
  let c := { c with offset := PPv2IdentifierLen }
  match parseV2 c with
  | ((srcAddr, dstAddr, err), c) =>
    let c := if err.isSome then { c with offset := 0 } else c
    { c with srcAddr := srcAddr, dstAddr := dstAddr }

/-- The method `readProxyProtocol`. -/
def readProxyProtocol (ParseIP : List Nat → Option (List Nat)) (c : dynamicPPConn) :
    Option GoError × dynamicPPConn :=
  match c.Conn.Read c.buff.length with
  | ((_, some err), conn) => (some err, { c with Conn := conn })
  | ((data, none), conn) =>
    let c := { c with Conn := conn, buff := data, readFunc := ReadFunc.deferredReadFunc }
    if isV1 c.buff then (none, detectV1 ParseIP c)
    else if isV2 c.buff then (none, detectV2 c)
    else (none, c)

/-- The call `c.once.Do(func() { c.readErr = c.readProxyProtocol() })`. -/
def onceDo (ParseIP : List Nat → Option (List Nat)) (c : dynamicPPConn) :
    dynamicPPConn :=
  if c.once then c
  else
    match readProxyProtocol ParseIP c with
    | (err, c) => { c with readErr := err, once := true }

/-- The method `deferredReadFunc`, for a destination of `k` bytes. The cursor
never exceeds the length of the buffer, so the truncated subtraction is the
subtraction of the source. -/
def deferredReadFunc (c : dynamicPPConn) (k : Nat) : ReadResult × dynamicPPConn :=
  if c.buff.length - c.offset > 0 then
    let copied := (c.buff.drop c.offset).take k
    ((copied, none), { c with offset := c.offset + copied.length })
  else
    let c := { c with readFunc := ReadFunc.connRead }
    match c.Conn.Read k with
    | (res, conn) => (res, { c with Conn := conn })

/-- The call `c.readFunc(b)`. -/
def callReadFunc (c : dynamicPPConn) (k : Nat) : ReadResult × dynamicPPConn :=
  match c.readFunc with
  | ReadFunc.deferredReadFunc => deferredReadFunc c k
  | ReadFunc.connRead =>
    match c.Conn.Read k with
    | (res, conn) => (res, { c with Conn := conn })

/-- The method `Read`, for a destination of `k` bytes. -/
def Read (ParseIP : List Nat → Option (List Nat)) (c : dynamicPPConn) (k : Nat) :
    ReadResult × dynamicPPConn :=
  let c := onceDo ParseIP c
  match c.readErr with
  | some err => (([], some err), c)
  | none => callReadFunc c k

/-- The method `LocalAddr`. -/
def LocalAddr (ParseIP : List Nat → Option (List Nat)) (c : dynamicPPConn) :
    NetAddr × dynamicPPConn :=
  let c := onceDo ParseIP c
  if c.dstAddr.notNil then (c.dstAddr, c) else (c.Conn.localAddr, c)

/-- The method `RemoteAddr`. -/
def RemoteAddr (ParseIP : List Nat → Option (List Nat)) (c : dynamicPPConn) :
    NetAddr × dynamicPPConn :=
  let c := onceDo ParseIP c
  if c.srcAddr.notNil then (c.srcAddr, c) else (c.Conn.remoteAddr, c)

/-- A sequence of `Read` calls with the destination sizes `ks`: the bytes
returned by the calls, one list per call, and the connection afterwards. -/
def Reads (ParseIP : List Nat → Option (List Nat)) :
    dynamicPPConn → List Nat → List (List Nat) × dynamicPPConn
  | c, [] => ([], c)
  | c, k :: ks =>
    match Read ParseIP c k with
    | ((out, _), c1) =>
      match Reads ParseIP c1 ks with
      | (outs, c2) => (out :: outs, c2)

/-! ## An IP-literal reader for concrete inputs -/

/-- The field loop of the IPv4 branch of `net.ParseIP`: decimal octets without
leading zero, each at most 255, separated by single dots. `prevDot` says that
the byte before the current one is a dot or that there is none. -/
def parseIPv4Fields : List Nat → Bool → Nat → Nat → List Nat → Option (List Nat)
  | [], _, val, _, fields => if fields.length < 3 then none else some (fields ++ [val])
  | ch :: rest, prevDot, val, digLen, fields =>
    if 48 ≤ ch ∧ ch ≤ 57 then
      if digLen = 1 ∧ val = 0 then none
      else if val * 10 + (ch - 48) > 255 then none
      else parseIPv4Fields rest false (val * 10 + (ch - 48)) (digLen + 1) fields
    else if ch = 46 then
      if prevDot ∨ rest = [] then none
      else if fields.length = 3 then none
      else parseIPv4Fields rest true 0 0 (fields ++ [val])
    else none

/-- The function `net.ParseIP` on dotted-quad literals, which it returns in
the 16-byte form. Literals with a colon take the IPv6 branch of the library,
which this instance does not cover: it answers `none` for them. -/
def parseIPv4 (s : List Nat) : Option (List Nat) :=
  (parseIPv4Fields s true 0 0 []).map fun fields =>
    [0, 0, 0, 0, 0, 0, 0, 0, 0, 0, 0xFF, 0xFF] ++ fields

/-- Value of a hexadecimal digit, as read by the group loop of the IPv6 branch
of `net.ParseIP`. -/
def hexVal (ch : Nat) : Option Nat :=
  if 48 ≤ ch ∧ ch ≤ 57 then some (ch - 48)
  else if 97 ≤ ch ∧ ch ≤ 102 then some (ch - 97 + 10)
  else if 65 ≤ ch ∧ ch ≤ 70 then some (ch - 65 + 10)
  else none

/-- The inner loop of the IPv6 branch of `net.ParseIP`: reads hexadecimal
digits from `s`; `off` digits read so far with value `acc`. The result is the
number of digits, the value and the rest of the string; `none` is the error of
a fifth digit or of a value above `0xFFFF`. -/
def parseHexGroup : List Nat → Nat → Nat → Option (Nat × Nat × List Nat)
  | [], off, acc => some (off, acc, [])
  | ch :: rest, off, acc =>
    match hexVal ch with
    | none => some (off, acc, ch :: rest)
    | some v =>
      let acc := acc * 16 + v
      if off > 3 then none
      else if acc > 0xFFFF then none
      else parseHexGroup rest (off + 1) acc

/-- The group loop `for i < 16` of the IPv6 branch of `net.ParseIP`: `ip` holds
the `i` bytes written so far, `ellipsis` the position of `::` if one was seen,
and the first argument counts the groups that still fit (`(16 - i) / 2`). The
result is the rest of the string, the bytes and the ellipsis at the exit of the
loop; `none` is an error. -/
def parseIPv6Loop : Nat → List Nat → List Nat → Option Nat →
    Option (List Nat × List Nat × Option Nat)
  | 0, s, ip, ellipsis => some (s, ip, ellipsis)
  | groups + 1, s, ip, ellipsis =>
    match parseHexGroup s 0 0 with
    | none => none
    | some (off, acc, s1) =>
      if off = 0 then none
      else if s1.head? = some 46 then
        if ellipsis.isNone ∧ ip.length ≠ 12 then none
        else if ip.length + 4 > 16 then none
        else
          match parseIPv4Fields s true 0 0 [] with
          | none => none
          | some fields => some ([], ip ++ fields, ellipsis)
      else
        match s1 with
        | [] => some ([], ip ++ [acc / 256, acc % 256], ellipsis)
        | ch :: s2 =>
          if ch ≠ 58 then none
          else
            match s2 with
            | [] => none
            | ch2 :: s3 =>
              if ch2 = 58 then
                if ellipsis.isSome then none
                else if s3 = [] then
                  some ([], ip ++ [acc / 256, acc % 256], some (ip.length + 2))
                else
                  parseIPv6Loop groups s3 (ip ++ [acc / 256, acc % 256]) (some (ip.length + 2))
              else parseIPv6Loop groups s2 (ip ++ [acc / 256, acc % 256]) ellipsis

/-- The IPv6 branch of `net.ParseIP`. A literal with a zone (`%`) is refused:
`net.ParseIP` answers nil for it. -/
def parseIPv6 (s : List Nat) : Option (List Nat) :=
  if 37 ∈ s then none
  else
    let lead := s.take 2 = [58, 58]
    let s1 := if lead then s.drop 2 else s
    if lead ∧ s1 = [] then some (List.replicate 16 0)
    else
      match parseIPv6Loop 8 s1 [] (if lead then some 0 else none) with
      | none => none
      | some (s2, ip, ellipsis) =>
        if s2 ≠ [] then none
        else if ip.length < 16 then
          match ellipsis with
          | none => none
          | some e => some (ip.take e ++ List.replicate (16 - ip.length) 0 ++ ip.drop e)
        else if ellipsis.isSome then none
        else some ip

/-- The function `net.ParseIP`: the first `.` or `:` of the string selects the
IPv4 or the IPv6 branch; a string with neither is refused. -/
def netParseIP (s : List Nat) : Option (List Nat) :=
  match s.find? fun ch => ch = 46 ∨ ch = 58 with
  | none => none
  | some ch => if ch = 46 then parseIPv4 s else parseIPv6 s

/-- The decimal rendering of a natural number (`strconv.Itoa`). -/
def decimal (n : Nat) : List Nat :=
  if n = 0 then [48] else ((Nat.digits 10 n).map (· + 48)).reverse

/-! ## Inputs on the wire -/

/-- A v1 header on the wire:
`"PROXY " proto " " src-ip " " dst-ip " " src-port " " dst-port "\r\n"`. -/
def v1Header (proto s d sp dp : List Nat) : List Nat :=
  PPv1Identifier ++ proto ++ [0x20] ++ s ++ [0x20] ++ d ++ [0x20] ++ sp ++ [0x20] ++ dp ++ CRLF

/-- What follows the protocol token in a v1 header followed by `P`. -/
def v1Tail (s d sp dp P : List Nat) : List Nat :=
  [0x20] ++ s ++ [0x20] ++ d ++ [0x20] ++ sp ++ [0x20] ++ dp ++ CRLF ++ P

/-- A v2 header on the wire with version/command byte `0x21`: the signature,
the family/transport byte, the length `L` in big-endian and the address
block. -/
def v2Header (fam L : Nat) (block : List Nat) : List Nat :=
  PPv2Identifier ++ [0x21, fam, L / 256, L % 256] ++ block

/-- A new connection over an underlying connection whose first read finds the
bytes `first`. -/
def freshConn (first : List Nat) (rest : List ReadEvent) (la ra : NetAddr) : dynamicPPConn :=
  newDynamicPPConn { script := ReadEvent.data first :: rest, localAddr := la, remoteAddr := ra }

/-- The connection of `freshConn` right after the detection read, before the
`switch` of `readProxyProtocol`. -/
def filledConn (first : List Nat) (rest : List ReadEvent) (la ra : NetAddr) : dynamicPPConn :=
  { Conn := { script := rest, localAddr := la, remoteAddr := ra }, once := false,
    buff := first, offset := 0, readFunc := ReadFunc.deferredReadFunc, readErr := none,
    srcAddr := NetAddr.nil, dstAddr := NetAddr.nil }

/-- The cursor after a v1 header with the given token lengths, read from
cursor `o`. -/
def v1End (o : Nat) (t1 t2 t3 t4 t5 : List Nat) : Nat :=
  o + (t1.length + 1) + (t2.length + 1) + (t3.length + 1) + (t4.length + 1) + (t5.length + 2)

/-- The big-endian value of the two bytes of `b` at offsets `i` and `i + 1`. -/
def be16At (b : List Nat) (i : Nat) : Nat :=
  b.getD i 0 * 256 + b.getD (i + 1) 0

/-- The address value `&net.TCPAddr{IP: ip, Port: port}`. -/
def tcpAddr (ip : List Nat) (port : Int) : NetAddr :=
  NetAddr.tcp (some { IP := ip, Port := port })

/-- The address value `&net.UnixAddr{Name: name}`. -/
def unixAddr (name : List Nat) : NetAddr :=
  NetAddr.unix (some { Name := name })

/-- A token that has the form of an integer: an optional sign `-` or `+`
followed by at least one decimal digit. -/
def isSignedDecimal (s : List Nat) : Bool :=
  match s with
  | [] => false
  | c0 :: tl =>
    let body := if c0 = 45 ∨ c0 = 43 then tl else s
    !body.isEmpty && body.all fun ch => decide (48 ≤ ch ∧ ch ≤ 57)

/-! ## Concrete inputs -/

/-- The literal `"10.1.1.1"`. -/
def lit10 : List Nat := [49, 48, 46, 49, 46, 49, 46, 49]

/-- The literal `"20.2.2.2"`. -/
def lit20 : List Nat := [50, 48, 46, 50, 46, 50, 46, 50]

/-- The literal `"::1"`. -/
def litLoopback6 : List Nat := [58, 58, 49]

/-- The literal `"2001:db8::2"`. -/
def litDoc6 : List Nat := [50, 48, 48, 49, 58, 100, 98, 56, 58, 58, 50]

/-- The payload `"ping"`. -/
def ping : List Nat := [112, 105, 110, 103]

/-- An address of the underlying connection, `127.0.0.1` with the given port. -/
def loopback (port : Int) : NetAddr :=
  NetAddr.tcp (some { IP := [127, 0, 0, 1], Port := port })

/-- The INET block `10.1.1.1, 20.2.2.2, 1000, 2000`. -/
def inetBlock : List Nat := [10, 1, 1, 1, 20, 2, 2, 2, 3, 232, 7, 208]

/-! ## Bookkeeping for sequences of reads -/

/-- A read event that delivers bytes. -/
def ReadEvent.isData : ReadEvent → Bool
  | ReadEvent.data _ => true
  | ReadEvent.fail _ => false

/-- The bytes a connection has taken from the underlying connection and not
yet returned to its caller: the buffer from the cursor on, once detection has
run. -/
def heldBack (c : dynamicPPConn) : List Nat :=
  if c.once then c.buff.drop c.offset else []

/-- The state of a connection in bypass over an underlying connection with the
addresses `la`, `ra` whose events all deliver bytes: detection has run without
error and stored no address, and once reads go to the underlying connection
the buffer has been used up. -/
def Bypassed (la ra : NetAddr) (c : dynamicPPConn) : Prop :=
  c.once = true ∧ c.readErr = none ∧ c.srcAddr = NetAddr.nil ∧ c.dstAddr = NetAddr.nil ∧
  c.Conn.localAddr = la ∧ c.Conn.remoteAddr = ra ∧
  (∀ e ∈ c.Conn.script, ReadEvent.isData e = true) ∧
  (c.readFunc = ReadFunc.connRead → c.buff.drop c.offset = [])

instance (la ra : NetAddr) (c : dynamicPPConn) : Decidable (Bypassed la ra c) := by
  unfold Bypassed; infer_instance

/-- What is still ahead of the caller, counted so that every read into a
non-empty destination lowers it: the bytes held back, the bytes not yet
delivered by the underlying connection, and its events. -/
def backlog (c : dynamicPPConn) : Nat :=
  (heldBack c).length + c.Conn.pending.length + c.Conn.script.length

/-! ## Sequences of calls -/

/-- A sequence of `Read` calls made on the underlying connection itself, with
the destination sizes `ks`: the result of every call and the connection
afterwards. -/
def RawConn.ReadLog : RawConn → List Nat → List ReadResult × RawConn
  | r, [] => ([], r)
  | r, k :: ks =>
    match r.Read k with
    | (res, r1) =>
      match RawConn.ReadLog r1 ks with
      | (ress, r2) => (res :: ress, r2)

/-- A sequence of `Read` calls with the destination sizes `ks`: the result of
every call, error included, and the connection afterwards. -/
def ReadLog (ParseIP : List Nat → Option (List Nat)) :
    dynamicPPConn → List Nat → List ReadResult × dynamicPPConn
  | c, [] => ([], c)
  | c, k :: ks =>
    match Read ParseIP c k with
    | (res, c1) =>
      match ReadLog ParseIP c1 ks with
      | (ress, c2) => (res :: ress, c2)

/-- A call of one of the three methods of the connection that trigger
detection. -/
inductive Call where
  | Read (k : Nat)
  | LocalAddr
  | RemoteAddr
  deriving DecidableEq, Repr

/-- What a call returns. -/
inductive Outcome where
  | read (res : ReadResult)
  | addr (a : NetAddr)
  deriving DecidableEq, Repr

/-- One call on the connection. -/
def call (ParseIP : List Nat → Option (List Nat)) (c : dynamicPPConn) :
    Call → Outcome × dynamicPPConn
  | Call.Read k => ((Outcome.read (Read ParseIP c k).1), (Read ParseIP c k).2)
  | Call.LocalAddr => ((Outcome.addr (LocalAddr ParseIP c).1), (LocalAddr ParseIP c).2)
  | Call.RemoteAddr => ((Outcome.addr (RemoteAddr ParseIP c).1), (RemoteAddr ParseIP c).2)

/-- A sequence of calls on the connection, in order. -/
def calls (ParseIP : List Nat → Option (List Nat)) :
    dynamicPPConn → List Call → List Outcome × dynamicPPConn
  | c, [] => ([], c)
  | c, op :: ops =>
    match call ParseIP c op with
    | (out, c1) =>
      match calls ParseIP c1 ops with
      | (outs, c2) => (out :: outs, c2)

/-- The cursor invariant: the cursor is at most the length of the buffer (it
is a natural number, so it is never negative). -/
def cursorOK (c : dynamicPPConn) : Prop :=
  c.offset ≤ c.buff.length

instance (c : dynamicPPConn) : Decidable (cursorOK c) := by unfold cursorOK; infer_instance

/-- The delimiter `sep` occurs in `s` at position `i`. -/
def occursAt (s sep : List Nat) (i : Nat) : Prop :=
  sep <+: s.drop i

instance (s sep : List Nat) (i : Nat) : Decidable (occursAt s sep i) := by
  unfold occursAt; infer_instance

/-- The fixed size of the address block of a family/transport byte. -/
def blockSize (fam : Nat) : Nat :=
  if fam = 0x11 then 12 else if fam = 0x21 then 36 else 216

/-- An INET block followed by 8 more bytes. -/
def longBlock : List Nat := inetBlock ++ [1, 2, 3, 4, 5, 6, 7, 8]

/-- What every call returns on a connection whose detection read failed with
`e`, over an underlying connection with the addresses `la`, `ra`. -/
def failedOutcome (e : GoError) (la ra : NetAddr) : Call → Outcome
  | Call.Read _ => Outcome.read ([], some e)
  | Call.LocalAddr => Outcome.addr la
  | Call.RemoteAddr => Outcome.addr ra

/-- The step from `c` to `c'` only moves the cursor, and moves it forward,
staying within the buffer if it was within the buffer. -/
def advances (c c' : dynamicPPConn) : Prop :=
  c' = { c with offset := c'.offset } ∧ c.offset ≤ c'.offset ∧
  (c.offset ≤ c.buff.length → c'.offset ≤ c.buff.length)

/-- From `c` to `c'` the buffer is the same, the cursor has not decreased and
it is still within the buffer. -/
def cursorAdvanced (c c' : dynamicPPConn) : Prop :=
  c'.buff = c.buff ∧ c.offset ≤ c'.offset ∧ c'.offset ≤ c'.buff.length

set_option maxRecDepth 100000

/-! ## Searching for a delimiter -/

theorem IndexByte_append (tok rest : List Nat) (d : Nat) (h : d ∉ tok) :
    IndexByte (tok ++ d :: rest) d = some tok.length := by
  induction tok with
  | nil => simp [IndexByte]
  | cons x xs ih =>
    have hx : x ≠ d := fun e => h (by simp [e])
    have hxs : d ∉ xs := fun e => h (by simp [e])
    simp [IndexByte, hx, ih hxs]

theorem IndexByte_eq_none (s : List Nat) (d : Nat) (h : d ∉ s) : IndexByte s d = none := by
  induction s with
  | nil => simp [IndexByte]
  | cons x xs ih =>
    have hx : x ≠ d := fun e => h (by simp [e])
    have hxs : d ∉ xs := fun e => h (by simp [e])
    simp [IndexByte, hx, ih hxs]

theorem IndexByte_eq_some (s : List Nat) (d : Nat) (i : Nat) (h : IndexByte s d = some i) :
    ∃ rest, s = s.take i ++ d :: rest ∧ d ∉ s.take i ∧ (s.take i).length = i := by
  induction s generalizing i with
  | nil => simp [IndexByte] at h
  | cons x xs ih =>
    by_cases hx : x = d
    · simp [IndexByte, hx] at h
      subst h
      exact ⟨xs, by simp [hx], by simp, by simp⟩
    · simp only [IndexByte, hx, if_false, Option.map_eq_some'] at h
      obtain ⟨j, hj, rfl⟩ := h
      obtain ⟨rest, h1, h2, h3⟩ := ih j hj
      refine ⟨rest, ?_, ?_, ?_⟩
      · simp only [List.take_succ_cons, List.cons_append]
        rw [← h1]
      · simp only [List.take_succ_cons, List.mem_cons, not_or]
        exact ⟨fun e => hx e.symm, h2⟩
      · simp only [List.take_succ_cons, List.length_cons, h3]

theorem Index_append (tok rest : List Nat) (h : Nat) (t : List Nat) (hh : h ∉ tok) :
    Index (tok ++ (h :: t) ++ rest) (h :: t) = some tok.length := by
  induction tok with
  | nil =>
    cases t <;> simp [Index]
  | cons x xs ih =>
    have hx : h ≠ x := fun e => hh (by simp [e])
    have hxs : h ∉ xs := fun e => hh (by simp [e])
    have := ih hxs
    simp only [List.append_assoc, List.cons_append] at this ⊢
    simp [Index, hx, this]

theorem Index_eq_some (s sep : List Nat) (i : Nat) (h : Index s sep = some i) :
    ∃ rest, s = s.take i ++ sep ++ rest ∧ (s.take i).length = i := by
  induction s generalizing i with
  | nil =>
    by_cases hs : sep = []
    · simp [Index, hs] at h
      subst h
      exact ⟨[], by simp [hs], by simp⟩
    · simp [Index, hs] at h
  | cons x xs ih =>
    by_cases hp : sep <+: x :: xs
    · simp [Index, hp] at h
      subst h
      obtain ⟨r, hr⟩ := hp
      exact ⟨r, by simp [hr], by simp⟩
    · simp only [Index, hp, if_false, Option.map_eq_some'] at h
      obtain ⟨j, hj, rfl⟩ := h
      obtain ⟨rest, h1, h2⟩ := ih j hj
      refine ⟨rest, ?_, ?_⟩
      · simp only [List.take_succ_cons, List.cons_append]
        rw [← h1]
      · simp only [List.take_succ_cons, List.length_cons, h2]

/-! ## The cursor readers -/

theorem drop_step (b : List Nat) (o n : Nat) (tok rest : List Nat)
    (h : b.drop o = tok ++ rest) (hn : tok.length = n) : b.drop (o + n) = rest := by
  have : b.drop (o + n) = (b.drop o).drop n := by
    rw [List.drop_drop, Nat.add_comm]
  rw [this, h, ← hn]
  simp

theorem readString_ok (c : dynamicPPConn) (d : Nat) (tok rest : List Nat)
    (h : c.buff.drop c.offset = tok ++ d :: rest) (hd : d ∉ tok) :
    readString c d = (.ok tok, { c with offset := c.offset + (tok.length + 1) }) := by
  unfold readString
  rw [h, IndexByte_append _ _ _ hd]
  have e1 : c.offset + (tok.length + 1) - tok.length - 1 = c.offset := by omega
  have e2 : c.offset + (tok.length + 1) - 1 - c.offset = tok.length := by omega
  simp only [slice, e1, e2, h]
  simp

theorem readString_fail (c : dynamicPPConn) (d : Nat) (h : d ∉ c.buff.drop c.offset) :
    readString c d = (.error GoError.EOF, c) := by
  unfold readString
  rw [IndexByte_eq_none _ _ h]

theorem readString_cases (c : dynamicPPConn) (d : Nat) :
    (∃ tok rest, c.buff.drop c.offset = tok ++ d :: rest ∧ d ∉ tok ∧
      readString c d = (.ok tok, { c with offset := c.offset + (tok.length + 1) })) ∨
    (d ∉ c.buff.drop c.offset ∧ readString c d = (.error GoError.EOF, c)) := by
  by_cases hm : d ∈ c.buff.drop c.offset
  · obtain ⟨tok, rest, h1, h2⟩ := List.eq_append_cons_of_mem hm
    exact Or.inl ⟨tok, rest, h1, h2, readString_ok c d tok rest h1 h2⟩
  · exact Or.inr ⟨hm, readString_fail c d hm⟩

theorem readString2_ok (c : dynamicPPConn) (h0 : Nat) (t tok rest : List Nat)
    (h : c.buff.drop c.offset = tok ++ (h0 :: t) ++ rest) (hd : h0 ∉ tok) :
    readString2 c (h0 :: t) =
      (.ok tok, { c with offset := c.offset + (tok.length + (h0 :: t).length) }) := by
  unfold readString2
  rw [h, Index_append _ _ _ _ hd]
  have e1 : c.offset + (tok.length + (h0 :: t).length) - tok.length - (h0 :: t).length
      = c.offset := by omega
  have e2 : c.offset + (tok.length + (h0 :: t).length) - (h0 :: t).length - c.offset
      = tok.length := by omega
  simp only [slice, e1, e2, h]
  simp

theorem readString2_cases (c : dynamicPPConn) (sep : List Nat) :
    (∃ tok rest, c.buff.drop c.offset = tok ++ sep ++ rest ∧
      readString2 c sep = (.ok tok, { c with offset := c.offset + (tok.length + sep.length) })) ∨
    readString2 c sep = (.error GoError.EOF, c) := by
  unfold readString2
  cases hi : Index (c.buff.drop c.offset) sep with
  | none => exact Or.inr rfl
  | some i =>
    obtain ⟨rest, h1, h2⟩ := Index_eq_some _ _ _ hi
    refine Or.inl ⟨(c.buff.drop c.offset).take i, rest, h1, ?_⟩
    have e1 : c.offset + (i + sep.length) - i - sep.length = c.offset := by omega
    have e2 : c.offset + (i + sep.length) - sep.length - c.offset = i := by omega
    simp only [slice, e1, e2, h2]

theorem readByte_ok (c : dynamicPPConn) (x : Nat) (rest : List Nat)
    (h : c.buff.drop c.offset = x :: rest) :
    readByte c = (.ok x, { c with offset := c.offset + 1 }) := by
  have hlt : c.offset < c.buff.length := by
    by_contra hge
    rw [List.drop_eq_nil_of_le (by omega)] at h
    exact List.noConfusion h
  have hx : c.buff.getD c.offset 0 = x := by
    have := congrArg (fun l => l.getD 0 0) h
    simpa using this
  unfold readByte
  rw [if_neg (by omega)]
  simp only [Nat.add_sub_cancel, hx]

theorem readByte_fail (c : dynamicPPConn) (h : c.buff.length ≤ c.offset) :
    readByte c = (.error GoError.EOF, c) := by
  unfold readByte
  simp [h]

theorem readBytes_ok (c : dynamicPPConn) (n : Nat) (h : c.offset + n ≤ c.buff.length) :
    readBytes c n =
      (.ok ((c.buff.drop c.offset).take n), { c with offset := c.offset + n }) := by
  unfold readBytes
  have e1 : c.offset + n - n = c.offset := by omega
  have e2 : c.offset + n - c.offset = n := by omega
  simp [Nat.not_lt.mpr h, slice, e1, e2]

theorem readBytes_fail (c : dynamicPPConn) (n : Nat) (h : c.buff.length < c.offset + n) :
    readBytes c n = (.error GoError.EOF, c) := by
  unfold readBytes
  simp [h]

/-! ## The v1 reader -/

theorem parseV1_cases (ParseIP : List Nat → Option (List Nat)) (c : dynamicPPConn) :
    (∃ t1 t2 t3 t4 t5 rest ip1 ip2 p1 p2,
      c.buff.drop c.offset
        = t1 ++ 0x20 :: (t2 ++ 0x20 :: (t3 ++ 0x20 :: (t4 ++ 0x20 :: (t5 ++ CRLF ++ rest)))) ∧
      0x20 ∉ t1 ∧ 0x20 ∉ t2 ∧ 0x20 ∉ t3 ∧ 0x20 ∉ t4 ∧
      (t1 = TCP4 ∨ t1 = TCP6) ∧ ParseIP t2 = some ip1 ∧ ParseIP t3 = some ip2 ∧
      Atoi t4 = some p1 ∧ Atoi t5 = some p2 ∧
      parseV1 ParseIP c
        = ((some { IP := ip1, Port := p1 }, some { IP := ip2, Port := p2 }, none),
           { c with offset := v1End c.offset t1 t2 t3 t4 t5 })) ∨
    (∃ e o, parseV1 ParseIP c = ((none, none, some e), { c with offset := o })) := by
  rcases readString_cases c 0x20 with ⟨t1, r1, h1, n1, e1⟩ | ⟨_, e1⟩
  swap
  · refine Or.inr ⟨GoError.wrap "failed to read inet protocol and family" GoError.EOF,
      c.offset, ?_⟩
    simp only [parseV1, e1]
  by_cases hp : t1 = TCP4 ∨ t1 = TCP6
  swap
  · exact Or.inr ⟨_, _, by
      simp only [parseV1, e1, hp, not_false_eq_true, if_true]
      rfl⟩
  have d1 := drop_step c.buff c.offset (t1.length + 1) (t1 ++ [0x20]) r1
    (by simpa using h1) (by simp)
  rcases readString_cases { c with offset := c.offset + (t1.length + 1) } 0x20
    with ⟨t2, r2, h2, n2, e2⟩ | ⟨_, e2⟩
  swap
  · exact Or.inr ⟨_, _, by
      simp only [parseV1, e1, hp, not_true_eq_false, if_false, e2]
      rfl⟩
  dsimp only at h2 e2
  rw [d1] at h2
  cases hs : ParseIP t2 with
  | none =>
    exact Or.inr ⟨_, _, by
      simp only [parseV1, e1, hp, not_true_eq_false, if_false, e2, hs]
      rfl⟩
  | some ip1 =>
  have d2 := drop_step c.buff (c.offset + (t1.length + 1)) (t2.length + 1) (t2 ++ [0x20]) r2
    (by rw [d1, h2]; simp) (by simp)
  rcases readString_cases { c with offset := c.offset + (t1.length + 1) + (t2.length + 1) } 0x20
    with ⟨t3, r3, h3, n3, e3⟩ | ⟨_, e3⟩
  swap
  · exact Or.inr ⟨_, _, by
      simp only [parseV1, e1, hp, not_true_eq_false, if_false, e2, hs, e3]
      rfl⟩
  dsimp only at h3 e3
  rw [d2] at h3
  cases hd : ParseIP t3 with
  | none =>
    exact Or.inr ⟨_, _, by
      simp only [parseV1, e1, hp, not_true_eq_false, if_false, e2, hs, e3, hd]
      rfl⟩
  | some ip2 =>
  have d3 := drop_step c.buff (c.offset + (t1.length + 1) + (t2.length + 1)) (t3.length + 1)
    (t3 ++ [0x20]) r3 (by rw [d2, h3]; simp) (by simp)
  rcases readString_cases
      { c with offset := c.offset + (t1.length + 1) + (t2.length + 1) + (t3.length + 1) } 0x20
    with ⟨t4, r4, h4, n4, e4⟩ | ⟨_, e4⟩
  swap
  · exact Or.inr ⟨_, _, by
      simp only [parseV1, e1, hp, not_true_eq_false, if_false, e2, hs, e3, hd, e4]
      rfl⟩
  dsimp only at h4 e4
  rw [d3] at h4
  cases hsp : Atoi t4 with
  | none =>
    exact Or.inr ⟨_, _, by
      simp only [parseV1, e1, hp, not_true_eq_false, if_false, e2, hs, e3, hd, e4, hsp]
      rfl⟩
  | some p1 =>
  have d4 := drop_step c.buff
    (c.offset + (t1.length + 1) + (t2.length + 1) + (t3.length + 1)) (t4.length + 1)
    (t4 ++ [0x20]) r4 (by rw [d3, h4]; simp) (by simp)
  rcases readString2_cases
      { c with offset :=
          c.offset + (t1.length + 1) + (t2.length + 1) + (t3.length + 1) + (t4.length + 1) } CRLF
    with ⟨t5, r5, h5, e5⟩ | e5
  swap
  · exact Or.inr ⟨_, _, by
      simp only [parseV1, e1, hp, not_true_eq_false, if_false, e2, hs, e3, hd, e4, hsp, e5]
      rfl⟩
  dsimp only at h5 e5
  rw [d4] at h5
  cases hdp : Atoi t5 with
  | none =>
    exact Or.inr ⟨_, _, by
      simp only [parseV1, e1, hp, not_true_eq_false, if_false, e2, hs, e3, hd, e4, hsp, e5, hdp]
      rfl⟩
  | some p2 =>
  refine Or.inl ⟨t1, t2, t3, t4, t5, r5, ip1, ip2, p1, p2, ?_, n1, n2, n3, n4, hp, hs, hd,
    hsp, hdp, ?_⟩
  · rw [h1, h2, h3, h4, h5]
  · simp only [parseV1, e1, hp, not_true_eq_false, if_false, e2, hs, e3, hd, e4, hsp, e5, hdp,
      v1End]
    rfl

theorem parseV1_shape (ParseIP : List Nat → Option (List Nat)) (c : dynamicPPConn)
    (t1 t2 t3 t4 t5 rest : List Nat)
    (hshape : c.buff.drop c.offset
      = t1 ++ 0x20 :: (t2 ++ 0x20 :: (t3 ++ 0x20 :: (t4 ++ 0x20 :: (t5 ++ CRLF ++ rest)))))
    (n1 : 0x20 ∉ t1) (n2 : 0x20 ∉ t2) (n3 : 0x20 ∉ t3) (n4 : 0x20 ∉ t4) (n5 : 0x0D ∉ t5) :
    (∃ ip1 ip2 p1 p2, (t1 = TCP4 ∨ t1 = TCP6) ∧ ParseIP t2 = some ip1 ∧ ParseIP t3 = some ip2 ∧
      Atoi t4 = some p1 ∧ Atoi t5 = some p2 ∧
      parseV1 ParseIP c
        = ((some { IP := ip1, Port := p1 }, some { IP := ip2, Port := p2 }, none),
           { c with offset := v1End c.offset t1 t2 t3 t4 t5 })) ∨
    ((¬ (t1 = TCP4 ∨ t1 = TCP6) ∨ ParseIP t2 = none ∨ ParseIP t3 = none ∨
        Atoi t4 = none ∨ Atoi t5 = none) ∧
      ∃ e o, parseV1 ParseIP c = ((none, none, some e), { c with offset := o })) := by
  have e1 := readString_ok c 0x20 t1 _ hshape n1
  have d1 := drop_step c.buff c.offset (t1.length + 1) (t1 ++ [0x20]) _
    (by simpa using hshape) (by simp)
  have e2 := readString_ok { c with offset := c.offset + (t1.length + 1) } 0x20 t2 _ d1 n2
  have d2 := drop_step c.buff (c.offset + (t1.length + 1)) (t2.length + 1) (t2 ++ [0x20]) _
    (by simpa using d1) (by simp)
  have e3 := readString_ok
    { c with offset := c.offset + (t1.length + 1) + (t2.length + 1) } 0x20 t3 _ d2 n3
  have d3 := drop_step c.buff (c.offset + (t1.length + 1) + (t2.length + 1)) (t3.length + 1)
    (t3 ++ [0x20]) _ (by simpa using d2) (by simp)
  have e4 := readString_ok
    { c with offset := c.offset + (t1.length + 1) + (t2.length + 1) + (t3.length + 1) }
    0x20 t4 _ d3 n4
  have d4 := drop_step c.buff
    (c.offset + (t1.length + 1) + (t2.length + 1) + (t3.length + 1)) (t4.length + 1)
    (t4 ++ [0x20]) _ (by simpa using d3) (by simp)
  have e5 := readString2_ok
    { c with offset :=
        c.offset + (t1.length + 1) + (t2.length + 1) + (t3.length + 1) + (t4.length + 1) }
    0x0D [0x0A] t5 rest (by rw [d4]; simp [CRLF]) n5
  dsimp only at e2 e3 e4 e5
  by_cases hp : t1 = TCP4 ∨ t1 = TCP6
  swap
  · exact Or.inr ⟨Or.inl hp, _, _, by
      simp only [parseV1, e1, hp, not_false_eq_true, if_true]
      rfl⟩
  cases hs : ParseIP t2 with
  | none =>
    exact Or.inr ⟨Or.inr (Or.inl rfl), _, _, by
      simp only [parseV1, e1, hp, not_true_eq_false, if_false, e2, hs]
      rfl⟩
  | some ip1 =>
  cases hd : ParseIP t3 with
  | none =>
    exact Or.inr ⟨Or.inr (Or.inr (Or.inl rfl)), _, _, by
      simp only [parseV1, e1, hp, not_true_eq_false, if_false, e2, hs, e3, hd]
      rfl⟩
  | some ip2 =>
  cases hsp : Atoi t4 with
  | none =>
    exact Or.inr ⟨Or.inr (Or.inr (Or.inr (Or.inl rfl))), _, _, by
      simp only [parseV1, e1, hp, not_true_eq_false, if_false, e2, hs, e3, hd, e4, hsp]
      rfl⟩
  | some p1 =>
  cases hdp : Atoi t5 with
  | none =>
    exact Or.inr ⟨Or.inr (Or.inr (Or.inr (Or.inr rfl))), _, _, by
      simp only [parseV1, e1, hp, not_true_eq_false, if_false, e2, hs, e3, hd, e4, hsp, CRLF,
        e5, hdp]
      rfl⟩
  | some p2 =>
  refine Or.inl ⟨ip1, ip2, p1, p2, hp, rfl, rfl, rfl, rfl, ?_⟩
  simp only [parseV1, e1, hp, not_true_eq_false, if_false, e2, hs, e3, hd, e4, hsp, CRLF, e5,
    hdp, v1End]
  rfl

/-! ## Decimal tokens -/

theorem atoiDigits_append (a b : List Nat) (acc : Nat) :
    atoiDigits (a ++ b) acc = (atoiDigits a acc).bind (atoiDigits b) := by
  induction a generalizing acc with
  | nil => simp [atoiDigits]
  | cons x xs ih =>
    by_cases hx : 48 ≤ x ∧ x ≤ 57
    · simp [atoiDigits, hx, ih]
    · simp [atoiDigits, hx]

theorem atoiDigits_digits (ds : List Nat) (h : ∀ d ∈ ds, d < 10) (acc : Nat) :
    atoiDigits ((ds.map (· + 48)).reverse) acc
      = some (acc * 10 ^ ds.length + Nat.ofDigits 10 ds) := by
  induction ds generalizing acc with
  | nil => simp [atoiDigits]
  | cons d ds ih =>
    have hd : d < 10 := h d (by simp)
    have hds : ∀ x ∈ ds, x < 10 := fun x hx => h x (by simp [hx])
    have h1 : 48 ≤ d + 48 ∧ d + 48 ≤ 57 := by omega
    simp only [List.map_cons, List.reverse_cons, atoiDigits_append, ih hds, Option.some_bind,
      atoiDigits, h1, and_self, if_true, Nat.add_sub_cancel, Nat.ofDigits_cons,
      List.length_cons]
    congr 1
    ring

theorem decimal_isDigit (n : Nat) : ∀ ch : Nat, ch ∈ decimal n → 48 ≤ ch ∧ ch ≤ 57 := by
  intro ch hch
  unfold decimal at hch
  split at hch
  · simp at hch
    omega
  · simp only [List.mem_reverse, List.mem_map] at hch
    obtain ⟨d, hd, rfl⟩ := hch
    have := Nat.digits_lt_base (b := 10) (by norm_num) hd
    omega

theorem decimal_ne_nil (n : Nat) : decimal n ≠ [] := by
  unfold decimal
  split
  · simp
  · rename_i h
    simp [Nat.digits_eq_nil_iff_eq_zero, h]

theorem atoiDigits_decimal (n : Nat) : atoiDigits (decimal n) 0 = some n := by
  unfold decimal
  split
  · rename_i h
    simp [atoiDigits, h]
  · rw [atoiDigits_digits _ (fun d hd => Nat.digits_lt_base (by norm_num) hd)]
    simp [Nat.ofDigits_digits]

theorem Atoi_of_digits (s : List Nat) (n : Nat) (hne : s ≠ [])
    (hdig : ∀ ch : Nat, ch ∈ s → 48 ≤ ch ∧ ch ≤ 57) (hval : atoiDigits s 0 = some n) :
    Atoi s = if n < 2 ^ 63 then some (n : Int) else none := by
  cases s with
  | nil => exact absurd rfl hne
  | cons c0 tl =>
    have h0 : 48 ≤ c0 ∧ c0 ≤ 57 := hdig c0 (by simp)
    have h45 : c0 ≠ 45 := by omega
    have h43 : c0 ≠ 43 := by omega
    simp only [Atoi, h45, h43, or_self, if_false, hval]
    simp

theorem Atoi_decimal (n : Nat) :
    Atoi (decimal n) = if n < 2 ^ 63 then some (n : Int) else none :=
  Atoi_of_digits _ n (decimal_ne_nil n) (decimal_isDigit n) (atoiDigits_decimal n)

theorem decimal_no_space (n : Nat) : 0x20 ∉ decimal n := fun h => by
  have := decimal_isDigit n 0x20 h
  omega

theorem decimal_no_CR (n : Nat) : 0x0D ∉ decimal n := fun h => by
  have := decimal_isDigit n 0x0D h
  omega

/-! ## Detection -/

theorem readProxyProtocol_fresh (ParseIP : List Nat → Option (List Nat)) (first : List Nat)
    (rest : List ReadEvent) (la ra : NetAddr) (hlen : first.length ≤ 512) :
    readProxyProtocol ParseIP (freshConn first rest la ra)
      = (none,
          if isV1 first then detectV1 ParseIP (filledConn first rest la ra)
          else if isV2 first then detectV2 (filledConn first rest la ra)
          else filledConn first rest la ra) := by
  simp only [readProxyProtocol, freshConn, newDynamicPPConn, RawConn.Read, List.length_replicate,
    hlen, if_true, filledConn]
  split <;> [rfl; (split <;> rfl)]

theorem isV1_v1Header (proto s d sp dp P : List Nat) :
    isV1 (v1Header proto s d sp dp ++ P) := by
  simp [isV1, v1Header, PPv1Identifier, PPv1IdentifierLen]

theorem v1Header_drop (proto s d sp dp P : List Nat) :
    (v1Header proto s d sp dp ++ P).drop 6
      = proto ++ 0x20 :: (s ++ 0x20 :: (d ++ 0x20 :: (sp ++ 0x20 :: (dp ++ CRLF ++ P)))) := by
  simp [v1Header, PPv1Identifier]

theorem v1Header_length (proto s d sp dp : List Nat) :
    (v1Header proto s d sp dp).length = v1End 6 proto s d sp dp := by
  simp [v1Header, PPv1Identifier, CRLF, v1End]
  omega

theorem detectV1_eq (ParseIP : List Nat → Option (List Nat)) (c c1 : dynamicPPConn)
    (a b : Option TCPAddr) (e : Option GoError)
    (h : parseV1 ParseIP { c with offset := 6 } = ((a, b, e), c1)) :
    detectV1 ParseIP c
      = { (if e.isSome then { c1 with offset := 0 } else c1) with
          srcAddr := NetAddr.tcp a, dstAddr := NetAddr.tcp b } := by
  simp only [detectV1, PPv1IdentifierLen, h]

theorem detectV2_eq (c c1 : dynamicPPConn) (a b : NetAddr) (e : Option GoError)
    (h : parseV2 { c with offset := 12 } = ((a, b, e), c1)) :
    detectV2 c
      = { (if e.isSome then { c1 with offset := 0 } else c1) with
          srcAddr := a, dstAddr := b } := by
  simp only [detectV2, PPv2IdentifierLen, h]

theorem deferredReadFunc_buffered (c : dynamicPPConn) (k : Nat) (P : List Nat)
    (h : c.buff.drop c.offset = P) (hP : P ≠ []) :
    deferredReadFunc c k
      = ((P.take k, none), { c with offset := c.offset + (P.take k).length }) := by
  have hl : c.buff.length - c.offset > 0 := by
    have := congrArg List.length h
    rw [List.length_drop] at this
    have : P.length > 0 := List.length_pos.mpr hP
    omega
  simp only [deferredReadFunc, hl, if_true, h]

theorem deferredReadFunc_drained (c : dynamicPPConn) (k : Nat)
    (h : c.buff.drop c.offset = []) :
    deferredReadFunc c k
      = ((c.Conn.Read k).1,
         { c with readFunc := ReadFunc.connRead, Conn := (c.Conn.Read k).2 }) := by
  have hl : ¬ (c.buff.length - c.offset > 0) := by
    have := congrArg List.length h
    rw [List.length_drop] at this
    simp at this
    omega
  simp only [deferredReadFunc, hl, if_false]

theorem Read_first (ParseIP : List Nat → Option (List Nat)) (c0 D : dynamicPPConn) (k : Nat)
    (h0 : c0.once = false) (hD : readProxyProtocol ParseIP c0 = (none, D))
    (hf : D.readFunc = ReadFunc.deferredReadFunc) :
    Read ParseIP c0 k = deferredReadFunc { D with readErr := none, once := true } k := by
  simp only [Read, onceDo, h0, hD, callReadFunc, hf]
  rfl

theorem RemoteAddr_first (ParseIP : List Nat → Option (List Nat)) (c0 D : dynamicPPConn)
    (e : Option GoError) (h0 : c0.once = false) (hD : readProxyProtocol ParseIP c0 = (e, D)) :
    (RemoteAddr ParseIP c0).1 = if D.srcAddr.notNil then D.srcAddr else D.Conn.remoteAddr := by
  simp only [RemoteAddr, onceDo, h0, hD]
  by_cases h : D.srcAddr.notNil = true <;> simp [h]

theorem LocalAddr_first (ParseIP : List Nat → Option (List Nat)) (c0 D : dynamicPPConn)
    (e : Option GoError) (h0 : c0.once = false) (hD : readProxyProtocol ParseIP c0 = (e, D)) :
    (LocalAddr ParseIP c0).1 = if D.dstAddr.notNil then D.dstAddr else D.Conn.localAddr := by
  simp only [LocalAddr, onceDo, h0, hD]
  by_cases h : D.dstAddr.notNil = true <;> simp [h]

/-- Detection on a buffer that starts with a v1 header whose tokens are
delimited as on the wire: the header is accepted exactly when the five tokens
are, and rejected with the cursor back at 0 otherwise. -/
theorem detect_v1Header (ParseIP : List Nat → Option (List Nat))
    (proto s d sp dp P : List Nat) (rest : List ReadEvent) (la ra : NetAddr)
    (n1 : 0x20 ∉ proto) (n2 : 0x20 ∉ s) (n3 : 0x20 ∉ d) (n4 : 0x20 ∉ sp) (n5 : 0x0D ∉ dp)
    (hlen : (v1Header proto s d sp dp ++ P).length ≤ 512) :
    (∃ ip1 ip2 p1 p2, (proto = TCP4 ∨ proto = TCP6) ∧ ParseIP s = some ip1 ∧
      ParseIP d = some ip2 ∧ Atoi sp = some p1 ∧ Atoi dp = some p2 ∧
      readProxyProtocol ParseIP (freshConn (v1Header proto s d sp dp ++ P) rest la ra)
        = (none, { filledConn (v1Header proto s d sp dp ++ P) rest la ra with
            offset := (v1Header proto s d sp dp).length,
            srcAddr := NetAddr.tcp (some { IP := ip1, Port := p1 }),
            dstAddr := NetAddr.tcp (some { IP := ip2, Port := p2 }) })) ∨
    ((¬ (proto = TCP4 ∨ proto = TCP6) ∨ ParseIP s = none ∨ ParseIP d = none ∨
        Atoi sp = none ∨ Atoi dp = none) ∧
      readProxyProtocol ParseIP (freshConn (v1Header proto s d sp dp ++ P) rest la ra)
        = (none, { filledConn (v1Header proto s d sp dp ++ P) rest la ra with
            offset := 0, srcAddr := NetAddr.tcp none, dstAddr := NetAddr.tcp none })) := by
  rw [readProxyProtocol_fresh ParseIP _ rest la ra hlen, if_pos (isV1_v1Header _ _ _ _ _ _)]
  rcases parseV1_shape ParseIP
      { filledConn (v1Header proto s d sp dp ++ P) rest la ra with offset := 6 }
      proto s d sp dp P (by simpa [filledConn] using v1Header_drop proto s d sp dp P)
      n1 n2 n3 n4 n5 with
    ⟨ip1, ip2, p1, p2, hp, h2, h3, h4, h5, he⟩ | ⟨hbad, e, o, he⟩
  · refine Or.inl ⟨ip1, ip2, p1, p2, hp, h2, h3, h4, h5, ?_⟩
    rw [detectV1_eq ParseIP _ _ _ _ _ he, v1Header_length]
    rfl
  · refine Or.inr ⟨hbad, ?_⟩
    rw [detectV1_eq ParseIP _ _ _ _ _ he]
    rfl

theorem onceDo_first (ParseIP : List Nat → Option (List Nat)) (c0 D : dynamicPPConn)
    (e : Option GoError) (h0 : c0.once = false) (hD : readProxyProtocol ParseIP c0 = (e, D)) :
    onceDo ParseIP c0 = { D with readErr := e, once := true } := by
  simp only [onceDo, h0, hD]
  rfl

theorem onceDo_done (ParseIP : List Nat → Option (List Nat)) (c : dynamicPPConn)
    (h : c.once = true) : onceDo ParseIP c = c := by
  simp only [onceDo, h, if_true]

theorem Read_done (ParseIP : List Nat → Option (List Nat)) (c : dynamicPPConn) (k : Nat)
    (h : c.once = true) (he : c.readErr = none)
    (hf : c.readFunc = ReadFunc.deferredReadFunc) :
    Read ParseIP c k = deferredReadFunc c k := by
  simp only [Read, onceDo_done ParseIP c h, he, callReadFunc, hf]

theorem RemoteAddr_snd (ParseIP : List Nat → Option (List Nat)) (c : dynamicPPConn) :
    (RemoteAddr ParseIP c).2 = onceDo ParseIP c := by
  simp only [RemoteAddr]
  split <;> rfl

theorem LocalAddr_snd (ParseIP : List Nat → Option (List Nat)) (c : dynamicPPConn) :
    (LocalAddr ParseIP c).2 = onceDo ParseIP c := by
  simp only [LocalAddr]
  split <;> rfl

/-! ## C1: v1 round trip -/

/-- C1 (amended): a first read `"PROXY " proto " " s " " d " " sp " " dp "\r\n" P`
with `proto` one of `TCP4`, `TCP6`, space-free literals `s`, `d` accepted by
the IP-literal reader and `sp`, `dp` the decimal renderings of integers below
`2 ^ 63` is detected without error with the cursor at the first byte of `P`;
`RemoteAddr` reports `(IP of s, sp)`, `LocalAddr` reports `(IP of d, dp)`; a
`Read` into at least `len(P)` bytes, before or after the address queries,
returns exactly `P` when `P` is not empty, and when `P` is empty it is the
`Read` of the underlying connection. -/
theorem v1_round_trip (ParseIP : List Nat → Option (List Nat))
    (proto s d ips ipd : List Nat) (nsp ndp : Nat) (P : List Nat)
    (rest : List ReadEvent) (la ra : NetAddr) (k : Nat)
    (hproto : proto = TCP4 ∨ proto = TCP6) (hs : 0x20 ∉ s) (hd : 0x20 ∉ d)
    (hips : ParseIP s = some ips) (hipd : ParseIP d = some ipd)
    (hsp : nsp < 2 ^ 63) (hdp : ndp < 2 ^ 63)
    (hlen : (v1Header proto s d (decimal nsp) (decimal ndp) ++ P).length ≤ 512) :
    (readProxyProtocol ParseIP
        (freshConn (v1Header proto s d (decimal nsp) (decimal ndp) ++ P) rest la ra)).1 = none ∧
    (readProxyProtocol ParseIP
        (freshConn (v1Header proto s d (decimal nsp) (decimal ndp) ++ P) rest la ra)).2.offset
      = (v1Header proto s d (decimal nsp) (decimal ndp)).length ∧
    (readProxyProtocol ParseIP
        (freshConn (v1Header proto s d (decimal nsp) (decimal ndp) ++ P) rest la ra)).2.buff
      = v1Header proto s d (decimal nsp) (decimal ndp) ++ P ∧
    (RemoteAddr ParseIP
        (freshConn (v1Header proto s d (decimal nsp) (decimal ndp) ++ P) rest la ra)).1
      = NetAddr.tcp (some { IP := ips, Port := (nsp : Int) }) ∧
    (LocalAddr ParseIP
        (freshConn (v1Header proto s d (decimal nsp) (decimal ndp) ++ P) rest la ra)).1
      = NetAddr.tcp (some { IP := ipd, Port := (ndp : Int) }) ∧
    (P ≠ [] → P.length ≤ k →
      (Read ParseIP
          (freshConn (v1Header proto s d (decimal nsp) (decimal ndp) ++ P) rest la ra) k).1
        = (P, none) ∧
      (Read ParseIP (LocalAddr ParseIP (RemoteAddr ParseIP
          (freshConn (v1Header proto s d (decimal nsp) (decimal ndp) ++ P) rest la ra)).2).2 k).1
        = (P, none)) ∧
    (P = [] →
      (Read ParseIP
          (freshConn (v1Header proto s d (decimal nsp) (decimal ndp) ++ P) rest la ra) k).1
        = (RawConn.Read { script := rest, localAddr := la, remoteAddr := ra } k).1) := by
  have hproto' : 0x20 ∉ proto := by
    rcases hproto with h | h <;> subst h <;> decide
  rcases detect_v1Header ParseIP proto s d (decimal nsp) (decimal ndp) P rest la ra hproto' hs hd
      (decimal_no_space nsp) (decimal_no_CR ndp) hlen with
    ⟨ip1, ip2, p1, p2, _, h2, h3, h4, h5, hD⟩ | ⟨hbad, _⟩
  swap
  · exfalso
    rw [Atoi_decimal, if_pos hsp, Atoi_decimal, if_pos hdp, hips, hipd] at hbad
    simp [hproto] at hbad
  rw [hips] at h2
  rw [hipd] at h3
  rw [Atoi_decimal, if_pos hsp] at h4
  rw [Atoi_decimal, if_pos hdp] at h5
  cases h2
  cases h3
  cases h4
  cases h5
  have h0 : (freshConn (v1Header proto s d (decimal nsp) (decimal ndp) ++ P) rest la ra).once
      = false := rfl
  obtain ⟨D, hDdef⟩ : ∃ D : dynamicPPConn, D =
      { filledConn (v1Header proto s d (decimal nsp) (decimal ndp) ++ P) rest la ra with
        offset := (v1Header proto s d (decimal nsp) (decimal ndp)).length,
        srcAddr := NetAddr.tcp (some { IP := ips, Port := (nsp : Int) }),
        dstAddr := NetAddr.tcp (some { IP := ipd, Port := (ndp : Int) }) } := ⟨_, rfl⟩
  rw [← hDdef] at hD
  have hoff : D.offset = (v1Header proto s d (decimal nsp) (decimal ndp)).length := by
    rw [hDdef]
  have hbuff : D.buff = v1Header proto s d (decimal nsp) (decimal ndp) ++ P := by
    rw [hDdef]
    rfl
  have hsrc : D.srcAddr = NetAddr.tcp (some { IP := ips, Port := (nsp : Int) }) := by
    rw [hDdef]
  have hdst : D.dstAddr = NetAddr.tcp (some { IP := ipd, Port := (ndp : Int) }) := by
    rw [hDdef]
  have hrf : D.readFunc = ReadFunc.deferredReadFunc := by
    rw [hDdef]
    rfl
  have hconn : D.Conn = { script := rest, localAddr := la, remoteAddr := ra } := by
    rw [hDdef]
    rfl
  have hdrop : ({ D with readErr := none, once := true } : dynamicPPConn).buff.drop
      ({ D with readErr := none, once := true } : dynamicPPConn).offset = P := by
    show D.buff.drop D.offset = P
    rw [hbuff, hoff]
    simp
  have hread : Read ParseIP
      (freshConn (v1Header proto s d (decimal nsp) (decimal ndp) ++ P) rest la ra) k
      = deferredReadFunc { D with readErr := none, once := true } k :=
    Read_first ParseIP _ D k h0 hD hrf
  refine ⟨by rw [hD], by rw [hD, hoff], by rw [hD, hbuff], ?_, ?_, ?_, ?_⟩
  · rw [RemoteAddr_first ParseIP _ _ _ h0 hD, hsrc]
    rfl
  · rw [LocalAddr_first ParseIP _ _ _ h0 hD, hdst]
    rfl
  · intro hP hk
    constructor
    · rw [hread, deferredReadFunc_buffered _ k P hdrop hP, List.take_of_length_le hk]
    · rw [RemoteAddr_snd, LocalAddr_snd, onceDo_first ParseIP _ _ _ h0 hD,
        onceDo_done ParseIP _ rfl,
        Read_done ParseIP { D with readErr := none, once := true } k rfl rfl hrf,
        deferredReadFunc_buffered _ k P hdrop hP, List.take_of_length_le hk]
  · intro hP
    rw [hread, deferredReadFunc_drained _ k (by rw [hdrop, hP])]
    show (RawConn.Read D.Conn k).1 = _
    rw [hconn]

/-- C1, witness: the header `PROXY TCP4 10.1.1.1 20.2.2.2 1000 2000` followed by
`ping`. -/
theorem v1_round_trip_witness :
    (RemoteAddr parseIPv4
        (freshConn (v1Header TCP4 lit10 lit20 (decimal 1000) (decimal 2000) ++ ping) []
          (loopback 80) (loopback 4000))).1
      = NetAddr.tcp (some { IP := [0, 0, 0, 0, 0, 0, 0, 0, 0, 0, 255, 255, 10, 1, 1, 1],
                            Port := 1000 }) ∧
    (Read parseIPv4
        (freshConn (v1Header TCP4 lit10 lit20 (decimal 1000) (decimal 2000) ++ ping) []
          (loopback 80) (loopback 4000)) 4).1 = (ping, none) :=
  have h := v1_round_trip parseIPv4 TCP4 lit10 lit20
    [0, 0, 0, 0, 0, 0, 0, 0, 0, 0, 255, 255, 10, 1, 1, 1]
    [0, 0, 0, 0, 0, 0, 0, 0, 0, 0, 255, 255, 20, 2, 2, 2] 1000 2000 ping []
    (loopback 80) (loopback 4000) 4 (Or.inl rfl) (by decide) (by decide) (by decide)
    (by decide) (by norm_num) (by norm_num)
    (by simp [v1Header, decimal, PPv1Identifier, TCP4, CRLF, lit10, lit20, ping])
  ⟨h.2.2.2.1, (h.2.2.2.2.2.1 (by decide) (by decide)).1⟩

/-- C1, counterexample: the port `9223372036854775808` is the decimal rendering
of the non-negative integer `2 ^ 63`, yet the header is rejected, the cursor
goes back to 0 and the `Read` returns header bytes; and after a header with an
empty payload the `Read` returns the next bytes of the underlying connection,
not the empty payload. -/
theorem v1_round_trip_counterexample :
    decimal (2 ^ 63)
      = [57, 50, 50, 51, 51, 55, 50, 48, 51, 54, 56, 53, 52, 55, 55, 53, 56, 48, 56] ∧
    (readProxyProtocol parseIPv4
        (freshConn (v1Header TCP4 lit10 lit20
          [57, 50, 50, 51, 51, 55, 50, 48, 51, 54, 56, 53, 52, 55, 55, 53, 56, 48, 56]
          [56, 48] ++ ping) [] (loopback 80) (loopback 4000))).2.offset = 0 ∧
    (Read parseIPv4
        (freshConn (v1Header TCP4 lit10 lit20
          [57, 50, 50, 51, 51, 55, 50, 48, 51, 54, 56, 53, 52, 55, 55, 53, 56, 48, 56]
          [56, 48] ++ ping) [] (loopback 80) (loopback 4000)) 4).1
      = ([0x50, 0x52, 0x4F, 0x58], none) ∧
    (Read parseIPv4
        (freshConn (v1Header TCP4 lit10 lit20 [49, 48, 48, 48] [50, 48, 48, 48] ++ [])
          [ReadEvent.data [0x78]] (loopback 80) (loopback 4000)) 1).1
      = ([0x78], none) :=
  ⟨by simp [decimal], by decide, by decide, by decide⟩

/-! ## The v2 reader -/

theorem readByte_eq (c : dynamicPPConn) :
    readByte c = if c.buff.length ≤ c.offset then (.error GoError.EOF, c)
      else (.ok (c.buff.getD c.offset 0), { c with offset := c.offset + 1 }) := by
  unfold readByte
  split <;> simp_all

theorem readBytes_eq (c : dynamicPPConn) (n : Nat) :
    readBytes c n = if c.buff.length < c.offset + n then (.error GoError.EOF, c)
      else (.ok ((c.buff.drop c.offset).take n), { c with offset := c.offset + n }) := by
  unfold readBytes
  have e1 : c.offset + n - n = c.offset := by omega
  have e2 : c.offset + n - c.offset = n := by omega
  split <;> simp_all [slice]

theorem parseV2_cases (c : dynamicPPConn) :
    (c.buff.getD c.offset 0 = 0x21 ∧
      (c.buff.getD (c.offset + 1) 0 = 0x11 ∨ c.buff.getD (c.offset + 1) 0 = 0x21 ∨
        c.buff.getD (c.offset + 1) 0 = 0x31) ∧
      c.offset + 4 + Uint16 ((c.buff.drop (c.offset + 2)).take 2) ≤ c.buff.length ∧
      parseV2 c
        = (decodeV2 (c.buff.getD (c.offset + 1) 0 / 16)
            ((c.buff.drop (c.offset + 4)).take (Uint16 ((c.buff.drop (c.offset + 2)).take 2))),
           { c with offset := c.offset + 4 + Uint16 ((c.buff.drop (c.offset + 2)).take 2) })) ∨
    ((c.buff.length ≤ c.offset ∨ c.buff.getD c.offset 0 ≠ 0x21 ∨ c.buff.length ≤ c.offset + 1 ∨
        ¬ (c.buff.getD (c.offset + 1) 0 = 0x11 ∨ c.buff.getD (c.offset + 1) 0 = 0x21 ∨
          c.buff.getD (c.offset + 1) 0 = 0x31) ∨
        c.buff.length < c.offset + 4 ∨
        c.buff.length < c.offset + 4 + Uint16 ((c.buff.drop (c.offset + 2)).take 2)) ∧
      ∃ e o, parseV2 c = ((NetAddr.nil, NetAddr.nil, some e), { c with offset := o })) := by
  have eo2 : c.offset + 1 + 1 = c.offset + 2 := by omega
  have eo4 : c.offset + 2 + 2 = c.offset + 4 := by omega
  by_cases h1 : c.buff.length ≤ c.offset
  · exact Or.inr ⟨Or.inl h1, _, _, by
      simp only [parseV2, readByte_eq, readBytes_eq, ne_eq, not_true_eq_false, not_false_eq_true,
        if_true, if_false, eo2, eo4, h1]
      rfl⟩
  by_cases h2 : c.buff.getD c.offset 0 / 16 = 2
  swap
  · exact Or.inr ⟨Or.inr (Or.inl (by omega)), _, _, by
      simp only [parseV2, readByte_eq, readBytes_eq, ne_eq, not_true_eq_false, not_false_eq_true,
        if_true, if_false, eo2, eo4, h1, h2]
      rfl⟩
  by_cases h3 : c.buff.getD c.offset 0 % 16 = 0
  · exact Or.inr ⟨Or.inr (Or.inl (by omega)), _, _, by
      simp only [parseV2, readByte_eq, readBytes_eq, ne_eq, not_true_eq_false, not_false_eq_true,
        if_true, if_false, eo2, eo4, h1, h2, h3]
      rfl⟩
  by_cases h4 : c.buff.getD c.offset 0 % 16 = 1
  swap
  · exact Or.inr ⟨Or.inr (Or.inl (by omega)), _, _, by
      simp only [parseV2, readByte_eq, readBytes_eq, ne_eq, not_true_eq_false, not_false_eq_true,
        if_true, if_false, eo2, eo4, h1, h2, h3, h4]
      rfl⟩
  by_cases h5 : c.buff.length ≤ c.offset + 1
  · exact Or.inr ⟨Or.inr (Or.inr (Or.inl h5)), _, _, by
      simp only [parseV2, readByte_eq, readBytes_eq, ne_eq, not_true_eq_false, not_false_eq_true,
        if_true, if_false, eo2, eo4, h1, h2, h3, h4, h5]
      rfl⟩
  by_cases h6 : c.buff.getD (c.offset + 1) 0 / 16 = 0
  · exact Or.inr ⟨Or.inr (Or.inr (Or.inr (Or.inl (by omega)))), _, _, by
      simp only [parseV2, readByte_eq, readBytes_eq, ne_eq, not_true_eq_false, not_false_eq_true,
        if_true, if_false, eo2, eo4, h1, h2, h3, h4, h5, h6]
      rfl⟩
  by_cases h7 : c.buff.getD (c.offset + 1) 0 / 16 = 1 ∨
      c.buff.getD (c.offset + 1) 0 / 16 = 2 ∨ c.buff.getD (c.offset + 1) 0 / 16 = 3
  swap
  · exact Or.inr ⟨Or.inr (Or.inr (Or.inr (Or.inl (by omega)))), _, _, by
      simp only [parseV2, readByte_eq, readBytes_eq, ne_eq, not_true_eq_false, not_false_eq_true,
        if_true, if_false, eo2, eo4, h1, h2, h3, h4, h5, h6, h7]
      rfl⟩
  by_cases h8 : c.buff.getD (c.offset + 1) 0 % 16 = 0
  · exact Or.inr ⟨Or.inr (Or.inr (Or.inr (Or.inl (by omega)))), _, _, by
      simp only [parseV2, readByte_eq, readBytes_eq, ne_eq, not_true_eq_false, not_false_eq_true,
        if_true, if_false, eo2, eo4, h1, h2, h3, h4, h5, h6, h7, h8]
      rfl⟩
  by_cases h9 : c.buff.getD (c.offset + 1) 0 % 16 = 2
  · exact Or.inr ⟨Or.inr (Or.inr (Or.inr (Or.inl (by omega)))), _, _, by
      simp only [parseV2, readByte_eq, readBytes_eq, ne_eq, not_true_eq_false, not_false_eq_true,
        if_true, if_false, eo2, eo4, h1, h2, h3, h4, h5, h6, h7, h8, h9]
      rfl⟩
  by_cases h10 : c.buff.getD (c.offset + 1) 0 % 16 = 1
  swap
  · exact Or.inr ⟨Or.inr (Or.inr (Or.inr (Or.inl (by omega)))), _, _, by
      simp only [parseV2, readByte_eq, readBytes_eq, ne_eq, not_true_eq_false, not_false_eq_true,
        if_true, if_false, eo2, eo4, h1, h2, h3, h4, h5, h6, h7, h8, h9, h10]
      rfl⟩
  by_cases h11 : c.buff.length < c.offset + 4
  · exact Or.inr ⟨Or.inr (Or.inr (Or.inr (Or.inr (Or.inl h11)))), _, _, by
      simp only [parseV2, readByte_eq, readBytes_eq, ne_eq, not_true_eq_false, not_false_eq_true,
        if_true, if_false, eo2, eo4, h1, h2, h3, h4, h5, h6, h7, h8, h9, h10, h11]
      rfl⟩
  by_cases h12 : c.buff.length
      < c.offset + 4 + Uint16 ((c.buff.drop (c.offset + 2)).take 2)
  · exact Or.inr ⟨Or.inr (Or.inr (Or.inr (Or.inr (Or.inr (h12))))), _, _, by
      simp only [parseV2, readByte_eq, readBytes_eq, ne_eq, not_true_eq_false, not_false_eq_true,
        if_true, if_false, eo2, eo4, h1, h2, h3, h4, h5, h6, h7, h8, h9, h10, h11, h12]
      rfl⟩
  refine Or.inl ⟨by omega, by omega, by omega, ?_⟩
  simp only [parseV2, readByte_eq, readBytes_eq, ne_eq, not_true_eq_false, not_false_eq_true,
        if_true, if_false, eo2, eo4, h1, h2, h3, h4, h5, h6, h7, h8, h9, h10, h11, h12]
  rfl

theorem getD_take_drop (l : List Nat) (a n i : Nat) (h : i < n) :
    ((l.drop a).take n).getD i 0 = l.getD (a + i) 0 := by
  simp [List.getD_eq_getElem?_getD, List.getElem?_take, h, List.getElem?_drop]

theorem Uint16_slice (b : List Nat) (lo : Nat) :
    Uint16 (slice b lo (lo + 2)) = b.getD lo 0 * 256 + b.getD (lo + 1) 0 := by
  have e : lo + 2 - lo = 2 := by omega
  simp only [Uint16, slice, e]
  rw [getD_take_drop b lo 2 0 (by omega), getD_take_drop b lo 2 1 (by omega)]
  rfl

theorem decodeV2_inet (block : List Nat) (h : 12 ≤ block.length) :
    decodeV2 1 block
      = (NetAddr.tcp (some { IP := block.take 4,
                             Port := ((block.getD 8 0 * 256 + block.getD 9 0 : Nat) : Int) }),
         NetAddr.tcp (some { IP := (block.drop 4).take 4,
                             Port := ((block.getD 10 0 * 256 + block.getD 11 0 : Nat) : Int) }),
         none) := by
  have h' : ¬ block.length < 12 := by omega
  simp only [decodeV2, binaryReadAddr4, h', if_false, if_true, Uint16_slice]
  simp [slice]

theorem decodeV2_inet6 (block : List Nat) (h : 36 ≤ block.length) :
    decodeV2 2 block
      = (NetAddr.tcp (some { IP := block.take 16,
                             Port := ((block.getD 32 0 * 256 + block.getD 33 0 : Nat) : Int) }),
         NetAddr.tcp (some { IP := (block.drop 16).take 16,
                             Port := ((block.getD 34 0 * 256 + block.getD 35 0 : Nat) : Int) }),
         none) := by
  have h' : ¬ block.length < 36 := by omega
  have e1 : (2 : Nat) ≠ 1 := by decide
  simp only [decodeV2, binaryReadAddr6, h', e1, if_false, if_true, Uint16_slice]
  simp [slice]

theorem decodeV2_unix (block : List Nat) (h : 216 ≤ block.length) :
    decodeV2 3 block
      = (NetAddr.unix (some { Name := block.take 108 }),
         NetAddr.unix (some { Name := (block.drop 108).take 108 }), none) := by
  have h' : ¬ block.length < 216 := by omega
  have e1 : (3 : Nat) ≠ 1 := by decide
  have e2 : (3 : Nat) ≠ 2 := by decide
  simp only [decodeV2, binaryReadAddrUnix, h', e1, e2, if_false, if_true]
  simp [slice]

theorem isV2_v2Header (fam L : Nat) (block P : List Nat) :
    ¬ isV1 (v2Header fam L block ++ P) ∧ isV2 (v2Header fam L block ++ P) := by
  simp [isV1, isV2, v2Header, PPv1Identifier, PPv2Identifier, PPv1IdentifierLen,
    PPv2IdentifierLen]

/-- The v2 reader on a buffer that starts with a v2 header carrying one of the
three supported family/transport bytes: the block is handed to the decoder and
the cursor ends after the `L` bytes of the block. -/
theorem parseV2_v2Header (c : dynamicPPConn) (fam L : Nat) (block P : List Nat)
    (hbuff : c.buff = v2Header fam L block ++ P) (hoff : c.offset = 12)
    (hfam : fam = 0x11 ∨ fam = 0x21 ∨ fam = 0x31) (hblock : block.length = L) :
    parseV2 c = (decodeV2 (fam / 16) block, { c with offset := 16 + L }) := by
  have g0 : c.buff.getD c.offset 0 = 0x21 := by
    rw [hbuff, hoff]
    simp [v2Header, PPv2Identifier]
  have g1 : c.buff.getD (c.offset + 1) 0 = fam := by
    rw [hbuff, hoff]
    simp [v2Header, PPv2Identifier]
  have gl : (c.buff.drop (c.offset + 2)).take 2 = [L / 256, L % 256] := by
    rw [hbuff, hoff]
    simp [v2Header, PPv2Identifier]
  have gL : Uint16 ((c.buff.drop (c.offset + 2)).take 2) = L := by
    rw [gl]
    simp only [Uint16, List.getD_cons_zero, List.getD_cons_succ]
    exact Nat.div_add_mod' L 256
  have gb : (c.buff.drop (c.offset + 4)).take L = block := by
    rw [hbuff, hoff]
    simp [v2Header, PPv2Identifier, ← hblock]
  have glen : c.buff.length = 16 + L + P.length := by
    rw [hbuff]
    simp [v2Header, PPv2Identifier, hblock]
    omega
  rcases parseV2_cases c with ⟨_, _, _, he⟩ | ⟨hbad, _⟩
  · rw [he, gL, gb, g1, hoff]
  · exfalso
    rw [g0, g1, gL, glen, hoff] at hbad
    rcases hbad with h | h | h | h | h | h
    · omega
    · exact h rfl
    · omega
    · exact h hfam
    · omega
    · omega

theorem Read_of_detected (ParseIP : List Nat → Option (List Nat)) (c0 D : dynamicPPConn)
    (P : List Nat) (k : Nat) (h0 : c0.once = false)
    (hD : readProxyProtocol ParseIP c0 = (none, D))
    (hrf : D.readFunc = ReadFunc.deferredReadFunc) (hdrop : D.buff.drop D.offset = P) :
    (P ≠ [] →
      (Read ParseIP c0 k).1 = (P.take k, none) ∧
      (Read ParseIP (LocalAddr ParseIP (RemoteAddr ParseIP c0).2).2 k).1 = (P.take k, none)) ∧
    (P = [] → (Read ParseIP c0 k).1 = (D.Conn.Read k).1) := by
  have hdrop' : ({ D with readErr := none, once := true } : dynamicPPConn).buff.drop
      ({ D with readErr := none, once := true } : dynamicPPConn).offset = P := hdrop
  have hread : Read ParseIP c0 k = deferredReadFunc { D with readErr := none, once := true } k :=
    Read_first ParseIP _ D k h0 hD hrf
  constructor
  · intro hP
    constructor
    · rw [hread, deferredReadFunc_buffered _ k P hdrop' hP]
    · rw [RemoteAddr_snd, LocalAddr_snd, onceDo_first ParseIP _ _ _ h0 hD,
        onceDo_done ParseIP _ rfl,
        Read_done ParseIP { D with readErr := none, once := true } k rfl rfl hrf,
        deferredReadFunc_buffered _ k P hdrop' hP]
  · intro hP
    rw [hread, deferredReadFunc_drained _ k (by rw [hdrop', hP])]

theorem detect_v2Header (ParseIP : List Nat → Option (List Nat)) (fam L : Nat)
    (block P : List Nat) (rest : List ReadEvent) (la ra : NetAddr)
    (hfam : fam = 0x11 ∨ fam = 0x21 ∨ fam = 0x31) (hblock : block.length = L)
    (hlen : (v2Header fam L block ++ P).length ≤ 512)
    (a b : NetAddr) (e : Option GoError) (hdec : decodeV2 (fam / 16) block = (a, b, e)) :
    readProxyProtocol ParseIP (freshConn (v2Header fam L block ++ P) rest la ra)
      = (none, { filledConn (v2Header fam L block ++ P) rest la ra with
          offset := if e.isSome then 0 else 16 + L, srcAddr := a, dstAddr := b }) := by
  rw [readProxyProtocol_fresh ParseIP _ rest la ra hlen, if_neg (isV2_v2Header _ _ _ _).1,
    if_pos (isV2_v2Header _ _ _ _).2]
  have hp := parseV2_v2Header { filledConn (v2Header fam L block ++ P) rest la ra with offset := 12 }
    fam L block P rfl rfl hfam hblock
  rw [hdec] at hp
  rw [detectV2_eq _ _ _ _ _ hp]
  cases e <;> rfl

/-! ## C2: v2 round trip -/

/-- C2 (amended): a first read `signature, 0x21, fam, L (big-endian), block, P`
with `(fam, L)` one of `(0x11, 12)`, `(0x21, 36)`, `(0x31, 216)` and a block of
`L` bytes is detected without error with the cursor at `16 + L`; the addresses
are read at the fixed offsets of the block (4 or 16 address bytes twice and
two big-endian ports for INET and INET6, two raw 108-byte names for UNIX);
`RemoteAddr` reports the source and `LocalAddr` the destination; a `Read` into
`k` bytes returns the first `k` bytes of `P`, all of `P` when `k` is at least
`len(P)`, provided `P` is not empty, and when `P` is empty it is the `Read` of
the underlying connection. -/
theorem v2_round_trip (ParseIP : List Nat → Option (List Nat)) (fam L : Nat)
    (block P : List Nat) (rest : List ReadEvent) (la ra : NetAddr) (k : Nat)
    (hfam : (fam = 0x11 ∧ L = 12) ∨ (fam = 0x21 ∧ L = 36) ∨ (fam = 0x31 ∧ L = 216))
    (hblock : block.length = L) (hlen : (v2Header fam L block ++ P).length ≤ 512) :
    (readProxyProtocol ParseIP (freshConn (v2Header fam L block ++ P) rest la ra)).1 = none ∧
    (readProxyProtocol ParseIP (freshConn (v2Header fam L block ++ P) rest la ra)).2.offset
      = 16 + L ∧
    (readProxyProtocol ParseIP (freshConn (v2Header fam L block ++ P) rest la ra)).2.buff
      = v2Header fam L block ++ P ∧
    (v2Header fam L block ++ P).drop (16 + L) = P ∧
    (fam = 0x11 →
      (RemoteAddr ParseIP (freshConn (v2Header fam L block ++ P) rest la ra)).1
        = tcpAddr (block.take 4) (be16At block 8) ∧
      (LocalAddr ParseIP (freshConn (v2Header fam L block ++ P) rest la ra)).1
        = tcpAddr ((block.drop 4).take 4) (be16At block 10)) ∧
    (fam = 0x21 →
      (RemoteAddr ParseIP (freshConn (v2Header fam L block ++ P) rest la ra)).1
        = tcpAddr (block.take 16) (be16At block 32) ∧
      (LocalAddr ParseIP (freshConn (v2Header fam L block ++ P) rest la ra)).1
        = tcpAddr ((block.drop 16).take 16) (be16At block 34)) ∧
    (fam = 0x31 →
      (RemoteAddr ParseIP (freshConn (v2Header fam L block ++ P) rest la ra)).1
        = unixAddr (block.take 108) ∧
      (LocalAddr ParseIP (freshConn (v2Header fam L block ++ P) rest la ra)).1
        = unixAddr ((block.drop 108).take 108)) ∧
    (P ≠ [] →
      (Read ParseIP (freshConn (v2Header fam L block ++ P) rest la ra) k).1
        = (P.take k, none) ∧
      (Read ParseIP (LocalAddr ParseIP (RemoteAddr ParseIP
          (freshConn (v2Header fam L block ++ P) rest la ra)).2).2 k).1 = (P.take k, none) ∧
      (P.length ≤ k → P.take k = P)) ∧
    (P = [] →
      (Read ParseIP (freshConn (v2Header fam L block ++ P) rest la ra) k).1
        = (RawConn.Read { script := rest, localAddr := la, remoteAddr := ra } k).1) := by
  have hfam' : fam = 0x11 ∨ fam = 0x21 ∨ fam = 0x31 := by
    rcases hfam with h | h | h
    · exact Or.inl h.1
    · exact Or.inr (Or.inl h.1)
    · exact Or.inr (Or.inr h.1)
  have hdropP : (v2Header fam L block ++ P).drop (16 + L) = P := by
    have : (v2Header fam L block).length = 16 + L := by
      simp [v2Header, PPv2Identifier, hblock]
      omega
    rw [← this]
    simp
  obtain ⟨a, b, hdec, ha, hb⟩ : ∃ a b, decodeV2 (fam / 16) block = (a, b, none) ∧
      (fam = 0x11 → a = tcpAddr (block.take 4) (be16At block 8) ∧
          b = tcpAddr ((block.drop 4).take 4) (be16At block 10)) ∧
      ((fam = 0x21 → a = tcpAddr (block.take 16) (be16At block 32) ∧
          b = tcpAddr ((block.drop 16).take 16) (be16At block 34)) ∧
       (fam = 0x31 → a = unixAddr (block.take 108) ∧
          b = unixAddr ((block.drop 108).take 108))) := by
    rcases hfam with ⟨h1, h2⟩ | ⟨h1, h2⟩ | ⟨h1, h2⟩
    · subst h1
      exact ⟨_, _, decodeV2_inet block (by omega), fun _ => ⟨rfl, rfl⟩,
        fun h => absurd h (by decide), fun h => absurd h (by decide)⟩
    · subst h1
      exact ⟨_, _, decodeV2_inet6 block (by omega), fun h => absurd h (by decide),
        fun _ => ⟨rfl, rfl⟩, fun h => absurd h (by decide)⟩
    · subst h1
      exact ⟨_, _, decodeV2_unix block (by omega), fun h => absurd h (by decide),
        fun h => absurd h (by decide), fun _ => ⟨rfl, rfl⟩⟩
  have hD := detect_v2Header ParseIP fam L block P rest la ra hfam' hblock hlen a b none hdec
  have h0 : (freshConn (v2Header fam L block ++ P) rest la ra).once = false := rfl
  have hR := Read_of_detected ParseIP _ _ P k h0 hD rfl hdropP
  have hra : (RemoteAddr ParseIP (freshConn (v2Header fam L block ++ P) rest la ra)).1 = a := by
    rw [RemoteAddr_first ParseIP _ _ _ h0 hD]
    rcases hfam' with h | h | h
    · rw [(ha h).1]
      rfl
    · rw [(hb.1 h).1]
      rfl
    · rw [(hb.2 h).1]
      rfl
  have hla : (LocalAddr ParseIP (freshConn (v2Header fam L block ++ P) rest la ra)).1 = b := by
    rw [LocalAddr_first ParseIP _ _ _ h0 hD]
    rcases hfam' with h | h | h
    · rw [(ha h).2]
      rfl
    · rw [(hb.1 h).2]
      rfl
    · rw [(hb.2 h).2]
      rfl
  refine ⟨by rw [hD], by rw [hD]; rfl, by rw [hD]; rfl, hdropP, ?_, ?_, ?_, ?_, ?_⟩
  · intro h
    rw [hra, hla]
    exact ha h
  · intro h
    rw [hra, hla]
    exact hb.1 h
  · intro h
    rw [hra, hla]
    exact hb.2 h
  · intro hP
    exact ⟨(hR.1 hP).1, (hR.1 hP).2, fun hk => List.take_of_length_le hk⟩
  · intro hP
    exact hR.2 hP

/-- C2, witness: an INET header for `10.1.1.1:1000` and `20.2.2.2:2000` followed
by `ping`. -/
theorem v2_round_trip_witness :
    (RemoteAddr parseIPv4
        (freshConn (v2Header 0x11 12 inetBlock ++ ping) [] (loopback 80) (loopback 4000))).1
      = tcpAddr [10, 1, 1, 1] 1000 ∧
    (LocalAddr parseIPv4
        (freshConn (v2Header 0x11 12 inetBlock ++ ping) [] (loopback 80) (loopback 4000))).1
      = tcpAddr [20, 2, 2, 2] 2000 ∧
    (Read parseIPv4
        (freshConn (v2Header 0x11 12 inetBlock ++ ping) [] (loopback 80) (loopback 4000)) 4).1
      = (ping, none) :=
  have h := v2_round_trip parseIPv4 0x11 12 inetBlock ping [] (loopback 80) (loopback 4000) 4
    (Or.inl ⟨rfl, rfl⟩) (by decide) (by decide)
  ⟨(h.2.2.2.2.1 rfl).1, (h.2.2.2.2.1 rfl).2, (h.2.2.2.2.2.2.2.1 (by decide)).1⟩

/-- C2, counterexample: after an INET header with an empty payload the `Read`
returns the next byte of the underlying connection, not the empty payload; and
a `Read` into 2 bytes returns only the first 2 bytes of the payload `ping`. -/
theorem v2_round_trip_counterexample :
    (Read parseIPv4
        (freshConn (v2Header 0x11 12 inetBlock ++ []) [ReadEvent.data [0x78]]
          (loopback 80) (loopback 4000)) 1).1 = ([0x78], none) ∧
    (Read parseIPv4
        (freshConn (v2Header 0x11 12 inetBlock ++ ping) [] (loopback 80) (loopback 4000)) 2).1
      = ([112, 105], none) :=
  ⟨by decide, by decide⟩

/-! ## Sequences of reads over a connection that only delivers bytes -/

theorem pending_data (bs : List Nat) (rest : List ReadEvent) (la ra : NetAddr) :
    RawConn.pending { script := ReadEvent.data bs :: rest, localAddr := la, remoteAddr := ra }
      = bs ++ RawConn.pending { script := rest, localAddr := la, remoteAddr := ra } := by
  simp [RawConn.pending]

theorem pending_nil (la ra : NetAddr) :
    RawConn.pending { script := [], localAddr := la, remoteAddr := ra } = [] := by
  simp [RawConn.pending]

/-- One read of an underlying connection whose events all deliver bytes: the
bytes returned and the bytes left make up the bytes there were, the addresses
do not change, and a read into a non-empty destination makes progress. -/
theorem RawConn_Read_data (r : RawConn) (k : Nat)
    (h : ∀ e ∈ r.script, ReadEvent.isData e = true) :
    (r.Read k).1.1 ++ (r.Read k).2.pending = r.pending ∧
    (∀ e ∈ (r.Read k).2.script, ReadEvent.isData e = true) ∧
    (r.Read k).2.localAddr = r.localAddr ∧ (r.Read k).2.remoteAddr = r.remoteAddr ∧
    (0 < k → (r.Read k).2.pending.length + (r.Read k).2.script.length
      ≤ r.pending.length + r.script.length - 1) := by
  obtain ⟨script, la, ra⟩ := r
  cases script with
  | nil => simp [RawConn.Read, RawConn.pending]
  | cons e rest =>
    cases e with
    | fail err =>
      have := h (ReadEvent.fail err) (by simp)
      simp [ReadEvent.isData] at this
    | data bs =>
      have hrest : ∀ e ∈ rest, ReadEvent.isData e = true := fun e he => h e (by simp [he])
      by_cases hk : bs.length ≤ k
      · simp only [RawConn.Read, hk, if_true, pending_data]
        refine ⟨trivial, hrest, trivial, trivial, ?_⟩
        intro _
        simp only [List.length_append, List.length_cons]
        omega
      · simp only [RawConn.Read, hk, if_false, pending_data]
        refine ⟨by rw [← List.append_assoc, List.take_append_drop], ?_, trivial, trivial, ?_⟩
        · intro e he
          rcases List.mem_cons.mp he with h1 | h1
          · subst h1
            rfl
          · exact hrest e h1
        · intro hk0
          simp only [List.length_append, List.length_cons, List.length_drop]
          omega

theorem RawConn_Read_ok (r : RawConn) (k : Nat) (hne : r.script ≠ [])
    (h : ∀ e ∈ r.script, ReadEvent.isData e = true) :
    (r.Read k).1.2 = none ∧ (r.Read k).1.1.length ≤ k := by
  obtain ⟨script, la, ra⟩ := r
  cases script with
  | nil => exact absurd rfl hne
  | cons e rest =>
    cases e with
    | fail err =>
      have := h (ReadEvent.fail err) (by simp)
      simp [ReadEvent.isData] at this
    | data bs =>
      by_cases hk : bs.length ≤ k
      · simp [RawConn.Read, hk]
      · simp only [RawConn.Read, hk, if_false]
        exact ⟨trivial, by simp⟩

theorem RawConn_Read_script (r : RawConn) (k : Nat) :
    (r.Read k).2.script.length ≤ r.script.length := by
  obtain ⟨script, la, ra⟩ := r
  cases script with
  | nil => simp [RawConn.Read]
  | cons e rest =>
    cases e with
    | fail err => simp [RawConn.Read]
    | data bs =>
      by_cases hk : bs.length ≤ k
      · simp [RawConn.Read, hk]
      · simp [RawConn.Read, hk]

theorem Read_onceDo (ParseIP : List Nat → Option (List Nat)) (c : dynamicPPConn) (k : Nat) :
    Read ParseIP (onceDo ParseIP c) k = Read ParseIP c k := by
  have h : onceDo ParseIP (onceDo ParseIP c) = onceDo ParseIP c := by
    apply onceDo_done
    unfold onceDo
    split
    · assumption
    · rfl
  simp only [Read, h]

theorem Reads_onceDo (ParseIP : List Nat → Option (List Nat)) (c : dynamicPPConn) (k : Nat)
    (ks : List Nat) :
    Reads ParseIP (onceDo ParseIP c) (k :: ks) = Reads ParseIP c (k :: ks) := by
  simp only [Reads, Read_onceDo]

/-- One `Read` of a connection in bypass keeps it in bypass, returns the next
bytes of the stream, and makes progress when the destination is not empty. -/
theorem Read_bypassed (ParseIP : List Nat → Option (List Nat)) (la ra : NetAddr)
    (c : dynamicPPConn) (k : Nat) (h : Bypassed la ra c) :
    Bypassed la ra (Read ParseIP c k).2 ∧
    (Read ParseIP c k).1.1 ++ (heldBack (Read ParseIP c k).2
        ++ (Read ParseIP c k).2.Conn.pending)
      = heldBack c ++ c.Conn.pending ∧
    (0 < k → backlog (Read ParseIP c k).2 ≤ backlog c - 1) := by
  obtain ⟨honce, herr, hsrc, hdst, hla, hra, hdata, hdrained⟩ := h
  have hraw := RawConn_Read_data c.Conn k hdata
  have hheld : heldBack c = c.buff.drop c.offset := by simp [heldBack, honce]
  have hdirect : c.buff.drop c.offset = [] →
      Bypassed la ra { c with readFunc := ReadFunc.connRead, Conn := (c.Conn.Read k).2 } ∧
      (c.Conn.Read k).1.1 ++ (heldBack
          { c with readFunc := ReadFunc.connRead, Conn := (c.Conn.Read k).2 }
          ++ (c.Conn.Read k).2.pending)
        = heldBack c ++ c.Conn.pending ∧
      (0 < k → backlog { c with readFunc := ReadFunc.connRead, Conn := (c.Conn.Read k).2 }
        ≤ backlog c - 1) := by
    intro hnil
    refine ⟨⟨honce, herr, hsrc, hdst, ?_, ?_, hraw.2.1, fun _ => hnil⟩, ?_, ?_⟩
    · show (c.Conn.Read k).2.localAddr = la
      rw [hraw.2.2.1, hla]
    · show (c.Conn.Read k).2.remoteAddr = ra
      rw [hraw.2.2.2.1, hra]
    · simp only [heldBack, honce, if_true, hnil, List.nil_append]
      exact hraw.1
    · intro hk
      have := hraw.2.2.2.2 hk
      simp only [backlog, heldBack, honce, if_true, hnil, List.length_nil]
      omega
  cases hrf : c.readFunc with
  | connRead =>
    have hR : Read ParseIP c k
        = ((c.Conn.Read k).1, { c with Conn := (c.Conn.Read k).2 }) := by
      simp only [Read, onceDo_done ParseIP c honce, herr, callReadFunc, hrf]
    have hsame : ({ c with Conn := (c.Conn.Read k).2 } : dynamicPPConn)
        = { c with readFunc := ReadFunc.connRead, Conn := (c.Conn.Read k).2 } := by
      rw [← hrf]
    rw [hR, hsame]
    exact hdirect (hdrained hrf)
  | deferredReadFunc =>
    have hR : Read ParseIP c k = deferredReadFunc c k := Read_done ParseIP c k honce herr hrf
    rw [hR]
    by_cases hnil : c.buff.drop c.offset = []
    · rw [deferredReadFunc_drained c k hnil]
      exact hdirect hnil
    · rw [deferredReadFunc_buffered c k _ rfl hnil]
      have hdd : c.buff.drop (c.offset + ((c.buff.drop c.offset).take k).length)
          = (c.buff.drop c.offset).drop k := by
        rw [List.length_take, List.length_drop]
        by_cases hk : k ≤ c.buff.length - c.offset
        · rw [Nat.min_eq_left hk, List.drop_drop, Nat.add_comm]
        · have hk' : c.buff.length - c.offset ≤ k := by omega
          rw [Nat.min_eq_right hk', List.drop_eq_nil_of_le (by omega),
            List.drop_eq_nil_of_le (by simp; omega)]
      refine ⟨⟨honce, herr, hsrc, hdst, hla, hra, hdata, ?_⟩, ?_, ?_⟩
      · intro h
        rw [hrf] at h
        exact ReadFunc.noConfusion h
      · simp only [heldBack, honce, if_true, hdd]
        rw [← List.append_assoc, List.take_append_drop]
      · intro hk
        have hpos : 0 < (c.buff.drop c.offset).length := List.length_pos.mpr hnil
        simp only [backlog, heldBack, honce, if_true, hdd, List.length_drop] at hpos ⊢
        omega

theorem Reads_cons (ParseIP : List Nat → Option (List Nat)) (c : dynamicPPConn) (k : Nat)
    (ks : List Nat) :
    Reads ParseIP c (k :: ks)
      = ((Read ParseIP c k).1.1 :: (Reads ParseIP (Read ParseIP c k).2 ks).1,
         (Reads ParseIP (Read ParseIP c k).2 ks).2) := by
  simp only [Reads]

theorem Reads_bypassed (ParseIP : List Nat → Option (List Nat)) (la ra : NetAddr)
    (ks : List Nat) (c : dynamicPPConn) (h : Bypassed la ra c) :
    Bypassed la ra (Reads ParseIP c ks).2 ∧
    (Reads ParseIP c ks).1.flatten ++ (heldBack (Reads ParseIP c ks).2
        ++ (Reads ParseIP c ks).2.Conn.pending)
      = heldBack c ++ c.Conn.pending ∧
    ((∀ k ∈ ks, 0 < k) → backlog (Reads ParseIP c ks).2 ≤ backlog c - ks.length) := by
  induction ks generalizing c with
  | nil =>
    refine ⟨h, by simp [Reads], fun _ => ?_⟩
    simp [Reads]
  | cons k ks ih =>
    obtain ⟨hb, heq, hprog⟩ := Read_bypassed ParseIP la ra c k h
    obtain ⟨hb', heq', hprog'⟩ := ih (Read ParseIP c k).2 hb
    rw [Reads_cons]
    refine ⟨hb', ?_, ?_⟩
    · simp only [List.flatten_cons, List.append_assoc]
      rw [heq', heq]
    · intro hpos
      have h1 := hprog (hpos k (by simp))
      have h2 := hprog' (fun x hx => hpos x (by simp [hx]))
      simp only [List.length_cons]
      omega

/-- Detection on a first read that carries neither signature leaves the
connection in bypass with the bytes of the first read held back. -/
theorem onceDo_bypass (ParseIP : List Nat → Option (List Nat)) (raw : RawConn)
    (hne : raw.script ≠ []) (hdata : ∀ e ∈ raw.script, ReadEvent.isData e = true)
    (h1 : ¬ isV1 (raw.Read 512).1.1) (h2 : ¬ isV2 (raw.Read 512).1.1) :
    Bypassed raw.localAddr raw.remoteAddr (onceDo ParseIP (newDynamicPPConn raw)) ∧
    heldBack (onceDo ParseIP (newDynamicPPConn raw))
        ++ (onceDo ParseIP (newDynamicPPConn raw)).Conn.pending = raw.pending ∧
    backlog (onceDo ParseIP (newDynamicPPConn raw)) ≤ raw.pending.length + raw.script.length ∧
    (onceDo ParseIP (newDynamicPPConn raw)).offset = 0 := by
  have hok := RawConn_Read_ok raw 512 hne hdata
  have hraw := RawConn_Read_data raw 512 hdata
  have hD : onceDo ParseIP (newDynamicPPConn raw)
      = { Conn := (raw.Read 512).2, once := true, buff := (raw.Read 512).1.1, offset := 0,
          readFunc := ReadFunc.deferredReadFunc, readErr := none,
          srcAddr := NetAddr.nil, dstAddr := NetAddr.nil } := by
    rcases hR : raw.Read 512 with ⟨⟨d, e⟩, r'⟩
    rw [hR] at hok h1 h2
    have he : e = none := hok.1
    subst he
    simp only [onceDo, newDynamicPPConn, readProxyProtocol, List.length_replicate, hR]
    simp only [Bool.false_eq_true, if_false]
    rw [if_neg h1, if_neg h2]
  rw [hD]
  refine ⟨⟨rfl, rfl, rfl, rfl, hraw.2.2.1, hraw.2.2.2.1, hraw.2.1, ?_⟩, ?_, ?_, rfl⟩
  · intro h
    exact ReadFunc.noConfusion h
  · simp only [heldBack, if_true, List.drop_zero]
    exact hraw.1
  · have := congrArg List.length hraw.1
    have hs := RawConn_Read_script raw 512
    simp only [backlog, heldBack, if_true, List.drop_zero]
    simp only [List.length_append] at this
    omega

theorem addr_bypassed (ParseIP : List Nat → Option (List Nat)) (la ra : NetAddr)
    (c : dynamicPPConn) (h : Bypassed la ra c) :
    (LocalAddr ParseIP c).1 = la ∧ (RemoteAddr ParseIP c).1 = ra := by
  obtain ⟨honce, _, hsrc, hdst, hla, hra, _, _⟩ := h
  simp [LocalAddr, RemoteAddr, onceDo_done ParseIP c honce, hsrc, hdst, NetAddr.notNil, hla, hra]

theorem addr_onceDo (ParseIP : List Nat → Option (List Nat)) (c : dynamicPPConn) :
    (LocalAddr ParseIP (onceDo ParseIP c)).1 = (LocalAddr ParseIP c).1 ∧
    (RemoteAddr ParseIP (onceDo ParseIP c)).1 = (RemoteAddr ParseIP c).1 := by
  have h : onceDo ParseIP (onceDo ParseIP c) = onceDo ParseIP c := by
    apply onceDo_done
    unfold onceDo
    split
    · assumption
    · rfl
  simp only [LocalAddr, RemoteAddr, h]
  exact ⟨trivial, trivial⟩

/-! ## C3: bypass fidelity -/

/-- C3: over an underlying connection that delivers a sequence of successful
reads, the first of which starts with neither signature, and for every
sequence `ks` of destination sizes: the bytes returned by the `Read` calls,
followed by the bytes still held in the buffer and the bytes not yet delivered
by the underlying connection, are exactly the bytes of the stream, in order;
once the calls with non-empty destinations are at least as many as the bytes
and events of the stream, the bytes returned are the whole stream; and
`LocalAddr` and `RemoteAddr` are the underlying connection's own addresses. -/
theorem bypass_fidelity (ParseIP : List Nat → Option (List Nat)) (raw : RawConn)
    (ks : List Nat) (hne : raw.script ≠ [])
    (hdata : ∀ e ∈ raw.script, ReadEvent.isData e = true)
    (h1 : ¬ isV1 (raw.Read 512).1.1) (h2 : ¬ isV2 (raw.Read 512).1.1) :
    (Reads ParseIP (newDynamicPPConn raw) ks).1.flatten
        ++ (heldBack (Reads ParseIP (newDynamicPPConn raw) ks).2
          ++ (Reads ParseIP (newDynamicPPConn raw) ks).2.Conn.pending)
      = raw.pending ∧
    ((∀ k ∈ ks, 0 < k) → raw.pending.length + raw.script.length ≤ ks.length →
      (Reads ParseIP (newDynamicPPConn raw) ks).1.flatten = raw.pending) ∧
    (LocalAddr ParseIP (Reads ParseIP (newDynamicPPConn raw) ks).2).1 = raw.localAddr ∧
    (RemoteAddr ParseIP (Reads ParseIP (newDynamicPPConn raw) ks).2).1 = raw.remoteAddr := by
  obtain ⟨hb, hheld, hback, _⟩ := onceDo_bypass ParseIP raw hne hdata h1 h2
  cases ks with
  | nil =>
    have ha := addr_bypassed ParseIP _ _ _ hb
    rw [(addr_onceDo ParseIP _).1, (addr_onceDo ParseIP _).2] at ha
    refine ⟨by simp [Reads, heldBack, newDynamicPPConn], ?_, ha.1, ha.2⟩
    intro _ hlen
    have : raw.script.length = 0 := by
      simp only [List.length_nil] at hlen
      omega
    exact absurd (List.length_eq_zero.mp this) hne
  | cons k ks =>
    rw [← Reads_onceDo]
    obtain ⟨hb', heq, hprog⟩ := Reads_bypassed ParseIP _ _ (k :: ks) _ hb
    have ha := addr_bypassed ParseIP _ _ _ hb'
    refine ⟨by rw [heq, hheld], ?_, ha.1, ha.2⟩
    intro hpos hlen
    have h0 := hprog hpos
    have hz : backlog (Reads ParseIP (onceDo ParseIP (newDynamicPPConn raw)) (k :: ks)).2 = 0 := by
      omega
    simp only [backlog] at hz
    have hh : heldBack (Reads ParseIP (onceDo ParseIP (newDynamicPPConn raw)) (k :: ks)).2 = [] :=
      List.length_eq_zero.mp (by omega)
    have hp : (Reads ParseIP (onceDo ParseIP (newDynamicPPConn raw)) (k :: ks)).2.Conn.pending
        = [] := List.length_eq_zero.mp (by omega)
    rw [hh, hp, hheld] at heq
    simpa using heq

/-- C3, witness: the stream `ping`, `[1, 2, 3]` read through destinations of 3
bytes comes out whole. -/
theorem bypass_fidelity_witness :
    (Reads parseIPv4
        (newDynamicPPConn { script := [ReadEvent.data ping, ReadEvent.data [1, 2, 3]],
                            localAddr := loopback 80, remoteAddr := loopback 4000 })
        (List.replicate 9 3)).1.flatten = ping ++ [1, 2, 3] ∧
    (RemoteAddr parseIPv4
        (Reads parseIPv4
          (newDynamicPPConn { script := [ReadEvent.data ping, ReadEvent.data [1, 2, 3]],
                              localAddr := loopback 80, remoteAddr := loopback 4000 })
          (List.replicate 9 3)).2).1 = loopback 4000 :=
  have h := bypass_fidelity parseIPv4
    { script := [ReadEvent.data ping, ReadEvent.data [1, 2, 3]],
      localAddr := loopback 80, remoteAddr := loopback 4000 }
    (List.replicate 9 3) (by decide) (by decide) (by decide) (by decide)
  ⟨h.2.1 (by decide) (by decide), h.2.2.2⟩

/-! ## The outcome of detection -/

theorem parseV1_state (ParseIP : List Nat → Option (List Nat)) (c : dynamicPPConn) :
    parseV1 ParseIP c
      = ((parseV1 ParseIP c).1, { c with offset := (parseV1 ParseIP c).2.offset }) ∧
    (((parseV1 ParseIP c).1.2.2 = none ∧ (∃ x, (parseV1 ParseIP c).1.1 = some x) ∧
        ∃ y, (parseV1 ParseIP c).1.2.1 = some y) ∨
      ((∃ e, (parseV1 ParseIP c).1.2.2 = some e) ∧ (parseV1 ParseIP c).1.1 = none ∧
        (parseV1 ParseIP c).1.2.1 = none)) := by
  rcases parseV1_cases ParseIP c with
    ⟨t1, t2, t3, t4, t5, r, ip1, ip2, p1, p2, _, _, _, _, _, _, _, _, _, _, he⟩ | ⟨e, o, he⟩
  · rw [he]
    exact ⟨rfl, Or.inl ⟨rfl, ⟨_, rfl⟩, ⟨_, rfl⟩⟩⟩
  · rw [he]
    exact ⟨rfl, Or.inr ⟨⟨_, rfl⟩, rfl, rfl⟩⟩

theorem decodeV2_result (f : Nat) (block : List Nat) :
    ((decodeV2 f block).2.2 = none ∧ (decodeV2 f block).1.notNil = true ∧
        (decodeV2 f block).2.1.notNil = true) ∨
    ((∃ e, (decodeV2 f block).2.2 = some e) ∧ (decodeV2 f block).1 = NetAddr.nil ∧
        (decodeV2 f block).2.1 = NetAddr.nil) := by
  unfold decodeV2 binaryReadAddr4 binaryReadAddr6 binaryReadAddrUnix
  split
  · split
    · exact Or.inr ⟨⟨_, rfl⟩, rfl, rfl⟩
    · exact Or.inl ⟨rfl, rfl, rfl⟩
  · split
    · split
      · exact Or.inr ⟨⟨_, rfl⟩, rfl, rfl⟩
      · exact Or.inl ⟨rfl, rfl, rfl⟩
    · split
      · split
        · exact Or.inr ⟨⟨_, rfl⟩, rfl, rfl⟩
        · exact Or.inl ⟨rfl, rfl, rfl⟩
      · exact Or.inr ⟨⟨_, rfl⟩, rfl, rfl⟩

theorem parseV2_state (c : dynamicPPConn) :
    parseV2 c = ((parseV2 c).1, { c with offset := (parseV2 c).2.offset }) ∧
    (((parseV2 c).1.2.2 = none ∧ (parseV2 c).1.1.notNil = true ∧
        (parseV2 c).1.2.1.notNil = true) ∨
      ((∃ e, (parseV2 c).1.2.2 = some e) ∧ (parseV2 c).1.1 = NetAddr.nil ∧
        (parseV2 c).1.2.1 = NetAddr.nil)) := by
  rcases parseV2_cases c with ⟨_, _, _, he⟩ | ⟨_, e, o, he⟩
  · rw [he]
    exact ⟨rfl, decodeV2_result _ _⟩
  · rw [he]
    exact ⟨rfl, Or.inr ⟨⟨_, rfl⟩, rfl, rfl⟩⟩

/-- The three outcomes of `readProxyProtocol` after a successful detection
read of at most 512 bytes. -/
theorem detect_outcome (ParseIP : List Nat → Option (List Nat)) (first : List Nat)
    (rest : List ReadEvent) (la ra : NetAddr) (hlen : first.length ≤ 512) :
    (isV1 first →
      readProxyProtocol ParseIP (freshConn first rest la ra)
        = (none, { filledConn first rest la ra with
            offset :=
              if (parseV1 ParseIP { filledConn first rest la ra with offset := 6 }).1.2.2.isSome
              then 0
              else (parseV1 ParseIP { filledConn first rest la ra with offset := 6 }).2.offset,
            srcAddr := NetAddr.tcp
              (parseV1 ParseIP { filledConn first rest la ra with offset := 6 }).1.1,
            dstAddr := NetAddr.tcp
              (parseV1 ParseIP { filledConn first rest la ra with offset := 6 }).1.2.1 })) ∧
    (¬ isV1 first → isV2 first →
      readProxyProtocol ParseIP (freshConn first rest la ra)
        = (none, { filledConn first rest la ra with
            offset :=
              if (parseV2 { filledConn first rest la ra with offset := 12 }).1.2.2.isSome
              then 0
              else (parseV2 { filledConn first rest la ra with offset := 12 }).2.offset,
            srcAddr := (parseV2 { filledConn first rest la ra with offset := 12 }).1.1,
            dstAddr := (parseV2 { filledConn first rest la ra with offset := 12 }).1.2.1 })) ∧
    (¬ isV1 first → ¬ isV2 first →
      readProxyProtocol ParseIP (freshConn first rest la ra)
        = (none, filledConn first rest la ra)) := by
  refine ⟨fun h1 => ?_, fun h1 h2 => ?_, fun h1 h2 => ?_⟩
  · rw [readProxyProtocol_fresh ParseIP _ rest la ra hlen, if_pos h1]
    have hs := (parseV1_state ParseIP { filledConn first rest la ra with offset := 6 }).1
    rw [detectV1_eq ParseIP _ _ _ _ _ hs]
    cases (parseV1 ParseIP { filledConn first rest la ra with offset := 6 }).1.2.2 <;> rfl
  · rw [readProxyProtocol_fresh ParseIP _ rest la ra hlen, if_neg h1, if_pos h2]
    have hs := (parseV2_state { filledConn first rest la ra with offset := 12 }).1
    rw [detectV2_eq _ _ _ _ _ hs]
    cases (parseV2 { filledConn first rest la ra with offset := 12 }).1.2.2 <;> rfl
  · rw [readProxyProtocol_fresh ParseIP _ rest la ra hlen, if_neg h1, if_neg h2]

/-! ## Truncated headers -/

theorem prefix_token (d : Nat) (a b x y : List Nat) (h : (a ++ d :: x) <+: (b ++ d :: y))
    (ha : d ∉ a) (hb : d ∉ b) : a = b ∧ x <+: y := by
  induction a generalizing b with
  | nil =>
    cases b with
    | nil =>
      simp only [List.nil_append] at h
      exact ⟨rfl, (List.cons_prefix_cons.mp h).2⟩
    | cons h' b' =>
      simp only [List.nil_append, List.cons_append] at h
      have := (List.cons_prefix_cons.mp h).1
      exact absurd (by simp [this]) hb
  | cons h' a' ih =>
    cases b with
    | nil =>
      simp only [List.nil_append, List.cons_append] at h
      have := (List.cons_prefix_cons.mp h).1
      exact absurd (by simp [this]) ha
    | cons h'' b' =>
      simp only [List.cons_append] at h
      obtain ⟨e1, e2⟩ := List.cons_prefix_cons.mp h
      obtain ⟨e3, e4⟩ := ih b' e2 (fun m => ha (by simp [m])) (fun m => hb (by simp [m]))
      exact ⟨by rw [e1, e3], e4⟩

theorem prefix_delim_length (d : Nat) (a b x y : List Nat)
    (h : (a ++ d :: x) <+: (b ++ d :: y)) (hb : d ∉ b) : b.length ≤ a.length := by
  induction b generalizing a with
  | nil => simp
  | cons h' b' ih =>
    cases a with
    | nil =>
      simp only [List.nil_append, List.cons_append] at h
      have := (List.cons_prefix_cons.mp h).1
      exact absurd (by simp [this]) hb
    | cons h'' a' =>
      simp only [List.cons_append] at h
      have := ih a' (List.cons_prefix_cons.mp h).2 (fun m => hb (by simp [m]))
      simp only [List.length_cons]
      omega

/-- The v1 reader fails on every buffer whose unread part is a proper prefix
of a v1 header body with space-free tokens and a last token without `\r`. -/
theorem parseV1_truncated (ParseIP : List Nat → Option (List Nat)) (c : dynamicPPConn)
    (proto s d sp dp : List Nat)
    (hpre : c.buff.drop c.offset
      <+: proto ++ 0x20 :: (s ++ 0x20 :: (d ++ 0x20 :: (sp ++ 0x20 :: (dp ++ CRLF)))))
    (hlt : (c.buff.drop c.offset).length
      < (proto ++ 0x20 :: (s ++ 0x20 :: (d ++ 0x20 :: (sp ++ 0x20 :: (dp ++ CRLF))))).length)
    (n1 : 0x20 ∉ proto) (n2 : 0x20 ∉ s) (n3 : 0x20 ∉ d) (n4 : 0x20 ∉ sp) (n5 : 0x0D ∉ dp) :
    ∃ e o, parseV1 ParseIP c = ((none, none, some e), { c with offset := o }) := by
  rcases parseV1_cases ParseIP c with
    ⟨t1, t2, t3, t4, t5, r, ip1, ip2, p1, p2, hshape, m1, m2, m3, m4, _, _, _, _, _, _⟩ | hfail
  swap
  · exact hfail
  exfalso
  rw [hshape] at hpre hlt
  obtain ⟨e1, q1⟩ := prefix_token 0x20 _ _ _ _ hpre m1 n1
  obtain ⟨e2, q2⟩ := prefix_token 0x20 _ _ _ _ q1 m2 n2
  obtain ⟨e3, q3⟩ := prefix_token 0x20 _ _ _ _ q2 m3 n3
  obtain ⟨e4, q4⟩ := prefix_token 0x20 _ _ _ _ q3 m4 n4
  have q5 : (t5 ++ 0x0D :: (0x0A :: r)) <+: (dp ++ 0x0D :: [0x0A]) := by
    simpa [CRLF] using q4
  have hl := prefix_delim_length 0x0D _ _ _ _ q5 n5
  subst e1 e2 e3 e4
  simp only [List.length_append, List.length_cons, CRLF, List.length_nil] at hlt
  omega

/-- The v2 reader fails on every buffer that ends before the end of the
address block announced by the length field. -/
theorem parseV2_truncated (c : dynamicPPConn) (fam L i : Nat) (block : List Nat)
    (hbuff : c.buff = (v2Header fam L block).take i) (hoff : c.offset = 12)
    (hblock : block.length = L) (hi : i < 16 + L) :
    ∃ e o, parseV2 c = ((NetAddr.nil, NetAddr.nil, some e), { c with offset := o }) := by
  rcases parseV2_cases c with ⟨_, _, hle, _⟩ | ⟨_, hfail⟩
  swap
  · exact hfail
  exfalso
  have hHlen : (v2Header fam L block).length = 16 + L := by
    simp [v2Header, PPv2Identifier, hblock]
    omega
  have hlen : c.buff.length = i := by
    rw [hbuff, List.length_take, hHlen]
    omega
  rw [hlen, hoff] at hle
  have h16 : 16 ≤ i := by omega
  have hl : (c.buff.drop (12 + 2)).take 2 = [L / 256, L % 256] := by
    rw [hbuff, List.drop_take, List.take_take]
    have : min 2 (i - (12 + 2)) = 2 := by omega
    rw [this]
    simp [v2Header, PPv2Identifier]
  rw [hl] at hle
  have hL : Uint16 [L / 256, L % 256] = L := by
    simp only [Uint16, List.getD_cons_zero, List.getD_cons_succ]
    exact Nat.div_add_mod' L 256
  rw [hL] at hle
  omega

/-- After a failed parse the detection returns no error, the cursor is 0, and
a `Read` returns the bytes of the first read from their start. -/
theorem detect_failed (ParseIP : List Nat → Option (List Nat)) (first : List Nat)
    (rest : List ReadEvent) (la ra : NetAddr) (k : Nat) (hlen : first.length ≤ 512)
    (hfail : (isV1 first ∧
        ∃ e, (parseV1 ParseIP { filledConn first rest la ra with offset := 6 }).1.2.2 = some e) ∨
      (¬ isV1 first ∧ isV2 first ∧
        ∃ e, (parseV2 { filledConn first rest la ra with offset := 12 }).1.2.2 = some e)) :
    (readProxyProtocol ParseIP (freshConn first rest la ra)).1 = none ∧
    (readProxyProtocol ParseIP (freshConn first rest la ra)).2.offset = 0 ∧
    (readProxyProtocol ParseIP (freshConn first rest la ra)).2.buff = first ∧
    (Read ParseIP (freshConn first rest la ra) k).1 = (first.take k, none) := by
  have hne : first ≠ [] := by
    intro h
    subst h
    rcases hfail with ⟨h1, _⟩ | ⟨_, h2, _⟩
    · exact absurd h1.1 (by decide)
    · exact absurd h2.1 (by decide)
  obtain ⟨D, hD, hoff, hbuff, hrf⟩ : ∃ D,
      readProxyProtocol ParseIP (freshConn first rest la ra) = (none, D) ∧ D.offset = 0 ∧
      D.buff = first ∧ D.readFunc = ReadFunc.deferredReadFunc := by
    rcases hfail with ⟨h1, e, he⟩ | ⟨h1, h2, e, he⟩
    · refine ⟨_, (detect_outcome ParseIP first rest la ra hlen).1 h1, ?_, rfl, rfl⟩
      simp only [he, Option.isSome_some, if_true]
    · refine ⟨_, (detect_outcome ParseIP first rest la ra hlen).2.1 h1 h2, ?_, rfl, rfl⟩
      simp only [he, Option.isSome_some, if_true]
  have hR := Read_of_detected ParseIP _ D first k rfl hD hrf (by rw [hbuff, hoff]; rfl)
  exact ⟨by rw [hD], by rw [hD, hoff], by rw [hD, hbuff], (hR.1 hne).1⟩

/-! ## C4: truncation tolerance -/

/-- C4: when the detection read returns the first `i` bytes of a v1 header
(`proto` one of `TCP4`, `TCP6`, space-free address tokens, decimal ports) or of
a v2 header (one of the three families with its block), `13 ≤ i < len(H)`,
the matching parser fails, detection returns no error, the cursor is 0 and a
`Read` into `i` bytes returns these `i` bytes unchanged. -/
theorem truncation_tolerance (ParseIP : List Nat → Option (List Nat))
    (rest : List ReadEvent) (la ra : NetAddr) (i : Nat) (hi : 13 ≤ i) :
    (∀ proto s d : List Nat, ∀ nsp ndp : Nat,
      (proto = TCP4 ∨ proto = TCP6) → 0x20 ∉ s → 0x20 ∉ d →
      i < (v1Header proto s d (decimal nsp) (decimal ndp)).length → i ≤ 512 →
      (∃ e, (parseV1 ParseIP
          { filledConn ((v1Header proto s d (decimal nsp) (decimal ndp)).take i) rest la ra with
            offset := 6 }).1.2.2 = some e) ∧
      (readProxyProtocol ParseIP
          (freshConn ((v1Header proto s d (decimal nsp) (decimal ndp)).take i) rest la ra)).1
        = none ∧
      (readProxyProtocol ParseIP
          (freshConn ((v1Header proto s d (decimal nsp) (decimal ndp)).take i) rest la ra)).2.offset
        = 0 ∧
      (Read ParseIP
          (freshConn ((v1Header proto s d (decimal nsp) (decimal ndp)).take i) rest la ra) i).1
        = ((v1Header proto s d (decimal nsp) (decimal ndp)).take i, none)) ∧
    (∀ fam L : Nat, ∀ block : List Nat,
      ((fam = 0x11 ∧ L = 12) ∨ (fam = 0x21 ∧ L = 36) ∨ (fam = 0x31 ∧ L = 216)) →
      block.length = L → i < (v2Header fam L block).length →
      (∃ e, (parseV2
          { filledConn ((v2Header fam L block).take i) rest la ra with offset := 12 }).1.2.2
        = some e) ∧
      (readProxyProtocol ParseIP
          (freshConn ((v2Header fam L block).take i) rest la ra)).1 = none ∧
      (readProxyProtocol ParseIP
          (freshConn ((v2Header fam L block).take i) rest la ra)).2.offset = 0 ∧
      (Read ParseIP (freshConn ((v2Header fam L block).take i) rest la ra) i).1
        = ((v2Header fam L block).take i, none)) := by
  constructor
  · intro proto s d nsp ndp hproto hs hd hlt h512
    have hproto' : 0x20 ∉ proto := by
      rcases hproto with h | h <;> subst h <;> decide
    have hlen : ((v1Header proto s d (decimal nsp) (decimal ndp)).take i).length = i := by
      rw [List.length_take]
      omega
    have hV1 : isV1 ((v1Header proto s d (decimal nsp) (decimal ndp)).take i) := by
      refine ⟨by rw [hlen]; simp only [PPv1IdentifierLen]; omega, ?_⟩
      rw [List.take_take, PPv1IdentifierLen, Nat.min_eq_left (by omega)]
      simp [v1Header, PPv1Identifier]
    have hbody := v1Header_drop proto s d (decimal nsp) (decimal ndp) []
    simp only [List.append_nil] at hbody
    obtain ⟨e, o, he⟩ := parseV1_truncated ParseIP
      { filledConn ((v1Header proto s d (decimal nsp) (decimal ndp)).take i) rest la ra with
        offset := 6 } proto s d (decimal nsp) (decimal ndp)
      (by
        show ((v1Header proto s d (decimal nsp) (decimal ndp)).take i).drop 6 <+: _
        rw [List.drop_take, ← hbody]
        exact List.take_prefix _ _)
      (by
        show (((v1Header proto s d (decimal nsp) (decimal ndp)).take i).drop 6).length < _
        rw [← hbody, List.length_drop, List.length_drop, hlen]
        omega)
      hproto' hs hd (decimal_no_space nsp) (decimal_no_CR ndp)
    have hpe : (parseV1 ParseIP
        { filledConn ((v1Header proto s d (decimal nsp) (decimal ndp)).take i) rest la ra with
          offset := 6 }).1.2.2 = some e := by rw [he]
    have hdf := detect_failed ParseIP _ rest la ra i (by rw [hlen]; exact h512)
      (Or.inl ⟨hV1, e, hpe⟩)
    refine ⟨⟨e, hpe⟩, hdf.1, hdf.2.1, ?_⟩
    rw [hdf.2.2.2, List.take_take, Nat.min_self]
  · intro fam L block hfam hblock hlt
    have hHlen : (v2Header fam L block).length = 16 + L := by
      simp [v2Header, PPv2Identifier, hblock]
      omega
    have hL : L ≤ 216 := by
      rcases hfam with h | h | h <;> omega
    have hlen : ((v2Header fam L block).take i).length = i := by
      rw [List.length_take]
      omega
    have hV : ¬ isV1 ((v2Header fam L block).take i) ∧ isV2 ((v2Header fam L block).take i) := by
      refine ⟨fun h => ?_, by rw [hlen]; simp only [PPv2IdentifierLen]; omega, ?_⟩
      · have h6 := h.2
        rw [List.take_take, PPv1IdentifierLen, Nat.min_eq_left (by omega)] at h6
        simp [v2Header, PPv2Identifier, PPv1Identifier] at h6
      · rw [List.take_take, PPv2IdentifierLen, Nat.min_eq_left (by omega)]
        simp [v2Header, PPv2Identifier]
    obtain ⟨e, o, he⟩ := parseV2_truncated
      { filledConn ((v2Header fam L block).take i) rest la ra with offset := 12 }
      fam L i block rfl rfl hblock (by omega)
    have hpe : (parseV2
        { filledConn ((v2Header fam L block).take i) rest la ra with offset := 12 }).1.2.2
        = some e := by rw [he]
    have hdf := detect_failed ParseIP _ rest la ra i (by rw [hlen]; omega)
      (Or.inr ⟨hV.1, hV.2, e, hpe⟩)
    refine ⟨⟨e, hpe⟩, hdf.1, hdf.2.1, ?_⟩
    rw [hdf.2.2.2, List.take_take, Nat.min_self]

/-- C4, witness: the first 20 bytes of `PROXY TCP4 10.1.1.1 20.2.2.2 1000 2000`
and the first 20 bytes of an INET v2 header. -/
theorem truncation_tolerance_witness :
    (Read parseIPv4
        (freshConn ((v1Header TCP4 lit10 lit20 (decimal 1000) (decimal 2000)).take 20) []
          (loopback 80) (loopback 4000)) 20).1
      = ((v1Header TCP4 lit10 lit20 (decimal 1000) (decimal 2000)).take 20, none) ∧
    (Read parseIPv4
        (freshConn ((v2Header 0x11 12 inetBlock).take 20) [] (loopback 80) (loopback 4000)) 20).1
      = ((v2Header 0x11 12 inetBlock).take 20, none) :=
  have h := truncation_tolerance parseIPv4 [] (loopback 80) (loopback 4000) 20 (by decide)
  ⟨(h.1 TCP4 lit10 lit20 1000 2000 (Or.inl rfl) (by decide) (by decide)
      (by simp [v1Header, decimal, PPv1Identifier, TCP4, CRLF, lit10, lit20])
      (by decide)).2.2.2,
   (h.2 0x11 12 inetBlock (Or.inl ⟨rfl, rfl⟩) (by decide) (by decide)).2.2.2⟩

/-! ## C5: addresses after a failed v1 parse -/

/-- C5 (the code at the failing input): the first read is `PROXY TCP4 10.1.1.1 `,
a truncated v1 header, on a connection whose own addresses are `127.0.0.1:80`
and `127.0.0.1:4000`. The v1 parser fails, the nil `*net.TCPAddr` pointers are
stored in the interface fields, which then compare unequal to nil, and
`RemoteAddr` and `LocalAddr` return these nil pointers instead of the
underlying connection's addresses. -/
theorem v1_failed_parse_addresses :
    isV1 [0x50, 0x52, 0x4F, 0x58, 0x59, 0x20, 0x54, 0x43, 0x50, 0x34, 0x20,
          49, 48, 46, 49, 46, 49, 46, 49, 0x20] ∧
    (parseV1 parseIPv4
        { filledConn [0x50, 0x52, 0x4F, 0x58, 0x59, 0x20, 0x54, 0x43, 0x50, 0x34, 0x20,
                      49, 48, 46, 49, 46, 49, 46, 49, 0x20] []
            (loopback 80) (loopback 4000) with offset := 6 }).1
      = (none, none, some (GoError.wrap "failed to read destination ip" GoError.EOF)) ∧
    (RemoteAddr parseIPv4
        (freshConn [0x50, 0x52, 0x4F, 0x58, 0x59, 0x20, 0x54, 0x43, 0x50, 0x34, 0x20,
                    49, 48, 46, 49, 46, 49, 46, 49, 0x20] []
          (loopback 80) (loopback 4000))).1 = NetAddr.tcp none ∧
    (LocalAddr parseIPv4
        (freshConn [0x50, 0x52, 0x4F, 0x58, 0x59, 0x20, 0x54, 0x43, 0x50, 0x34, 0x20,
                    49, 48, 46, 49, 46, 49, 46, 49, 0x20] []
          (loopback 80) (loopback 4000))).1 = NetAddr.tcp none ∧
    NetAddr.tcp none ≠ loopback 4000 ∧ NetAddr.tcp none ≠ loopback 80 := by
  decide

/-! ## C6: addresses after a failed v2 parse -/

theorem isV1_isV2_disjoint (b : List Nat) : ¬ (isV1 b ∧ isV2 b) := by
  rintro ⟨⟨_, h1⟩, ⟨_, h2⟩⟩
  have e1 := congrArg (List.take 1) h1
  have e2 := congrArg (List.take 1) h2
  rw [List.take_take] at e1 e2
  simp only [PPv1IdentifierLen, PPv2IdentifierLen, PPv1Identifier, PPv2Identifier] at e1 e2
  rw [show min 1 6 = 1 from rfl] at e1
  rw [show min 1 12 = 1 from rfl, e1] at e2
  simp at e2

/-- C6: when the first read starts with the v2 signature and the v2 parser
fails, no address is stored (both fields are the nil interface), so
`RemoteAddr` and `LocalAddr` return the underlying connection's own
addresses. -/
theorem v2_failed_parse_addresses (ParseIP : List Nat → Option (List Nat))
    (first : List Nat) (rest : List ReadEvent) (la ra : NetAddr)
    (hlen : first.length ≤ 512) (h2 : isV2 first)
    (hfail : (parseV2 { filledConn first rest la ra with offset := 12 }).1.2.2 ≠ none) :
    (readProxyProtocol ParseIP (freshConn first rest la ra)).2.srcAddr = NetAddr.nil ∧
    (readProxyProtocol ParseIP (freshConn first rest la ra)).2.dstAddr = NetAddr.nil ∧
    (RemoteAddr ParseIP (freshConn first rest la ra)).1 = ra ∧
    (LocalAddr ParseIP (freshConn first rest la ra)).1 = la := by
  have h1 : ¬ isV1 first := fun h => isV1_isV2_disjoint first ⟨h, h2⟩
  have hD := (detect_outcome ParseIP first rest la ra hlen).2.1 h1 h2
  rcases (parseV2_state { filledConn first rest la ra with offset := 12 }).2 with
    ⟨hn, _, _⟩ | ⟨_, hs, hd⟩
  · exact absurd hn hfail
  · rw [hs, hd] at hD
    have h0 : (freshConn first rest la ra).once = false := rfl
    refine ⟨by rw [hD], by rw [hD], ?_, ?_⟩
    · rw [RemoteAddr_first ParseIP _ _ _ h0 hD]
      rfl
    · rw [LocalAddr_first ParseIP _ _ _ h0 hD]
      rfl

/-- C6, witness: the v2 signature followed by the version/command byte `0x20`
(command LOCAL). -/
theorem v2_failed_parse_addresses_witness :
    (RemoteAddr parseIPv4
        (freshConn (PPv2Identifier ++ [0x20, 0x11, 0, 12] ++ inetBlock) []
          (loopback 80) (loopback 4000))).1 = loopback 4000 ∧
    (LocalAddr parseIPv4
        (freshConn (PPv2Identifier ++ [0x20, 0x11, 0, 12] ++ inetBlock) []
          (loopback 80) (loopback 4000))).1 = loopback 80 :=
  (v2_failed_parse_addresses parseIPv4 (PPv2Identifier ++ [0x20, 0x11, 0, 12] ++ inetBlock) []
    (loopback 80) (loopback 4000) (by decide) (by decide) (by decide)).2.2

/-! ## C7: parse failures are not fatal -/

theorem detect_general (ParseIP : List Nat → Option (List Nat)) (first : List Nat)
    (rest : List ReadEvent) (la ra : NetAddr) (hlen : first.length ≤ 512) :
    ∃ o a b, readProxyProtocol ParseIP (freshConn first rest la ra)
      = (none, { filledConn first rest la ra with offset := o, srcAddr := a, dstAddr := b }) := by
  have h := detect_outcome ParseIP first rest la ra hlen
  by_cases h1 : isV1 first
  · exact ⟨_, _, _, h.1 h1⟩
  · by_cases h2 : isV2 first
    · exact ⟨_, _, _, h.2.1 h1 h2⟩
    · exact ⟨0, NetAddr.nil, NetAddr.nil, h.2.2 h1 h2⟩

/-- C7: whatever bytes (at most 512, possibly none) the detection read
returns, detection returns no error, and the first `Read` either returns no
error or returns what the `Read` of the underlying connection returns; and
whenever the selected parser fails the cursor is 0 and the `Read` returns the
bytes of the first read from their start, signature included. -/
theorem parse_failures_not_fatal (ParseIP : List Nat → Option (List Nat))
    (first : List Nat) (rest : List ReadEvent) (la ra : NetAddr) (k : Nat)
    (hlen : first.length ≤ 512) :
    (readProxyProtocol ParseIP (freshConn first rest la ra)).1 = none ∧
    ((Read ParseIP (freshConn first rest la ra) k).1.2 = none ∨
      (Read ParseIP (freshConn first rest la ra) k).1
        = (RawConn.Read { script := rest, localAddr := la, remoteAddr := ra } k).1) ∧
    (isV1 first →
      (parseV1 ParseIP { filledConn first rest la ra with offset := 6 }).1.2.2 ≠ none →
      (readProxyProtocol ParseIP (freshConn first rest la ra)).2.offset = 0 ∧
      (readProxyProtocol ParseIP (freshConn first rest la ra)).2.buff = first ∧
      (Read ParseIP (freshConn first rest la ra) k).1 = (first.take k, none)) ∧
    (isV2 first →
      (parseV2 { filledConn first rest la ra with offset := 12 }).1.2.2 ≠ none →
      (readProxyProtocol ParseIP (freshConn first rest la ra)).2.offset = 0 ∧
      (readProxyProtocol ParseIP (freshConn first rest la ra)).2.buff = first ∧
      (Read ParseIP (freshConn first rest la ra) k).1 = (first.take k, none)) := by
  obtain ⟨o, a, b, hD⟩ := detect_general ParseIP first rest la ra hlen
  refine ⟨by rw [hD], ?_, ?_, ?_⟩
  · have hR := Read_of_detected ParseIP _ _ (first.drop o) k rfl hD rfl rfl
    by_cases hnil : first.drop o = []
    · exact Or.inr (hR.2 hnil)
    · exact Or.inl (by rw [(hR.1 hnil).1])
  · intro h1 hf
    obtain ⟨e, he⟩ := Option.ne_none_iff_exists'.mp hf
    have := detect_failed ParseIP first rest la ra k hlen (Or.inl ⟨h1, e, he⟩)
    exact ⟨this.2.1, this.2.2.1, this.2.2.2⟩
  · intro h2 hf
    obtain ⟨e, he⟩ := Option.ne_none_iff_exists'.mp hf
    have h1 : ¬ isV1 first := fun h => isV1_isV2_disjoint first ⟨h, h2⟩
    have := detect_failed ParseIP first rest la ra k hlen (Or.inr ⟨h1, h2, e, he⟩)
    exact ⟨this.2.1, this.2.2.1, this.2.2.2⟩

/-- C7, witness: the first read `PROXY UNKNOWN` with `\r\n`, which the v1 parser
rejects. -/
theorem parse_failures_not_fatal_witness :
    (readProxyProtocol parseIPv4
        (freshConn (PPv1Identifier ++ [85, 78, 75, 78, 79, 87, 78, 13, 10]) []
          (loopback 80) (loopback 4000))).1 = none ∧
    (Read parseIPv4
        (freshConn (PPv1Identifier ++ [85, 78, 75, 78, 79, 87, 78, 13, 10]) []
          (loopback 80) (loopback 4000)) 15).1
      = ((PPv1Identifier ++ [85, 78, 75, 78, 79, 87, 78, 13, 10]).take 15, none) :=
  have h := parse_failures_not_fatal parseIPv4
    (PPv1Identifier ++ [85, 78, 75, 78, 79, 87, 78, 13, 10]) [] (loopback 80) (loopback 4000) 15
    (by decide)
  ⟨h.1, (h.2.2.1 (by decide) (by decide)).2.2⟩

/-! ## C8: signature detection -/

/-- C8: after a detection read of `first`, the outcome is that of the v1 parser
run from cursor 6 exactly when `first` has at least 6 bytes and starts with
`50 52 4F 58 59 20`; otherwise it is that of the v2 parser run from cursor 12
exactly when `first` has at least 12 bytes and starts with
`0D 0A 0D 0A 00 0D 0A 51 55 49 54 0A`; otherwise no parser runs, the cursor is 0
and no address is stored. The two conditions exclude each other. -/
theorem signature_detection (ParseIP : List Nat → Option (List Nat)) (first : List Nat)
    (rest : List ReadEvent) (la ra : NetAddr) (hlen : first.length ≤ 512) :
    ((6 ≤ first.length ∧ first.take 6 = [0x50, 0x52, 0x4F, 0x58, 0x59, 0x20]) →
      readProxyProtocol ParseIP (freshConn first rest la ra)
        = (none, detectV1 ParseIP (filledConn first rest la ra)) ∧
      detectV1 ParseIP (filledConn first rest la ra)
        = { filledConn first rest la ra with
            offset :=
              if (parseV1 ParseIP { filledConn first rest la ra with offset := 6 }).1.2.2.isSome
              then 0
              else (parseV1 ParseIP { filledConn first rest la ra with offset := 6 }).2.offset,
            srcAddr := NetAddr.tcp
              (parseV1 ParseIP { filledConn first rest la ra with offset := 6 }).1.1,
            dstAddr := NetAddr.tcp
              (parseV1 ParseIP { filledConn first rest la ra with offset := 6 }).1.2.1 }) ∧
    (¬ (6 ≤ first.length ∧ first.take 6 = [0x50, 0x52, 0x4F, 0x58, 0x59, 0x20]) →
      (12 ≤ first.length ∧ first.take 12
        = [0x0D, 0x0A, 0x0D, 0x0A, 0x00, 0x0D, 0x0A, 0x51, 0x55, 0x49, 0x54, 0x0A]) →
      readProxyProtocol ParseIP (freshConn first rest la ra)
        = (none, detectV2 (filledConn first rest la ra)) ∧
      detectV2 (filledConn first rest la ra)
        = { filledConn first rest la ra with
            offset :=
              if (parseV2 { filledConn first rest la ra with offset := 12 }).1.2.2.isSome
              then 0
              else (parseV2 { filledConn first rest la ra with offset := 12 }).2.offset,
            srcAddr := (parseV2 { filledConn first rest la ra with offset := 12 }).1.1,
            dstAddr := (parseV2 { filledConn first rest la ra with offset := 12 }).1.2.1 }) ∧
    (¬ (6 ≤ first.length ∧ first.take 6 = [0x50, 0x52, 0x4F, 0x58, 0x59, 0x20]) →
      ¬ (12 ≤ first.length ∧ first.take 12
        = [0x0D, 0x0A, 0x0D, 0x0A, 0x00, 0x0D, 0x0A, 0x51, 0x55, 0x49, 0x54, 0x0A]) →
      readProxyProtocol ParseIP (freshConn first rest la ra)
        = (none, filledConn first rest la ra) ∧
      (filledConn first rest la ra).offset = 0 ∧
      (filledConn first rest la ra).srcAddr = NetAddr.nil ∧
      (filledConn first rest la ra).dstAddr = NetAddr.nil) ∧
    ¬ ((6 ≤ first.length ∧ first.take 6 = [0x50, 0x52, 0x4F, 0x58, 0x59, 0x20]) ∧
       (12 ≤ first.length ∧ first.take 12
        = [0x0D, 0x0A, 0x0D, 0x0A, 0x00, 0x0D, 0x0A, 0x51, 0x55, 0x49, 0x54, 0x0A])) := by
  have hfresh := readProxyProtocol_fresh ParseIP first rest la ra hlen
  have hout := detect_outcome ParseIP first rest la ra hlen
  refine ⟨fun h1 => ?_, fun h1 h2 => ?_, fun h1 h2 => ?_, fun h => ?_⟩
  · have h1' : isV1 first := h1
    rw [hfresh, if_pos h1'] at hout ⊢
    exact ⟨rfl, (Prod.mk.inj (hout.1 h1')).2⟩
  · have h1' : ¬ isV1 first := h1
    have h2' : isV2 first := h2
    rw [hfresh, if_neg h1', if_pos h2'] at hout ⊢
    exact ⟨rfl, (Prod.mk.inj (hout.2.1 h1' h2')).2⟩
  · have h1' : ¬ isV1 first := h1
    have h2' : ¬ isV2 first := h2
    rw [hfresh, if_neg h1', if_neg h2']
    exact ⟨rfl, rfl, rfl, rfl⟩
  · exact isV1_isV2_disjoint first ⟨h.1, h.2⟩

/-- C8, witness: the first read `ping` carries no signature. -/
theorem signature_detection_witness :
    readProxyProtocol parseIPv4 (freshConn ping [] (loopback 80) (loopback 4000))
      = (none, filledConn ping [] (loopback 80) (loopback 4000)) :=
  ((signature_detection parseIPv4 ping [] (loopback 80) (loopback 4000) (by decide)).2.2.1
    (by decide) (by decide)).1

/-! ## C9: the v1 protocol token -/

/-- C9 (the code): when the first read starts with the v1 signature and the
bytes after it up to the first space are not exactly `TCP4` or `TCP6` (or there
is no space), the v1 parser fails and returns no address, detection returns no
error with the cursor at 0, and a `Read` returns the bytes of the first read
from their start, as claimed. The connection does not end in bypass, though:
the nil `*net.TCPAddr` pointers of the failed parser are stored in the
interface fields, which then compare unequal to nil, and `RemoteAddr` and
`LocalAddr` return these nil pointers instead of the underlying connection's
addresses. -/
theorem v1_protocol_token (ParseIP : List Nat → Option (List Nat)) (first : List Nat)
    (rest : List ReadEvent) (la ra : NetAddr) (k : Nat)
    (hlen : first.length ≤ 512) (h1 : isV1 first)
    (htok : ∀ tok tail : List Nat, first.drop 6 = tok ++ 0x20 :: tail → 0x20 ∉ tok →
      tok ≠ TCP4 ∧ tok ≠ TCP6) :
    (parseV1 ParseIP { filledConn first rest la ra with offset := 6 }).1.2.2 ≠ none ∧
    (parseV1 ParseIP { filledConn first rest la ra with offset := 6 }).1.1 = none ∧
    (parseV1 ParseIP { filledConn first rest la ra with offset := 6 }).1.2.1 = none ∧
    (readProxyProtocol ParseIP (freshConn first rest la ra)).1 = none ∧
    (readProxyProtocol ParseIP (freshConn first rest la ra)).2.offset = 0 ∧
    (readProxyProtocol ParseIP (freshConn first rest la ra)).2.srcAddr = NetAddr.tcp none ∧
    (readProxyProtocol ParseIP (freshConn first rest la ra)).2.dstAddr = NetAddr.tcp none ∧
    (Read ParseIP (freshConn first rest la ra) k).1 = (first.take k, none) ∧
    (readProxyProtocol ParseIP (freshConn first rest la ra)).2.srcAddr ≠ NetAddr.nil ∧
    (readProxyProtocol ParseIP (freshConn first rest la ra)).2.dstAddr ≠ NetAddr.nil ∧
    (RemoteAddr ParseIP (freshConn first rest la ra)).1 = NetAddr.tcp none ∧
    (LocalAddr ParseIP (freshConn first rest la ra)).1 = NetAddr.tcp none ∧
    ¬ Bypassed la ra (onceDo ParseIP (freshConn first rest la ra)) := by
  rcases parseV1_cases ParseIP { filledConn first rest la ra with offset := 6 } with
    ⟨t1, t2, t3, t4, t5, r, ip1, ip2, p1, p2, hshape, m1, _, _, _, hp, _⟩ | ⟨e, o, he⟩
  · exfalso
    have := htok t1 _ hshape m1
    rcases hp with h | h
    · exact this.1 h
    · exact this.2 h
  · have hpe : (parseV1 ParseIP { filledConn first rest la ra with offset := 6 }).1.2.2
        = some e := by rw [he]
    have hdf := detect_failed ParseIP first rest la ra k hlen (Or.inl ⟨h1, e, hpe⟩)
    have hD := (detect_outcome ParseIP first rest la ra hlen).1 h1
    rw [he] at hD
    refine ⟨by rw [hpe]; exact Option.some_ne_none e, by rw [he], by rw [he], hdf.1, hdf.2.1,
      by rw [hD], by rw [hD], hdf.2.2.2, ?_, ?_, ?_, ?_, ?_⟩
    · rw [hD]
      exact fun h => NetAddr.noConfusion h
    · rw [hD]
      exact fun h => NetAddr.noConfusion h
    · rw [RemoteAddr_first ParseIP _ _ _ rfl hD]
      rfl
    · rw [LocalAddr_first ParseIP _ _ _ rfl hD]
      rfl
    · rw [onceDo_first ParseIP _ _ _ rfl hD]
      exact fun hb => NetAddr.noConfusion hb.2.2.1

/-- C9, witness: the first read `PROXY tcp4 1` with `\r\n`, whose protocol token
is spelled in lower case, on a connection whose own addresses are
`127.0.0.1:80` and `127.0.0.1:4000`. The cursor is 0 and a `Read` returns the
whole first read, but `RemoteAddr` and `LocalAddr` return the nil pointer, which
is neither of the underlying connection's addresses. -/
theorem v1_protocol_token_witness :
    (readProxyProtocol parseIPv4
        (freshConn (PPv1Identifier ++ [116, 99, 112, 52, 0x20, 49, 13, 10]) []
          (loopback 80) (loopback 4000))).2.offset = 0 ∧
    (Read parseIPv4
        (freshConn (PPv1Identifier ++ [116, 99, 112, 52, 0x20, 49, 13, 10]) []
          (loopback 80) (loopback 4000)) 14).1
      = (PPv1Identifier ++ [116, 99, 112, 52, 0x20, 49, 13, 10], none) ∧
    (RemoteAddr parseIPv4
        (freshConn (PPv1Identifier ++ [116, 99, 112, 52, 0x20, 49, 13, 10]) []
          (loopback 80) (loopback 4000))).1 = NetAddr.tcp none ∧
    (LocalAddr parseIPv4
        (freshConn (PPv1Identifier ++ [116, 99, 112, 52, 0x20, 49, 13, 10]) []
          (loopback 80) (loopback 4000))).1 = NetAddr.tcp none ∧
    ¬ Bypassed (loopback 80) (loopback 4000)
      (onceDo parseIPv4
        (freshConn (PPv1Identifier ++ [116, 99, 112, 52, 0x20, 49, 13, 10]) []
          (loopback 80) (loopback 4000))) ∧
    NetAddr.tcp none ≠ loopback 4000 ∧ NetAddr.tcp none ≠ loopback 80 :=
  have h := v1_protocol_token parseIPv4
    (PPv1Identifier ++ [116, 99, 112, 52, 0x20, 49, 13, 10]) [] (loopback 80) (loopback 4000) 14
    (by decide) (by decide)
    (fun tok tail htl hn => by
      have hp : (tok ++ 0x20 :: tail) <+: ([116, 99, 112, 52] ++ 0x20 :: [49, 13, 10]) := by
        rw [← htl]
        exact List.prefix_refl _
      have ht := (prefix_token 0x20 tok [116, 99, 112, 52] tail [49, 13, 10] hp hn
        (by decide)).1
      subst ht
      decide)
  ⟨h.2.2.2.2.1, h.2.2.2.2.2.2.2.1, h.2.2.2.2.2.2.2.2.2.2.1, h.2.2.2.2.2.2.2.2.2.2.2.1,
   h.2.2.2.2.2.2.2.2.2.2.2.2, by decide, by decide⟩

/-! ## C10: the v1 port tokens -/

theorem atoiDigits_all (s : List Nat) (acc n : Nat) (h : atoiDigits s acc = some n) :
    (s.all fun ch => decide (48 ≤ ch ∧ ch ≤ 57)) = true := by
  induction s generalizing acc with
  | nil => rfl
  | cons x xs ih =>
    by_cases hx : 48 ≤ x ∧ x ≤ 57
    · simp only [atoiDigits, hx, and_self, if_true] at h
      simp only [List.all_cons, hx, and_self, decide_True, Bool.true_and]
      exact ih _ h
    · simp [atoiDigits, hx] at h

theorem Atoi_isSignedDecimal (s : List Nat) (v : Int) (h : Atoi s = some v) :
    isSignedDecimal s = true := by
  cases s with
  | nil => simp [Atoi] at h
  | cons c0 tl =>
    simp only [Atoi] at h
    simp only [isSignedDecimal]
    generalize (if c0 = 45 ∨ c0 = 43 then tl else c0 :: tl) = body at h ⊢
    by_cases hb : body = []
    · simp [hb] at h
    · simp only [hb, if_false] at h
      cases hn : atoiDigits body 0 with
      | none => simp [hn] at h
      | some n =>
        rw [atoiDigits_all _ 0 n hn]
        cases body with
        | nil => exact absurd rfl hb
        | cons x xs => rfl

/-- C10 (amended): in a v1 header that is otherwise well formed (`proto` one of
`TCP4`, `TCP6`, accepted space-free address tokens, a space-free source-port
token and a destination-port token without `\r`), the v1 parser fails exactly
when `strconv.Atoi` rejects one of the two port tokens, which it does for
every token that is not an optionally signed non-empty string of decimal
digits and for the decimal rendering of every integer from `2 ^ 63` on; when
the parser succeeds the reported ports are the integers that `strconv.Atoi`
reads from the tokens. -/
theorem v1_port_tokens (ParseIP : List Nat → Option (List Nat)) (c : dynamicPPConn)
    (proto s d sp dp P ips ipd : List Nat)
    (hbuff : c.buff.drop c.offset
      = proto ++ 0x20 :: (s ++ 0x20 :: (d ++ 0x20 :: (sp ++ 0x20 :: (dp ++ CRLF ++ P)))))
    (hproto : proto = TCP4 ∨ proto = TCP6) (hs : 0x20 ∉ s) (hd : 0x20 ∉ d)
    (hips : ParseIP s = some ips) (hipd : ParseIP d = some ipd)
    (hsp : 0x20 ∉ sp) (hdp : 0x0D ∉ dp) :
    ((parseV1 ParseIP c).1.2.2 ≠ none ↔ (Atoi sp = none ∨ Atoi dp = none)) ∧
    ((isSignedDecimal sp = false ∨ isSignedDecimal dp = false) →
      (parseV1 ParseIP c).1.2.2 ≠ none) ∧
    ((∃ n : Nat, 2 ^ 63 ≤ n ∧ (sp = decimal n ∨ dp = decimal n)) →
      (parseV1 ParseIP c).1.2.2 ≠ none) ∧
    (∀ psp pdp : Int, Atoi sp = some psp → Atoi dp = some pdp →
      (parseV1 ParseIP c).1
        = (some { IP := ips, Port := psp }, some { IP := ipd, Port := pdp }, none)) := by
  have hproto' : 0x20 ∉ proto := by
    rcases hproto with h | h <;> subst h <;> decide
  have hiff : (parseV1 ParseIP c).1.2.2 ≠ none ↔ (Atoi sp = none ∨ Atoi dp = none) := by
    rcases parseV1_shape ParseIP c proto s d sp dp P hbuff hproto' hs hd hsp hdp with
      ⟨ip1, ip2, p1, p2, _, _, _, h4, h5, he⟩ | ⟨hbad, e, o, he⟩
    · rw [he, h4, h5]
      simp
    · rw [he]
      rcases hbad with h | h | h | h | h
      · exact absurd hproto h
      · rw [hips] at h
        exact Option.noConfusion h
      · rw [hipd] at h
        exact Option.noConfusion h
      · simp [h]
      · simp [h]
  refine ⟨hiff, ?_, ?_, ?_⟩
  swap
  · rintro ⟨n, hn, h | h⟩
    · exact hiff.mpr (Or.inl (by rw [h, Atoi_decimal, if_neg (by omega)]))
    · exact hiff.mpr (Or.inr (by rw [h, Atoi_decimal, if_neg (by omega)]))
  · intro h
    apply hiff.mpr
    rcases h with h | h
    · left
      cases ha : Atoi sp with
      | none => rfl
      | some v =>
        rw [Atoi_isSignedDecimal sp v ha] at h
        exact Bool.noConfusion h
    · right
      cases ha : Atoi dp with
      | none => rfl
      | some v =>
        rw [Atoi_isSignedDecimal dp v ha] at h
        exact Bool.noConfusion h
  · intro psp pdp h4' h5'
    rcases parseV1_shape ParseIP c proto s d sp dp P hbuff hproto' hs hd hsp hdp with
      ⟨ip1, ip2, p1, p2, _, h2, h3, h4, h5, he⟩ | ⟨hbad, e, o, he⟩
    · rw [hips] at h2
      rw [hipd] at h3
      rw [h4'] at h4
      rw [h5'] at h5
      cases h2
      cases h3
      cases h4
      cases h5
      rw [he]
    · exfalso
      rcases hbad with h | h | h | h | h
      · exact h hproto
      · rw [hips] at h
        exact Option.noConfusion h
      · rw [hipd] at h
        exact Option.noConfusion h
      · rw [h4'] at h
        exact Option.noConfusion h
      · rw [h5'] at h
        exact Option.noConfusion h

/-- C10, witness: the header `PROXY TCP4 10.1.1.1 20.2.2.2 80a 2000` is rejected,
since `80a` is not a signed decimal. -/
theorem v1_port_tokens_witness :
    (parseV1 parseIPv4
        { filledConn (v1Header TCP4 lit10 lit20 [56, 48, 97] [50, 48, 48, 48] ++ ping) []
            (loopback 80) (loopback 4000) with offset := 6 }).1.2.2 ≠ none :=
  (v1_port_tokens parseIPv4
      { filledConn (v1Header TCP4 lit10 lit20 [56, 48, 97] [50, 48, 48, 48] ++ ping) []
          (loopback 80) (loopback 4000) with offset := 6 }
      TCP4 lit10 lit20 [56, 48, 97] [50, 48, 48, 48] ping
      [0, 0, 0, 0, 0, 0, 0, 0, 0, 0, 255, 255, 10, 1, 1, 1]
      [0, 0, 0, 0, 0, 0, 0, 0, 0, 0, 255, 255, 20, 2, 2, 2]
      (by decide) (Or.inl rfl) (by decide) (by decide) (by decide) (by decide) (by decide)
      (by decide)).2.1 (Or.inl (by decide))

/-- C10, counterexample: the header `PROXY TCP4 10.1.1.1 20.2.2.2 -1 2000` is
otherwise well formed and its source-port token `-1` does not denote a
non-negative integer, yet the v1 parser succeeds and reports the source port
`-1`, which is not `≥ 0`. -/
theorem v1_port_tokens_counterexample :
    (parseV1 parseIPv4
        { filledConn (v1Header TCP4 lit10 lit20 [45, 49] [50, 48, 48, 48] ++ ping) []
            (loopback 80) (loopback 4000) with offset := 6 }).1
      = (some { IP := [0, 0, 0, 0, 0, 0, 0, 0, 0, 0, 255, 255, 10, 1, 1, 1], Port := -1 },
         some { IP := [0, 0, 0, 0, 0, 0, 0, 0, 0, 0, 255, 255, 20, 2, 2, 2], Port := 2000 },
         none) ∧
    (RemoteAddr parseIPv4
        (freshConn (v1Header TCP4 lit10 lit20 [45, 49] [50, 48, 48, 48] ++ ping) []
          (loopback 80) (loopback 4000))).1
      = tcpAddr [0, 0, 0, 0, 0, 0, 0, 0, 0, 0, 255, 255, 10, 1, 1, 1] (-1) ∧
    ¬ ((0 : Int) ≤ -1) := by
  decide

/-! ## C11: the version/command and family/transport bytes -/

/-- C11: the v2 parser succeeds only if the byte at the cursor is exactly `0x21`
and the next byte is one of `0x11`, `0x21`, `0x31`; it fails for every other
value of either byte, that is whenever the version is not 2, the command is not
1, the family is not 1, 2 or 3, or the transport is not 1. -/
theorem v2_validation (c : dynamicPPConn) :
    ((parseV2 c).1.2.2 = none →
      c.buff.getD c.offset 0 = 0x21 ∧
      (c.buff.getD (c.offset + 1) 0 = 0x11 ∨ c.buff.getD (c.offset + 1) 0 = 0x21 ∨
        c.buff.getD (c.offset + 1) 0 = 0x31)) ∧
    ((c.buff.getD c.offset 0 / 16 ≠ 2 ∨ c.buff.getD c.offset 0 % 16 ≠ 1) →
      (parseV2 c).1.2.2 ≠ none ∧ (parseV2 c).1.1 = NetAddr.nil ∧
      (parseV2 c).1.2.1 = NetAddr.nil) ∧
    ((¬ (c.buff.getD (c.offset + 1) 0 / 16 = 1 ∨ c.buff.getD (c.offset + 1) 0 / 16 = 2 ∨
          c.buff.getD (c.offset + 1) 0 / 16 = 3) ∨
        c.buff.getD (c.offset + 1) 0 % 16 ≠ 1) →
      (parseV2 c).1.2.2 ≠ none ∧ (parseV2 c).1.1 = NetAddr.nil ∧
      (parseV2 c).1.2.1 = NetAddr.nil) := by
  have key : (parseV2 c).1.2.2 = none →
      c.buff.getD c.offset 0 = 0x21 ∧
      (c.buff.getD (c.offset + 1) 0 = 0x11 ∨ c.buff.getD (c.offset + 1) 0 = 0x21 ∨
        c.buff.getD (c.offset + 1) 0 = 0x31) := by
    intro hok
    rcases parseV2_cases c with ⟨h0, h1, _, _⟩ | ⟨_, e, o, he⟩
    · exact ⟨h0, h1⟩
    · rw [he] at hok
      exact Option.noConfusion hok
  have fail : (parseV2 c).1.2.2 ≠ none →
      (parseV2 c).1.2.2 ≠ none ∧ (parseV2 c).1.1 = NetAddr.nil ∧
      (parseV2 c).1.2.1 = NetAddr.nil := by
    intro hne
    rcases (parseV2_state c).2 with ⟨hn, _, _⟩ | ⟨_, hs, hd⟩
    · exact absurd hn hne
    · exact ⟨hne, hs, hd⟩
  refine ⟨key, fun h => fail fun hok => ?_, fun h => fail fun hok => ?_⟩
  · have := (key hok).1
    omega
  · have := (key hok).2
    omega

/-- C11, witness: after the v2 signature, the version/command byte `0x20`
(command LOCAL) makes the parser fail. -/
theorem v2_validation_witness :
    (parseV2 { filledConn (PPv2Identifier ++ [0x20, 0x11, 0, 12] ++ inetBlock) []
        (loopback 80) (loopback 4000) with offset := 12 }).1.2.2 ≠ none :=
  ((v2_validation { filledConn (PPv2Identifier ++ [0x20, 0x11, 0, 12] ++ inetBlock) []
      (loopback 80) (loopback 4000) with offset := 12 }).2.1 (Or.inr (by decide))).1

/-! ## C12: the length of the address block -/

theorem decodeV2_short (fam : Nat) (block : List Nat)
    (hfam : fam = 0x11 ∨ fam = 0x21 ∨ fam = 0x31) (h : block.length < blockSize fam) :
    ∃ msg, decodeV2 (fam / 16) block
      = (NetAddr.nil, NetAddr.nil, some (GoError.wrap msg (readFullError block.length))) := by
  rcases hfam with h1 | h1 | h1
  · subst h1
    have h' : block.length < 12 := h
    exact ⟨_, by simp only [decodeV2, binaryReadAddr4, h', if_true]; rfl⟩
  · subst h1
    have h' : block.length < 36 := h
    exact ⟨_, by simp only [decodeV2, binaryReadAddr6, h', if_true]; rfl⟩
  · subst h1
    have h' : block.length < 216 := h
    exact ⟨_, by simp only [decodeV2, binaryReadAddrUnix, h', if_true]; rfl⟩

/-- C12 (amended): in a v2 header with version/command byte `0x21` and a
supported family/transport byte, a declared length `L` below the fixed size of
the family's address block makes the v2 parser fail with the error of the
decoder; a declared length of at least that size, with the `L` bytes present,
makes it succeed: the addresses are decoded from the first bytes of the block,
the other bytes of the block are skipped and the cursor ends at `16 + L`. -/
theorem v2_block_length (c : dynamicPPConn) (fam L : Nat) (block P : List Nat)
    (hbuff : c.buff = v2Header fam L block ++ P) (hoff : c.offset = 12)
    (hfam : fam = 0x11 ∨ fam = 0x21 ∨ fam = 0x31) (hblock : block.length = L) :
    (L < blockSize fam →
      (parseV2 c).1.1 = NetAddr.nil ∧ (parseV2 c).1.2.1 = NetAddr.nil ∧
      ∃ msg, (parseV2 c).1.2.2 = some (GoError.wrap msg (readFullError L))) ∧
    (blockSize fam ≤ L →
      (parseV2 c).1.2.2 = none ∧ (parseV2 c).2.offset = 16 + L ∧
      (fam = 0x11 → (parseV2 c).1.1 = tcpAddr (block.take 4) (be16At block 8) ∧
        (parseV2 c).1.2.1 = tcpAddr ((block.drop 4).take 4) (be16At block 10)) ∧
      (fam = 0x21 → (parseV2 c).1.1 = tcpAddr (block.take 16) (be16At block 32) ∧
        (parseV2 c).1.2.1 = tcpAddr ((block.drop 16).take 16) (be16At block 34)) ∧
      (fam = 0x31 → (parseV2 c).1.1 = unixAddr (block.take 108) ∧
        (parseV2 c).1.2.1 = unixAddr ((block.drop 108).take 108))) := by
  have hp := parseV2_v2Header c fam L block P hbuff hoff hfam hblock
  constructor
  · intro hlt
    obtain ⟨msg, hm⟩ := decodeV2_short fam block hfam (by rw [hblock]; exact hlt)
    rw [hp, hm, hblock]
    exact ⟨rfl, rfl, msg, rfl⟩
  · intro hge
    rw [hp]
    rcases hfam with h1 | h1 | h1
    · subst h1
      have h12 : 12 ≤ block.length := by rw [hblock]; exact hge
      rw [show (0x11 : Nat) / 16 = 1 from rfl, decodeV2_inet block h12]
      exact ⟨rfl, rfl, fun _ => ⟨rfl, rfl⟩, fun h => absurd h (by decide),
        fun h => absurd h (by decide)⟩
    · subst h1
      have h36 : 36 ≤ block.length := by rw [hblock]; exact hge
      rw [show (0x21 : Nat) / 16 = 2 from rfl, decodeV2_inet6 block h36]
      exact ⟨rfl, rfl, fun h => absurd h (by decide), fun _ => ⟨rfl, rfl⟩,
        fun h => absurd h (by decide)⟩
    · subst h1
      have h216 : 216 ≤ block.length := by rw [hblock]; exact hge
      rw [show (0x31 : Nat) / 16 = 3 from rfl, decodeV2_unix block h216]
      exact ⟨rfl, rfl, fun h => absurd h (by decide), fun h => absurd h (by decide),
        fun _ => ⟨rfl, rfl⟩⟩

/-- C12, witness: an INET header that declares 4 bytes is rejected with
`io.ErrUnexpectedEOF` from the decoder. -/
theorem v2_block_length_witness :
    ∃ msg, (parseV2 { filledConn (v2Header 0x11 4 [10, 1, 1, 1] ++ ping) []
        (loopback 80) (loopback 4000) with offset := 12 }).1.2.2
      = some (GoError.wrap msg GoError.ErrUnexpectedEOF) :=
  ((v2_block_length { filledConn (v2Header 0x11 4 [10, 1, 1, 1] ++ ping) []
      (loopback 80) (loopback 4000) with offset := 12 } 0x11 4 [10, 1, 1, 1] ping rfl rfl
    (Or.inl rfl) rfl).1 (by decide)).2.2

/-- C12, counterexample: an INET header that declares 20 bytes, 8 more than
the 12 of the family, with the 20 bytes present: the v2 parser succeeds, reports
`10.1.1.1:1000` and `20.2.2.2:2000` and leaves the cursor at 36; detection
keeps these addresses and the `Read` returns `ping`. -/
theorem v2_block_length_counterexample :
    (parseV2 { filledConn (v2Header 0x11 20 longBlock ++ ping) []
        (loopback 80) (loopback 4000) with offset := 12 }).1
      = (tcpAddr [10, 1, 1, 1] 1000, tcpAddr [20, 2, 2, 2] 2000, none) ∧
    (parseV2 { filledConn (v2Header 0x11 20 longBlock ++ ping) []
        (loopback 80) (loopback 4000) with offset := 12 }).2.offset = 36 ∧
    (RemoteAddr parseIPv4
        (freshConn (v2Header 0x11 20 longBlock ++ ping) [] (loopback 80) (loopback 4000))).1
      = tcpAddr [10, 1, 1, 1] 1000 ∧
    (Read parseIPv4
        (freshConn (v2Header 0x11 20 longBlock ++ ping) [] (loopback 80) (loopback 4000)) 4).1
      = (ping, none) := by
  decide

/-! ## C20: the bytes withheld by a successful v2 parse -/

theorem Uint16_take_drop (b : List Nat) (o : Nat) :
    Uint16 ((b.drop o).take 2) = be16At b o := by
  simp only [Uint16, be16At]
  rw [getD_take_drop b o 2 0 (by omega), getD_take_drop b o 2 1 (by omega)]
  rfl

theorem parseV2_ok_cursor (c : dynamicPPConn) (hok : (parseV2 c).1.2.2 = none) :
    parseV2 c = ((parseV2 c).1, { c with offset := c.offset + 4 + be16At c.buff (c.offset + 2) }) ∧
    c.offset + 4 + be16At c.buff (c.offset + 2) ≤ c.buff.length := by
  rcases parseV2_cases c with ⟨_, _, hle, he⟩ | ⟨_, e, o, he⟩
  · rw [Uint16_take_drop] at hle he
    refine ⟨?_, hle⟩
    rw [he]
  · rw [he] at hok
    exact Option.noConfusion hok

/-- C20: whenever the v2 parser, started at cursor 12, succeeds, the cursor ends
at `16 + L` for `L` the big-endian value of the bytes 14 and 15 of the buffer,
whatever the family, and the buffer holds these `16 + L` bytes; after
detection the cursor is `16 + L` and a `Read` returns the buffer from byte
`16 + L` on. -/
theorem v2_cursor_after_success (ParseIP : List Nat → Option (List Nat))
    (first : List Nat) (rest : List ReadEvent) (la ra : NetAddr) (k : Nat)
    (hlen : first.length ≤ 512) (h2 : isV2 first)
    (hok : (parseV2 { filledConn first rest la ra with offset := 12 }).1.2.2 = none) :
    (parseV2 { filledConn first rest la ra with offset := 12 }).2.offset
      = 16 + be16At first 14 ∧
    (parseV2 { filledConn first rest la ra with offset := 12 }).2.buff = first ∧
    16 + be16At first 14 ≤ first.length ∧
    (readProxyProtocol ParseIP (freshConn first rest la ra)).2.offset = 16 + be16At first 14 ∧
    (readProxyProtocol ParseIP (freshConn first rest la ra)).2.buff = first ∧
    (first.drop (16 + be16At first 14) ≠ [] →
      (Read ParseIP (freshConn first rest la ra) k).1
        = ((first.drop (16 + be16At first 14)).take k, none)) := by
  have h1 : ¬ isV1 first := fun h => isV1_isV2_disjoint first ⟨h, h2⟩
  obtain ⟨hp, hle⟩ := parseV2_ok_cursor { filledConn first rest la ra with offset := 12 } hok
  have e16 : (12 : Nat) + 4 + be16At first (12 + 2) = 16 + be16At first 14 := rfl
  have hle' : (12 : Nat) + 4 + be16At first (12 + 2) ≤ first.length := hle
  have hpo : (parseV2 { filledConn first rest la ra with offset := 12 }).2.offset
      = 16 + be16At first 14 := by
    rw [hp]
    exact e16
  have hD := (detect_outcome ParseIP first rest la ra hlen).2.1 h1 h2
  rw [hok, hpo] at hD
  have hR := Read_of_detected ParseIP _ _ (first.drop (16 + be16At first 14)) k rfl hD rfl rfl
  refine ⟨hpo, by rw [hp]; rfl, by rw [← e16]; exact hle', by rw [hD]; rfl, by rw [hD]; rfl, ?_⟩
  intro hne
  exact (hR.1 hne).1

/-- C20, witness: an INET header that declares 20 bytes leaves the cursor at
36. -/
theorem v2_cursor_after_success_witness :
    (readProxyProtocol parseIPv4
        (freshConn (v2Header 0x11 20 longBlock ++ ping) []
          (loopback 80) (loopback 4000))).2.offset = 16 + 20 :=
  (v2_cursor_after_success parseIPv4 (v2Header 0x11 20 longBlock ++ ping) []
    (loopback 80) (loopback 4000) 4 (by decide) (by decide) (by decide)).2.2.2.1

/-! ## C17: `readBytes` and `readByte` -/

/-- C17: with the cursor `o` within the buffer, `readBytes(n)` returns the `n`
bytes `buffer[o .. o+n)` and moves the cursor to `o + n` when `o + n` is at most
the length of the buffer, and otherwise fails with `io.EOF` and changes
nothing; `readByte()` succeeds and fails exactly as `readBytes(1)` does, leaves
the same connection, and returns the single byte that `readBytes(1)` returns. -/
theorem readBytes_readByte (c : dynamicPPConn) (n : Nat) (ho : c.offset ≤ c.buff.length) :
    (c.offset + n ≤ c.buff.length →
      readBytes c n
        = (.ok ((c.buff.drop c.offset).take n), { c with offset := c.offset + n }) ∧
      ((c.buff.drop c.offset).take n).length = n ∧
      ∀ j, j < n → ((c.buff.drop c.offset).take n).getD j 0 = c.buff.getD (c.offset + j) 0) ∧
    (c.buff.length < c.offset + n → readBytes c n = (.error GoError.EOF, c)) ∧
    (c.offset + 1 ≤ c.buff.length →
      readBytes c 1 = (.ok [c.buff.getD c.offset 0], { c with offset := c.offset + 1 }) ∧
      readByte c = (.ok (c.buff.getD c.offset 0), { c with offset := c.offset + 1 })) ∧
    (c.buff.length < c.offset + 1 →
      readBytes c 1 = (.error GoError.EOF, c) ∧ readByte c = (.error GoError.EOF, c)) := by
  refine ⟨fun h => ⟨readBytes_ok c n h, ?_, fun j hj => getD_take_drop _ _ _ _ hj⟩,
    fun h => readBytes_fail c n h, fun h => ⟨?_, ?_⟩,
    fun h => ⟨readBytes_fail c 1 h, readByte_fail c (by omega)⟩⟩
  · rw [List.length_take, List.length_drop]
    omega
  · rw [readBytes_ok c 1 h]
    have hl : ((c.buff.drop c.offset).take 1).length = 1 := by
      rw [List.length_take, List.length_drop]
      omega
    have hg := getD_take_drop c.buff c.offset 1 0 (by omega)
    rw [Nat.add_zero] at hg
    cases hx : (c.buff.drop c.offset).take 1 with
    | nil => rw [hx] at hl; exact absurd hl (by decide)
    | cons x xs =>
      rw [hx] at hl hg
      cases xs with
      | nil =>
        simp only [List.getD_cons_zero] at hg
        rw [hg]
      | cons y ys => simp at hl
  · rw [readByte_eq, if_neg (by omega)]

/-- C17, witness: on the buffer `ping` with the cursor at 1, `readBytes(2)`
returns `in` and moves the cursor to 3. -/
theorem readBytes_readByte_witness :
    readBytes { filledConn ping [] (loopback 80) (loopback 4000) with offset := 1 } 2
      = (.ok [105, 110],
         { filledConn ping [] (loopback 80) (loopback 4000) with offset := 3 }) :=
  ((readBytes_readByte { filledConn ping [] (loopback 80) (loopback 4000) with offset := 1 } 2
    (by decide)).1 (by decide)).1

/-! ## C18: `readString` and `readString2` -/

theorem IndexByte_eq_Index (s : List Nat) (d : Nat) : IndexByte s d = Index s [d] := by
  induction s with
  | nil => simp [IndexByte, Index]
  | cons x xs ih =>
    by_cases hx : x = d
    · subst hx
      simp [IndexByte, Index]
    · have hp : ¬ ([d] <+: x :: xs) := by
        intro h
        exact hx (List.cons_prefix_cons.mp h).1.symm
      simp only [IndexByte, Index, hx, hp, if_false, ih]

theorem Index_some_first (s sep : List Nat) (i : Nat) (h : Index s sep = some i) :
    occursAt s sep i ∧ ∀ j, j < i → ¬ occursAt s sep j := by
  induction s generalizing i with
  | nil =>
    by_cases hs : sep = []
    · simp only [Index, hs, if_true, Option.some.injEq] at h
      subst h
      exact ⟨by simp [occursAt, hs], fun j hj => absurd hj (Nat.not_lt_zero j)⟩
    · simp [Index, hs] at h
  | cons x xs ih =>
    by_cases hp : sep <+: x :: xs
    · simp only [Index, hp, if_true, Option.some.injEq] at h
      subst h
      exact ⟨by simpa [occursAt] using hp, fun j hj => absurd hj (Nat.not_lt_zero j)⟩
    · simp only [Index, hp, if_false, Option.map_eq_some'] at h
      obtain ⟨i', hi', rfl⟩ := h
      obtain ⟨h1, h2⟩ := ih i' hi'
      refine ⟨by simpa [occursAt] using h1, fun j hj => ?_⟩
      cases j with
      | zero => simpa [occursAt] using hp
      | succ m =>
        have := h2 m (by omega)
        simpa [occursAt] using this

theorem Index_none (s sep : List Nat) (hsep : sep ≠ []) (h : Index s sep = none) :
    ∀ j, ¬ occursAt s sep j := by
  induction s with
  | nil =>
    intro j hj
    simp only [occursAt, List.drop_nil, List.prefix_nil] at hj
    exact hsep hj
  | cons x xs ih =>
    by_cases hp : sep <+: x :: xs
    · simp [Index, hp] at h
    · simp only [Index, hp, if_false, Option.map_eq_none'] at h
      intro j
      cases j with
      | zero => simpa [occursAt] using hp
      | succ m =>
        have := ih h m
        simpa [occursAt] using this

theorem Index_of_first (s sep : List Nat) (i : Nat) (hsep : sep ≠ [])
    (hocc : occursAt s sep i) (hfirst : ∀ j, j < i → ¬ occursAt s sep j) :
    Index s sep = some i := by
  cases h : Index s sep with
  | none => exact absurd hocc (Index_none s sep hsep h i)
  | some i' =>
    obtain ⟨h1, h2⟩ := Index_some_first s sep i' h
    rcases Nat.lt_trichotomy i i' with hlt | heq | hgt
    · exact absurd hocc (h2 i hlt)
    · rw [heq]
    · exact absurd h1 (hfirst i' hgt)

/-- C18: `readString2` with a non-empty delimiter whose first occurrence in the
unread bytes `buffer[o..)` starts at `i` returns the `i` bytes before it, which
contain no occurrence of the delimiter, and moves the cursor to
`o + i + len(delimiter)`; when the delimiter does not occur it fails with
`io.EOF` and changes nothing; `readString` with the byte `d` does what
`readString2` does with the one-byte delimiter `d`. -/
theorem readDelimited (c : dynamicPPConn) (sep : List Nat) (hsep : sep ≠ [])
    (ho : c.offset ≤ c.buff.length) :
    (∀ i, occursAt (c.buff.drop c.offset) sep i →
      (∀ j, j < i → ¬ occursAt (c.buff.drop c.offset) sep j) →
      readString2 c sep
        = (.ok ((c.buff.drop c.offset).take i),
           { c with offset := c.offset + i + sep.length }) ∧
      ((c.buff.drop c.offset).take i).length = i ∧
      c.offset + i + sep.length ≤ c.buff.length ∧
      ∀ j, ¬ occursAt ((c.buff.drop c.offset).take i) sep j) ∧
    ((∀ i, ¬ occursAt (c.buff.drop c.offset) sep i) →
      readString2 c sep = (.error GoError.EOF, c)) ∧
    (∀ d, sep = [d] → readString c d = readString2 c sep) := by
  refine ⟨fun i hocc hfirst => ?_, fun hno => ?_, fun d hd => ?_⟩
  · have hI := Index_of_first _ sep i hsep hocc hfirst
    obtain ⟨restl, hsplit, htl⟩ := Index_eq_some _ _ _ hI
    have hlen : (c.buff.drop c.offset).length = i + sep.length + restl.length := by
      have := congrArg List.length hsplit
      simp only [List.length_append, htl] at this
      exact this
    rw [List.length_drop] at hlen
    refine ⟨?_, htl, by omega, fun j hj => ?_⟩
    · unfold readString2
      rw [hI]
      have e1 : c.offset + (i + sep.length) - i - sep.length = c.offset := by omega
      have e2 : c.offset + (i + sep.length) - sep.length - c.offset = i := by omega
      simp only [slice, e1, e2, Nat.add_assoc]
    · have hpre : ((c.buff.drop c.offset).take i).drop j <+: (c.buff.drop c.offset).drop j := by
        rw [List.drop_take]
        exact List.take_prefix _ _
      have hj' : occursAt (c.buff.drop c.offset) sep j := List.IsPrefix.trans hj hpre
      have hjlt : j < i := by
        by_contra hge
        have hnil : ((c.buff.drop c.offset).take i).drop j = [] :=
          List.drop_eq_nil_of_le (by rw [htl]; omega)
        simp only [occursAt, hnil, List.prefix_nil] at hj
        exact hsep hj
      exact hfirst j hjlt hj'
  · unfold readString2
    cases h : Index (c.buff.drop c.offset) sep with
    | none => rfl
    | some i => exact absurd (Index_some_first _ _ _ h).1 (hno i)
  · subst hd
    unfold readString readString2
    rw [IndexByte_eq_Index]
    rfl

/-- C18, witness: on the buffer `ping` with the cursor at 1, `readString2` with
the delimiter `ng` returns `i` and moves the cursor to 4. -/
theorem readDelimited_witness :
    readString2 { filledConn ping [] (loopback 80) (loopback 4000) with offset := 1 }
        [110, 103]
      = (.ok [105], { filledConn ping [] (loopback 80) (loopback 4000) with offset := 4 }) :=
  ((readDelimited { filledConn ping [] (loopback 80) (loopback 4000) with offset := 1 }
    [110, 103] (by decide) (by decide)).1 1 (by decide)
    (fun j hj => by
      have h0 : j = 0 := by omega
      subst h0
      decide)).1

/-! ## C13: reads after detection -/

theorem Read_direct (ParseIP : List Nat → Option (List Nat)) (c : dynamicPPConn) (k : Nat)
    (honce : c.once = true) (herr : c.readErr = none) (hrf : c.readFunc = ReadFunc.connRead) :
    Read ParseIP c k = ((c.Conn.Read k).1, { c with Conn := (c.Conn.Read k).2 }) := by
  simp only [Read, onceDo_done ParseIP c honce, herr, callReadFunc, hrf]

theorem ReadLog_direct (ParseIP : List Nat → Option (List Nat)) (ks : List Nat)
    (c : dynamicPPConn) (honce : c.once = true) (herr : c.readErr = none)
    (hrf : c.readFunc = ReadFunc.connRead) :
    ReadLog ParseIP c ks
      = ((RawConn.ReadLog c.Conn ks).1, { c with Conn := (RawConn.ReadLog c.Conn ks).2 }) := by
  induction ks generalizing c with
  | nil => simp only [ReadLog, RawConn.ReadLog]
  | cons k ks ih =>
    simp only [ReadLog, RawConn.ReadLog, Read_direct ParseIP c k honce herr hrf]
    rw [ih { c with Conn := (c.Conn.Read k).2 } honce herr hrf]

/-- C13: on a connection whose detection has run without error and that still
replays its buffer, with cursor `o` and buffer length `L`: if `o < L`, a `Read`
into `k` bytes returns the `min(k, L − o)` bytes `buffer[o ..)`, moves the
cursor by that number and leaves the underlying connection as it was; if
`o = L`, the `Read` returns what the `Read` of the underlying connection
returns, and every later `Read` is the `Read` of the underlying connection,
while buffer and cursor stay as they are. -/
theorem post_detection_reads (ParseIP : List Nat → Option (List Nat)) (c : dynamicPPConn)
    (k : Nat) (honce : c.once = true) (herr : c.readErr = none)
    (hrf : c.readFunc = ReadFunc.deferredReadFunc) :
    (c.offset < c.buff.length →
      Read ParseIP c k
        = (((c.buff.drop c.offset).take k, none),
           { c with offset := c.offset + min k (c.buff.length - c.offset) }) ∧
      ((c.buff.drop c.offset).take k).length = min k (c.buff.length - c.offset) ∧
      (∀ j, j < min k (c.buff.length - c.offset) →
        ((c.buff.drop c.offset).take k).getD j 0 = c.buff.getD (c.offset + j) 0) ∧
      (Read ParseIP c k).2.Conn = c.Conn) ∧
    (c.offset = c.buff.length →
      Read ParseIP c k
        = ((c.Conn.Read k).1,
           { c with readFunc := ReadFunc.connRead, Conn := (c.Conn.Read k).2 }) ∧
      ∀ ks, ReadLog ParseIP (Read ParseIP c k).2 ks
        = ((RawConn.ReadLog (c.Conn.Read k).2 ks).1,
           { c with readFunc := ReadFunc.connRead,
                    Conn := (RawConn.ReadLog (c.Conn.Read k).2 ks).2 })) := by
  have hR : Read ParseIP c k = deferredReadFunc c k := Read_done ParseIP c k honce herr hrf
  constructor
  · intro hlt
    have hne : c.buff.drop c.offset ≠ [] := by
      intro h
      have := congrArg List.length h
      rw [List.length_drop] at this
      simp only [List.length_nil] at this
      omega
    have hl : ((c.buff.drop c.offset).take k).length = min k (c.buff.length - c.offset) := by
      rw [List.length_take, List.length_drop]
    rw [hR, deferredReadFunc_buffered c k _ rfl hne, hl]
    refine ⟨rfl, rfl, fun j hj => ?_, rfl⟩
    exact getD_take_drop _ _ _ _ (by omega)
  · intro heq
    have hnil : c.buff.drop c.offset = [] := List.drop_eq_nil_of_le (by omega)
    rw [hR, deferredReadFunc_drained c k hnil]
    refine ⟨rfl, fun ks => ?_⟩
    exact ReadLog_direct ParseIP ks
      { c with readFunc := ReadFunc.connRead, Conn := (c.Conn.Read k).2 } honce herr rfl

/-- C13, witness: after the detection of a first read `ping`, a `Read` into 3
bytes returns `pin` and leaves the cursor at 3. -/
theorem post_detection_reads_witness :
    Read parseIPv4
        { filledConn ping [ReadEvent.data [1, 2, 3]] (loopback 80) (loopback 4000) with
          once := true } 3
      = (([112, 105, 110], none),
         { filledConn ping [ReadEvent.data [1, 2, 3]] (loopback 80) (loopback 4000) with
           once := true, offset := 3 }) :=
  ((post_detection_reads parseIPv4
    { filledConn ping [ReadEvent.data [1, 2, 3]] (loopback 80) (loopback 4000) with
      once := true } 3 rfl rfl rfl).1 (by decide)).1

/-! ## C14: a failed detection read -/

theorem RawConn_Read_addr (r : RawConn) (k : Nat) :
    (r.Read k).2.localAddr = r.localAddr ∧ (r.Read k).2.remoteAddr = r.remoteAddr := by
  obtain ⟨script, la, ra⟩ := r
  cases script with
  | nil => exact ⟨rfl, rfl⟩
  | cons e rest =>
    cases e with
    | fail err => exact ⟨rfl, rfl⟩
    | data bs =>
      by_cases hk : bs.length ≤ k
      · simp only [RawConn.Read, hk, if_true]
        exact ⟨trivial, trivial⟩
      · simp only [RawConn.Read, hk, if_false]
        exact ⟨trivial, trivial⟩

theorem call_onceDo (ParseIP : List Nat → Option (List Nat)) (c : dynamicPPConn) (op : Call) :
    call ParseIP (onceDo ParseIP c) op = call ParseIP c op := by
  have h : onceDo ParseIP (onceDo ParseIP c) = onceDo ParseIP c := by
    apply onceDo_done
    unfold onceDo
    split
    · assumption
    · rfl
  cases op with
  | Read k => simp only [call, Read_onceDo]
  | LocalAddr => simp only [call, LocalAddr, h]
  | RemoteAddr => simp only [call, RemoteAddr, h]

theorem calls_cons (ParseIP : List Nat → Option (List Nat)) (c : dynamicPPConn) (op : Call)
    (ops : List Call) :
    calls ParseIP c (op :: ops)
      = ((call ParseIP c op).1 :: (calls ParseIP (call ParseIP c op).2 ops).1,
         (calls ParseIP (call ParseIP c op).2 ops).2) := by
  simp only [calls]

theorem calls_onceDo (ParseIP : List Nat → Option (List Nat)) (c : dynamicPPConn) (op : Call)
    (ops : List Call) :
    calls ParseIP (onceDo ParseIP c) (op :: ops) = calls ParseIP c (op :: ops) := by
  rw [calls_cons, calls_cons, call_onceDo]

theorem call_failed (ParseIP : List Nat → Option (List Nat)) (c : dynamicPPConn) (e : GoError)
    (op : Call) (honce : c.once = true) (herr : c.readErr = some e)
    (hsrc : c.srcAddr = NetAddr.nil) (hdst : c.dstAddr = NetAddr.nil) :
    call ParseIP c op = (failedOutcome e c.Conn.localAddr c.Conn.remoteAddr op, c) := by
  cases op with
  | Read k => simp only [call, Read, onceDo_done ParseIP c honce, herr, failedOutcome]
  | LocalAddr =>
    simp [call, LocalAddr, onceDo_done ParseIP c honce, hdst, NetAddr.notNil, failedOutcome]
  | RemoteAddr =>
    simp [call, RemoteAddr, onceDo_done ParseIP c honce, hsrc, NetAddr.notNil, failedOutcome]

theorem calls_failed (ParseIP : List Nat → Option (List Nat)) (c : dynamicPPConn) (e : GoError)
    (ops : List Call) (honce : c.once = true) (herr : c.readErr = some e)
    (hsrc : c.srcAddr = NetAddr.nil) (hdst : c.dstAddr = NetAddr.nil) :
    calls ParseIP c ops
      = (ops.map (failedOutcome e c.Conn.localAddr c.Conn.remoteAddr), c) := by
  induction ops with
  | nil => simp only [calls, List.map_nil]
  | cons op ops ih =>
    rw [calls_cons, call_failed ParseIP c e op honce herr hsrc hdst, ih]
    rfl

/-- C14: when the detection read of the underlying connection returns the error
`e`, then in every sequence of calls every `Read` returns no bytes and `e`,
`LocalAddr` and `RemoteAddr` return the underlying connection's own addresses,
no address is stored, and the underlying connection is left as the detection
read left it: it is read once and not again. -/
theorem detection_io_error (ParseIP : List Nat → Option (List Nat)) (raw : RawConn)
    (e : GoError) (ops : List Call) (he : (raw.Read 512).1.2 = some e) :
    (calls ParseIP (newDynamicPPConn raw) ops).1
      = ops.map (failedOutcome e raw.localAddr raw.remoteAddr) ∧
    (ops ≠ [] →
      (calls ParseIP (newDynamicPPConn raw) ops).2
        = { newDynamicPPConn raw with
            Conn := (raw.Read 512).2, once := true, readErr := some e }) ∧
    (calls ParseIP (newDynamicPPConn raw) ops).2.srcAddr = NetAddr.nil ∧
    (calls ParseIP (newDynamicPPConn raw) ops).2.dstAddr = NetAddr.nil := by
  have hD : onceDo ParseIP (newDynamicPPConn raw)
      = { newDynamicPPConn raw with
          Conn := (raw.Read 512).2, once := true, readErr := some e } := by
    rcases hR : raw.Read 512 with ⟨⟨d, e'⟩, r'⟩
    rw [hR] at he
    have he' : e' = some e := he
    subst he'
    simp only [onceDo, newDynamicPPConn, readProxyProtocol, List.length_replicate, hR]
    rfl
  cases ops with
  | nil => exact ⟨rfl, fun h => absurd rfl h, rfl, rfl⟩
  | cons op ops =>
    rw [← calls_onceDo, hD, calls_failed ParseIP _ e (op :: ops) rfl rfl rfl rfl]
    refine ⟨?_, fun _ => rfl, rfl, rfl⟩
    show List.map (failedOutcome e (raw.Read 512).2.localAddr (raw.Read 512).2.remoteAddr) _ = _
    rw [(RawConn_Read_addr raw 512).1, (RawConn_Read_addr raw 512).2]

/-- C14, witness: the detection read fails with a connection error; two reads
and an address query follow. -/
theorem detection_io_error_witness :
    (calls parseIPv4
        (newDynamicPPConn { script := [ReadEvent.fail (GoError.conn 104), ReadEvent.data ping],
                            localAddr := loopback 80, remoteAddr := loopback 4000 })
        [Call.Read 4, Call.RemoteAddr, Call.Read 4]).1
      = [Outcome.read ([], some (GoError.conn 104)), Outcome.addr (loopback 4000),
         Outcome.read ([], some (GoError.conn 104))] :=
  (detection_io_error parseIPv4
    { script := [ReadEvent.fail (GoError.conn 104), ReadEvent.data ping],
      localAddr := loopback 80, remoteAddr := loopback 4000 }
    (GoError.conn 104) [Call.Read 4, Call.RemoteAddr, Call.Read 4] (by decide)).1

/-! ## C15: detection runs once -/

theorem detectV1_fields (ParseIP : List Nat → Option (List Nat)) (c : dynamicPPConn) :
    (detectV1 ParseIP c).Conn = c.Conn ∧ (detectV1 ParseIP c).buff = c.buff ∧
    (detectV1 ParseIP c).once = c.once ∧ (detectV1 ParseIP c).readFunc = c.readFunc ∧
    (detectV1 ParseIP c).readErr = c.readErr := by
  have hs := (parseV1_state ParseIP { c with offset := 6 }).1
  rw [detectV1_eq ParseIP _ _ _ _ _ hs]
  cases (parseV1 ParseIP { c with offset := 6 }).1.2.2 <;> exact ⟨rfl, rfl, rfl, rfl, rfl⟩

theorem detectV2_fields (c : dynamicPPConn) :
    (detectV2 c).Conn = c.Conn ∧ (detectV2 c).buff = c.buff ∧
    (detectV2 c).once = c.once ∧ (detectV2 c).readFunc = c.readFunc ∧
    (detectV2 c).readErr = c.readErr := by
  have hs := (parseV2_state { c with offset := 12 }).1
  rw [detectV2_eq _ _ _ _ _ hs]
  cases (parseV2 { c with offset := 12 }).1.2.2 <;> exact ⟨rfl, rfl, rfl, rfl, rfl⟩

theorem readProxyProtocol_Conn (ParseIP : List Nat → Option (List Nat)) (c : dynamicPPConn) :
    (readProxyProtocol ParseIP c).2.Conn = (c.Conn.Read c.buff.length).2 := by
  unfold readProxyProtocol
  rcases hR : c.Conn.Read c.buff.length with ⟨⟨d, e⟩, r⟩
  cases e with
  | some err => rfl
  | none =>
    simp only
    split
    · exact (detectV1_fields ParseIP _).1
    · split
      · exact (detectV2_fields _).1
      · rfl

theorem call_done (ParseIP : List Nat → Option (List Nat)) (c : dynamicPPConn) (op : Call)
    (honce : c.once = true) :
    (call ParseIP c op).2.once = true ∧
    (call ParseIP c op).2.srcAddr = c.srcAddr ∧ (call ParseIP c op).2.dstAddr = c.dstAddr ∧
    (call ParseIP c op).2.Conn.localAddr = c.Conn.localAddr ∧
    (call ParseIP c op).2.Conn.remoteAddr = c.Conn.remoteAddr := by
  have hraw := fun k => RawConn_Read_addr c.Conn k
  cases op with
  | LocalAddr =>
    have h : (call ParseIP c Call.LocalAddr).2 = c := by
      simp only [call, LocalAddr_snd, onceDo_done ParseIP c honce]
    rw [h]
    exact ⟨honce, rfl, rfl, rfl, rfl⟩
  | RemoteAddr =>
    have h : (call ParseIP c Call.RemoteAddr).2 = c := by
      simp only [call, RemoteAddr_snd, onceDo_done ParseIP c honce]
    rw [h]
    exact ⟨honce, rfl, rfl, rfl, rfl⟩
  | Read k =>
    have h : (call ParseIP c (Call.Read k)).2 = c ∨
        (∃ o, (call ParseIP c (Call.Read k)).2 = { c with offset := o }) ∨
        (call ParseIP c (Call.Read k)).2 = { c with Conn := (c.Conn.Read k).2 } ∨
        (call ParseIP c (Call.Read k)).2
          = { c with readFunc := ReadFunc.connRead, Conn := (c.Conn.Read k).2 } := by
      show (Read ParseIP c k).2 = c ∨ (∃ o, (Read ParseIP c k).2 = { c with offset := o }) ∨
        (Read ParseIP c k).2 = { c with Conn := (c.Conn.Read k).2 } ∨
        (Read ParseIP c k).2
          = { c with readFunc := ReadFunc.connRead, Conn := (c.Conn.Read k).2 }
      by_cases herr : c.readErr = none
      · by_cases hrf : c.readFunc = ReadFunc.connRead
        · rw [Read_direct ParseIP c k honce herr hrf]
          exact Or.inr (Or.inr (Or.inl rfl))
        · have hrf' : c.readFunc = ReadFunc.deferredReadFunc := by
            cases hx : c.readFunc with
            | connRead => exact absurd hx hrf
            | deferredReadFunc => rfl
          rw [Read_done ParseIP c k honce herr hrf']
          by_cases hnil : c.buff.drop c.offset = []
          · rw [deferredReadFunc_drained c k hnil]
            exact Or.inr (Or.inr (Or.inr rfl))
          · rw [deferredReadFunc_buffered c k _ rfl hnil]
            exact Or.inr (Or.inl ⟨_, rfl⟩)
      · obtain ⟨e, he⟩ := Option.ne_none_iff_exists'.mp herr
        have : Read ParseIP c k = (([], some e), c) := by
          simp only [Read, onceDo_done ParseIP c honce, he]
        rw [this]
        exact Or.inl rfl
    rcases h with h | ⟨o, h⟩ | h | h <;> rw [h]
    · exact ⟨honce, rfl, rfl, rfl, rfl⟩
    · exact ⟨honce, rfl, rfl, rfl, rfl⟩
    · exact ⟨honce, rfl, rfl, (hraw k).1, (hraw k).2⟩
    · exact ⟨honce, rfl, rfl, (hraw k).1, (hraw k).2⟩

theorem calls_done (ParseIP : List Nat → Option (List Nat)) (ops : List Call)
    (c : dynamicPPConn) (honce : c.once = true) :
    (calls ParseIP c ops).2.once = true ∧
    (calls ParseIP c ops).2.srcAddr = c.srcAddr ∧ (calls ParseIP c ops).2.dstAddr = c.dstAddr ∧
    (calls ParseIP c ops).2.Conn.localAddr = c.Conn.localAddr ∧
    (calls ParseIP c ops).2.Conn.remoteAddr = c.Conn.remoteAddr := by
  induction ops generalizing c with
  | nil => exact ⟨honce, rfl, rfl, rfl, rfl⟩
  | cons op ops ih =>
    obtain ⟨h1, h2, h3, h4, h5⟩ := call_done ParseIP c op honce
    obtain ⟨g1, g2, g3, g4, g5⟩ := ih (call ParseIP c op).2 h1
    rw [calls_cons]
    exact ⟨g1, g2.trans h2, g3.trans h3, g4.trans h4, g5.trans h5⟩

theorem onceDo_once (ParseIP : List Nat → Option (List Nat)) (c : dynamicPPConn) :
    (onceDo ParseIP c).once = true := by
  unfold onceDo
  split
  · assumption
  · rfl

theorem addr_of_done (ParseIP : List Nat → Option (List Nat)) (c : dynamicPPConn)
    (honce : c.once = true) :
    (LocalAddr ParseIP c).1 = (if c.dstAddr.notNil then c.dstAddr else c.Conn.localAddr) ∧
    (RemoteAddr ParseIP c).1 = (if c.srcAddr.notNil then c.srcAddr else c.Conn.remoteAddr) := by
  simp only [LocalAddr, RemoteAddr, onceDo_done ParseIP c honce]
  constructor
  · split <;> rfl
  · split <;> rfl

/-- C15: in the sequential model, after any call (`Read`, `LocalAddr` or
`RemoteAddr`) detection is marked as done; once it is done the `sync.Once` body
is not run again, so `LocalAddr` and `RemoteAddr` return the connection exactly
as they found it (same cursor, buffer, stored addresses and underlying
connection); an address query on a new connection reads the underlying
connection once; and whatever calls are made in between, `LocalAddr` and
`RemoteAddr` keep returning the value they return at the start. -/
theorem detection_once (ParseIP : List Nat → Option (List Nat)) (c : dynamicPPConn)
    (op : Call) (ops : List Call) (raw : RawConn) :
    (call ParseIP c op).2.once = true ∧
    (c.once = true → onceDo ParseIP c = c) ∧
    (c.once = true → (LocalAddr ParseIP c).2 = c ∧ (RemoteAddr ParseIP c).2 = c) ∧
    (LocalAddr ParseIP (newDynamicPPConn raw)).2.Conn = (raw.Read 512).2 ∧
    (RemoteAddr ParseIP (LocalAddr ParseIP (newDynamicPPConn raw)).2).2
      = (LocalAddr ParseIP (newDynamicPPConn raw)).2 ∧
    (LocalAddr ParseIP (calls ParseIP c ops).2).1 = (LocalAddr ParseIP c).1 ∧
    (RemoteAddr ParseIP (calls ParseIP c ops).2).1 = (RemoteAddr ParseIP c).1 := by
  have hcall : (call ParseIP c op).2.once = true := by
    rw [← call_onceDo]
    exact (call_done ParseIP _ op (onceDo_once ParseIP c)).1
  have hkeep : (LocalAddr ParseIP (calls ParseIP c ops).2).1 = (LocalAddr ParseIP c).1 ∧
      (RemoteAddr ParseIP (calls ParseIP c ops).2).1 = (RemoteAddr ParseIP c).1 := by
    cases ops with
    | nil => exact ⟨rfl, rfl⟩
    | cons o os =>
      rw [← calls_onceDo]
      obtain ⟨g1, g2, g3, g4, g5⟩ := calls_done ParseIP (o :: os) _ (onceDo_once ParseIP c)
      have ha := addr_of_done ParseIP _ g1
      have hb := addr_of_done ParseIP _ (onceDo_once ParseIP c)
      have hc := addr_onceDo ParseIP c
      rw [ha.1, ha.2, g2, g3, g4, g5, ← hb.1, ← hb.2, hc.1, hc.2]
      exact ⟨rfl, rfl⟩
  refine ⟨hcall, fun h => onceDo_done ParseIP c h, fun h => ?_, ?_, ?_, hkeep.1, hkeep.2⟩
  · rw [LocalAddr_snd, RemoteAddr_snd, onceDo_done ParseIP c h]
    exact ⟨rfl, rfl⟩
  · rw [LocalAddr_snd]
    have h0 : (newDynamicPPConn raw).once = false := rfl
    simp only [onceDo, h0]
    exact readProxyProtocol_Conn ParseIP (newDynamicPPConn raw)
  · rw [RemoteAddr_snd, LocalAddr_snd, onceDo_done ParseIP _ (onceDo_once ParseIP _)]

/-- C15, witness: on a connection that has received `PROXY TCP4 10.1.1.1
20.2.2.2 1000 2000` and `ping`, the address queries made before, between and
after two reads return the same values. -/
theorem detection_once_witness :
    (calls parseIPv4
        (freshConn (v1Header TCP4 lit10 lit20 [49, 48, 48, 48] [50, 48, 48, 48] ++ ping)
          [ReadEvent.data [1, 2, 3]] (loopback 80) (loopback 4000))
        [Call.RemoteAddr, Call.Read 2, Call.RemoteAddr, Call.Read 9, Call.RemoteAddr]).1
      = [Outcome.addr (tcpAddr [0, 0, 0, 0, 0, 0, 0, 0, 0, 0, 255, 255, 10, 1, 1, 1] 1000),
         Outcome.read ([112, 105], none),
         Outcome.addr (tcpAddr [0, 0, 0, 0, 0, 0, 0, 0, 0, 0, 255, 255, 10, 1, 1, 1] 1000),
         Outcome.read ([110, 103], none),
         Outcome.addr (tcpAddr [0, 0, 0, 0, 0, 0, 0, 0, 0, 0, 255, 255, 10, 1, 1, 1] 1000)] ∧
    (RemoteAddr parseIPv4
        (calls parseIPv4
          (freshConn (v1Header TCP4 lit10 lit20 [49, 48, 48, 48] [50, 48, 48, 48] ++ ping)
            [ReadEvent.data [1, 2, 3]] (loopback 80) (loopback 4000))
          [Call.Read 2, Call.LocalAddr, Call.Read 9]).2).1
      = (RemoteAddr parseIPv4
          (freshConn (v1Header TCP4 lit10 lit20 [49, 48, 48, 48] [50, 48, 48, 48] ++ ping)
            [ReadEvent.data [1, 2, 3]] (loopback 80) (loopback 4000))).1 :=
  ⟨by decide,
   (detection_once parseIPv4
      (freshConn (v1Header TCP4 lit10 lit20 [49, 48, 48, 48] [50, 48, 48, 48] ++ ping)
        [ReadEvent.data [1, 2, 3]] (loopback 80) (loopback 4000))
      (Call.Read 2) [Call.Read 2, Call.LocalAddr, Call.Read 9]
      { script := [], localAddr := NetAddr.nil, remoteAddr := NetAddr.nil }).2.2.2.2.2.2⟩

/-! ## C19: the cursor invariant -/

theorem advances_refl (c : dynamicPPConn) : advances c c := ⟨rfl, Nat.le_refl _, fun h => h⟩

theorem advances_trans {a b c : dynamicPPConn} (h1 : advances a b) (h2 : advances b c) :
    advances a c := by
  obtain ⟨e1, l1, b1⟩ := h1
  obtain ⟨e2, l2, b2⟩ := h2
  have hb : b.buff = a.buff := by rw [e1]
  refine ⟨?_, Nat.le_trans l1 l2, fun h => ?_⟩
  · rw [e2, e1]
  · have := b2 (by rw [hb]; exact b1 h)
    rw [hb] at this
    exact this

theorem drop_length_le (b : List Nat) (o : Nat) (x : List Nat) (h : b.drop o = x)
    (ho : o ≤ b.length) : o + x.length = b.length := by
  have := congrArg List.length h
  rw [List.length_drop] at this
  omega

theorem readString_advances {c c' : dynamicPPConn} {d : Nat} {r : Except GoError (List Nat)}
    (h : readString c d = (r, c')) : advances c c' := by
  rcases readString_cases c d with ⟨tok, rest, hs, _, he⟩ | ⟨_, he⟩
  · rw [he] at h
    obtain ⟨_, rfl⟩ := Prod.mk.inj h
    refine ⟨rfl, Nat.le_add_right _ _, fun ho => ?_⟩
    have := drop_length_le _ _ _ hs ho
    simp only [List.length_append, List.length_cons] at this
    show c.offset + (tok.length + 1) ≤ c.buff.length
    omega
  · rw [he] at h
    obtain ⟨_, rfl⟩ := Prod.mk.inj h
    exact advances_refl c

theorem readString2_advances {c c' : dynamicPPConn} {sep : List Nat}
    {r : Except GoError (List Nat)}
    (h : readString2 c sep = (r, c')) : advances c c' := by
  rcases readString2_cases c sep with ⟨tok, rest, hs, he⟩ | he
  · rw [he] at h
    obtain ⟨_, rfl⟩ := Prod.mk.inj h
    refine ⟨rfl, Nat.le_add_right _ _, fun ho => ?_⟩
    have := drop_length_le _ _ _ hs ho
    simp only [List.length_append] at this
    show c.offset + (tok.length + sep.length) ≤ c.buff.length
    omega
  · rw [he] at h
    obtain ⟨_, rfl⟩ := Prod.mk.inj h
    exact advances_refl c

theorem readByte_advances {c c' : dynamicPPConn} {r : Except GoError Nat}
    (h : readByte c = (r, c')) : advances c c' := by
  rw [readByte_eq] at h
  split at h
  · obtain ⟨_, rfl⟩ := Prod.mk.inj h
    exact advances_refl c
  · obtain ⟨_, rfl⟩ := Prod.mk.inj h
    exact ⟨rfl, Nat.le_add_right _ _, fun _ => by show c.offset + 1 ≤ c.buff.length; omega⟩

theorem readBytes_advances {c c' : dynamicPPConn} {n : Nat} {r : Except GoError (List Nat)}
    (h : readBytes c n = (r, c')) : advances c c' := by
  rw [readBytes_eq] at h
  split at h
  · obtain ⟨_, rfl⟩ := Prod.mk.inj h
    exact advances_refl c
  · obtain ⟨_, rfl⟩ := Prod.mk.inj h
    exact ⟨rfl, Nat.le_add_right _ _, fun _ => by show c.offset + n ≤ c.buff.length; omega⟩

theorem parseV1_advances (ParseIP : List Nat → Option (List Nat)) (c : dynamicPPConn) :
    advances c (parseV1 ParseIP c).2 := by
  unfold parseV1
  repeat' split
  all_goals dsimp only
  all_goals
    repeat
      first
      | exact advances_refl _
      | exact readString_advances (by assumption)
      | exact readString2_advances (by assumption)
      | refine advances_trans ?_ (readString_advances (by assumption))
      | refine advances_trans ?_ (readString2_advances (by assumption))

theorem parseV2_advances (c : dynamicPPConn) : advances c (parseV2 c).2 := by
  unfold parseV2
  repeat' split
  all_goals try dsimp only
  repeat' split
  all_goals try dsimp only
  all_goals
    repeat
      first
      | exact advances_refl _
      | exact readByte_advances (by assumption)
      | exact readBytes_advances (by assumption)
      | refine advances_trans ?_ (readByte_advances (by assumption))
      | refine advances_trans ?_ (readBytes_advances (by assumption))

theorem detectV1_cursorOK (ParseIP : List Nat → Option (List Nat)) (c : dynamicPPConn)
    (h : isV1 c.buff) : cursorOK (detectV1 ParseIP c) := by
  have hs := (parseV1_state ParseIP { c with offset := 6 }).1
  have ha := parseV1_advances ParseIP { c with offset := 6 }
  have h6 : (6 : Nat) ≤ c.buff.length := h.1
  have hb := ha.2.2 h6
  rw [detectV1_eq ParseIP _ _ _ _ _ hs]
  cases (parseV1 ParseIP { c with offset := 6 }).1.2.2 with
  | none => exact hb
  | some e => exact Nat.zero_le _

theorem detectV2_cursorOK (c : dynamicPPConn) (h : isV2 c.buff) : cursorOK (detectV2 c) := by
  have hs := (parseV2_state { c with offset := 12 }).1
  have ha := parseV2_advances { c with offset := 12 }
  have h12 : (12 : Nat) ≤ c.buff.length := h.1
  have hb := ha.2.2 h12
  rw [detectV2_eq _ _ _ _ _ hs]
  cases (parseV2 { c with offset := 12 }).1.2.2 with
  | none => exact hb
  | some e => exact Nat.zero_le _

theorem readProxyProtocol_cursorOK (ParseIP : List Nat → Option (List Nat)) (c : dynamicPPConn)
    (h0 : c.offset = 0) : cursorOK (readProxyProtocol ParseIP c).2 := by
  unfold readProxyProtocol
  rcases hR : c.Conn.Read c.buff.length with ⟨⟨d, e⟩, r⟩
  cases e with
  | some err =>
    show c.offset ≤ c.buff.length
    omega
  | none =>
    dsimp only
    split
    · rename_i h1
      exact detectV1_cursorOK ParseIP _ h1
    · split
      · rename_i _ h2
        exact detectV2_cursorOK _ h2
      · show c.offset ≤ d.length
        omega

theorem Read_cursorOK (ParseIP : List Nat → Option (List Nat)) (c : dynamicPPConn) (k : Nat)
    (honce : c.once = true) (hc : cursorOK c) :
    cursorOK (Read ParseIP c k).2 ∧ c.offset ≤ (Read ParseIP c k).2.offset ∧
    (Read ParseIP c k).2.buff = c.buff := by
  by_cases herr : c.readErr = none
  · by_cases hrf : c.readFunc = ReadFunc.connRead
    · rw [Read_direct ParseIP c k honce herr hrf]
      exact ⟨hc, Nat.le_refl _, rfl⟩
    · have hrf' : c.readFunc = ReadFunc.deferredReadFunc := by
        cases hx : c.readFunc with
        | connRead => exact absurd hx hrf
        | deferredReadFunc => rfl
      rw [Read_done ParseIP c k honce herr hrf']
      by_cases hnil : c.buff.drop c.offset = []
      · rw [deferredReadFunc_drained c k hnil]
        exact ⟨hc, Nat.le_refl _, rfl⟩
      · rw [deferredReadFunc_buffered c k _ rfl hnil]
        refine ⟨?_, Nat.le_add_right _ _, rfl⟩
        show c.offset + ((c.buff.drop c.offset).take k).length ≤ c.buff.length
        rw [List.length_take, List.length_drop]
        have : c.offset ≤ c.buff.length := hc
        omega
  · obtain ⟨e, he⟩ := Option.ne_none_iff_exists'.mp herr
    have : Read ParseIP c k = (([], some e), c) := by
      simp only [Read, onceDo_done ParseIP c honce, he]
    rw [this]
    exact ⟨hc, Nat.le_refl _, rfl⟩

theorem call_cursorOK (ParseIP : List Nat → Option (List Nat)) (c : dynamicPPConn) (op : Call)
    (honce : c.once = true) (hc : cursorOK c) : cursorOK (call ParseIP c op).2 := by
  cases op with
  | Read k => exact (Read_cursorOK ParseIP c k honce hc).1
  | LocalAddr =>
    show cursorOK (LocalAddr ParseIP c).2
    rw [LocalAddr_snd, onceDo_done ParseIP c honce]
    exact hc
  | RemoteAddr =>
    show cursorOK (RemoteAddr ParseIP c).2
    rw [RemoteAddr_snd, onceDo_done ParseIP c honce]
    exact hc

theorem calls_cursorOK (ParseIP : List Nat → Option (List Nat)) (ops : List Call) (c : dynamicPPConn)
    (honce : c.once = true) (hc : cursorOK c) : cursorOK (calls ParseIP c ops).2 := by
  induction ops generalizing c with
  | nil => exact hc
  | cons op ops ih =>
    rw [calls_cons]
    exact ih _ (call_done ParseIP c op honce).1 (call_cursorOK ParseIP c op honce hc)

theorem onceDo_cursorOK (ParseIP : List Nat → Option (List Nat)) (raw : RawConn) :
    cursorOK (onceDo ParseIP (newDynamicPPConn raw)) := by
  have h0 : (newDynamicPPConn raw).once = false := rfl
  have := readProxyProtocol_cursorOK ParseIP (newDynamicPPConn raw) rfl
  simp only [onceDo, h0]
  exact this

theorem RawConn_Read_length (r : RawConn) (k : Nat) : (r.Read k).1.1.length ≤ k := by
  obtain ⟨script, la, ra⟩ := r
  cases script with
  | nil => simp [RawConn.Read]
  | cons e rest =>
    cases e with
    | fail err => simp [RawConn.Read]
    | data bs =>
      by_cases hk : bs.length ≤ k
      · simp [RawConn.Read, hk]
      · simp only [RawConn.Read, hk, if_false]
        simp

theorem advances_cursorAdvanced {c c' : dynamicPPConn} (h : advances c c') (hc : cursorOK c) :
    cursorAdvanced c c' := by
  obtain ⟨e, l, b⟩ := h
  have hb : c'.buff = c.buff := by rw [e]
  exact ⟨hb, l, by rw [hb]; exact b hc⟩

/-- C19: the cursor invariant `0 ≤ cursor ≤ len(buffer)` (the cursor is a
natural number; every assignment to it in the source is `0`, a constant or
`+=` of a non-negative amount). It holds after construction. From a state `c`
in which it holds, each of `readString`, `readString2`, `readByte`,
`readBytes`, `parseV1` and `parseV2`, whether it succeeds or fails, leaves the
buffer as it was, does not decrease the cursor and leaves it within the
buffer. Detection (`readProxyProtocol`, and the `once.Do` around it), entered
with the cursor at 0, leaves it within the new buffer, the reset to 0
included. A `Read` after detection leaves the buffer as it was, does not
decrease the cursor and leaves it within the buffer. Hence the invariant holds
after every sequence of `Read`, `LocalAddr` and `RemoteAddr` calls on a new
connection. The slices taken are in range: the delimiter found by `readString`
or `readString2` ends within the buffer, a `readBytes` that does not fail with
`io.EOF` has its `n` bytes within the buffer, and the detection read returns
at most as many bytes as the buffer holds. -/
theorem cursor_invariant (ParseIP : List Nat → Option (List Nat)) (raw : RawConn)
    (c : dynamicPPConn) (d n k : Nat) (sep : List Nat) (ops : List Call)
    (hc : cursorOK c) :
    cursorOK (newDynamicPPConn raw) ∧
    cursorAdvanced c (readString c d).2 ∧
    cursorAdvanced c (readString2 c sep).2 ∧
    cursorAdvanced c (readByte c).2 ∧
    cursorAdvanced c (readBytes c n).2 ∧
    cursorAdvanced c (parseV1 ParseIP c).2 ∧
    cursorAdvanced c (parseV2 c).2 ∧
    (c.offset = 0 → cursorOK (readProxyProtocol ParseIP c).2) ∧
    (c.offset = 0 → cursorOK (onceDo ParseIP c)) ∧
    (c.once = true → cursorAdvanced c (Read ParseIP c k).2) ∧
    cursorOK (calls ParseIP (newDynamicPPConn raw) ops).2 ∧
    (∀ i, IndexByte (c.buff.drop c.offset) d = some i → c.offset + i + 1 ≤ c.buff.length) ∧
    (∀ i, Index (c.buff.drop c.offset) sep = some i →
      c.offset + i + sep.length ≤ c.buff.length) ∧
    ((readBytes c n).1 ≠ .error GoError.EOF → c.offset + n ≤ c.buff.length) ∧
    (raw.Read 512).1.1.length ≤ (newDynamicPPConn raw).buff.length := by
  have hS : cursorAdvanced c (readString c d).2 :=
    advances_cursorAdvanced (readString_advances rfl) hc
  have hS2 : cursorAdvanced c (readString2 c sep).2 :=
    advances_cursorAdvanced (readString2_advances rfl) hc
  refine ⟨Nat.zero_le _, hS, hS2,
    advances_cursorAdvanced (readByte_advances rfl) hc,
    advances_cursorAdvanced (readBytes_advances rfl) hc,
    advances_cursorAdvanced (parseV1_advances ParseIP c) hc,
    advances_cursorAdvanced (parseV2_advances c) hc,
    readProxyProtocol_cursorOK ParseIP c, ?_, ?_, ?_, ?_, ?_, ?_, ?_⟩
  · intro h0
    unfold onceDo
    split
    · exact hc
    · exact readProxyProtocol_cursorOK ParseIP c h0
  · intro honce
    obtain ⟨h1, h2, h3⟩ := Read_cursorOK ParseIP c k honce hc
    exact ⟨h3, h2, h1⟩
  · cases ops with
    | nil => exact Nat.zero_le _
    | cons op ops =>
      rw [← calls_onceDo]
      exact calls_cursorOK ParseIP _ _ (onceDo_once ParseIP _) (onceDo_cursorOK ParseIP raw)
  · intro i hi
    have := hS.2.2
    rw [hS.1] at this
    simp only [readString, hi] at this
    omega
  · intro i hi
    have := hS2.2.2
    rw [hS2.1] at this
    simp only [readString2, hi] at this
    omega
  · intro hne
    rw [readBytes_eq] at hne
    by_contra hlt
    apply hne
    rw [if_pos (by omega)]
  · exact RawConn_Read_length raw 512

/-- C19, witness: with the cursor at 6 in a buffer holding a v1 header and
`ping`, the invariant holds, and `parseV1` leaves the buffer as it was and the
cursor at 40, within the buffer. -/
theorem cursor_invariant_witness :
    cursorOK { filledConn (v1Header TCP4 lit10 lit20 [49, 48, 48, 48] [50, 48, 48, 48] ++ ping)
        [] (loopback 80) (loopback 4000) with offset := 6 } ∧
    (parseV1 parseIPv4
      { filledConn (v1Header TCP4 lit10 lit20 [49, 48, 48, 48] [50, 48, 48, 48] ++ ping)
        [] (loopback 80) (loopback 4000) with offset := 6 }).2.offset = 40 ∧
    cursorAdvanced
      { filledConn (v1Header TCP4 lit10 lit20 [49, 48, 48, 48] [50, 48, 48, 48] ++ ping)
        [] (loopback 80) (loopback 4000) with offset := 6 }
      (parseV1 parseIPv4
        { filledConn (v1Header TCP4 lit10 lit20 [49, 48, 48, 48] [50, 48, 48, 48] ++ ping)
          [] (loopback 80) (loopback 4000) with offset := 6 }).2 :=
  ⟨by decide, by decide,
   (cursor_invariant parseIPv4
      { script := [], localAddr := NetAddr.nil, remoteAddr := NetAddr.nil }
      { filledConn (v1Header TCP4 lit10 lit20 [49, 48, 48, 48] [50, 48, 48, 48] ++ ping)
        [] (loopback 80) (loopback 4000) with offset := 6 }
      32 2 4 CRLF [Call.Read 2] (by decide)).2.2.2.2.2.1⟩

/-! ## C21: the protocol token of a v1 header -/

theorem Atoi_mem (s : List Nat) (v : Int) (h : Atoi s = some v) (x : Nat) (hx : x ∈ s) :
    x = 45 ∨ x = 43 ∨ (48 ≤ x ∧ x ≤ 57) := by
  have hd := Atoi_isSignedDecimal s v h
  cases s with
  | nil => simp at hx
  | cons c0 tl =>
    simp only [isSignedDecimal, Bool.and_eq_true, List.all_eq_true, decide_eq_true_eq] at hd
    by_cases hc : c0 = 45 ∨ c0 = 43
    · rw [if_pos hc] at hd
      rcases List.mem_cons.mp hx with r | r
      · rcases hc with q | q
        · exact Or.inl (r.trans q)
        · exact Or.inr (Or.inl (r.trans q))
      · exact Or.inr (Or.inr (hd.2 x r))
    · rw [if_neg hc] at hd
      exact Or.inr (Or.inr (hd.2 x hx))

theorem parseV1_token_swap (ParseIP : List Nat → Option (List Nat)) (c c' : dynamicPPConn)
    (p p' tail : List Nat) (hp : p = TCP4 ∨ p = TCP6) (hp' : p' = TCP4 ∨ p' = TCP6)
    (h : c.buff.drop c.offset = p ++ tail) (h' : c'.buff.drop c'.offset = p' ++ tail)
    (ho : c.offset = c'.offset) (hok : (parseV1 ParseIP c).1.2.2 = none) :
    (parseV1 ParseIP c').1 = (parseV1 ParseIP c).1 ∧
    (parseV1 ParseIP c').2.offset = (parseV1 ParseIP c).2.offset := by
  rcases parseV1_cases ParseIP c with
    ⟨t1, t2, t3, t4, t5, rest, ip1, ip2, p1, p2, hs, n1, n2, n3, n4, ht1, h2, h3, h4, h5, he⟩ |
    ⟨e, o, he⟩
  · have hlen1 : t1.length = 4 := by rcases ht1 with r | r <;> subst r <;> rfl
    have hlenp : p.length = 4 := by rcases hp with r | r <;> subst r <;> rfl
    have hlenp' : p'.length = 4 := by rcases hp' with r | r <;> subst r <;> rfl
    rw [h] at hs
    have ht : p = t1 := by
      have := congrArg (List.take 4) hs
      rw [List.take_left' hlenp, List.take_left' hlen1] at this
      exact this
    subst ht
    have htail := List.append_cancel_left hs
    have n5 : 0x0D ∉ t5 := fun hm => by
      rcases Atoi_mem _ _ h5 _ hm with r | r | r <;> omega
    have n1' : 0x20 ∉ p' := by rcases hp' with r | r <;> subst r <;> decide
    rw [htail] at h'
    rcases parseV1_shape ParseIP c' p' t2 t3 t4 t5 rest h' n1' n2 n3 n4 n5 with
      ⟨ip1', ip2', p1', p2', _, g2, g3, g4, g5, he'⟩ | ⟨hbad, _⟩
    · rw [h2] at g2
      rw [h3] at g3
      rw [h4] at g4
      rw [h5] at g5
      cases g2
      cases g3
      cases g4
      cases g5
      rw [he, he']
      refine ⟨rfl, ?_⟩
      show v1End c'.offset p' t2 t3 t4 t5 = v1End c.offset p t2 t3 t4 t5
      simp only [v1End, hlenp, hlenp', ho]
    · rcases hbad with r | r | r | r | r
      · exact absurd hp' r
      · rw [h2] at r
        exact Option.noConfusion r
      · rw [h3] at r
        exact Option.noConfusion r
      · rw [h4] at r
        exact Option.noConfusion r
      · rw [h5] at r
        exact Option.noConfusion r
  · rw [he] at hok
    exact Option.noConfusion hok

theorem parseV1_token_pair (ParseIP : List Nat → Option (List Nat)) (c4 c6 : dynamicPPConn)
    (tail : List Nat) (h4 : c4.buff.drop c4.offset = TCP4 ++ tail)
    (h6 : c6.buff.drop c6.offset = TCP6 ++ tail) (ho : c4.offset = c6.offset) :
    ((parseV1 ParseIP c4).1.2.2 = none ↔ (parseV1 ParseIP c6).1.2.2 = none) ∧
    (parseV1 ParseIP c4).1.1 = (parseV1 ParseIP c6).1.1 ∧
    (parseV1 ParseIP c4).1.2.1 = (parseV1 ParseIP c6).1.2.1 ∧
    ((parseV1 ParseIP c4).1.2.2 = none →
      (parseV1 ParseIP c4).2.offset = (parseV1 ParseIP c6).2.offset) := by
  have f46 := parseV1_token_swap ParseIP c4 c6 TCP4 TCP6 tail (Or.inl rfl) (Or.inr rfl) h4 h6 ho
  have f64 := parseV1_token_swap ParseIP c6 c4 TCP6 TCP4 tail (Or.inr rfl) (Or.inl rfl) h6 h4
    ho.symm
  have hiff : (parseV1 ParseIP c4).1.2.2 = none ↔ (parseV1 ParseIP c6).1.2.2 = none := by
    constructor
    · intro hok
      rw [(f46 hok).1]
      exact hok
    · intro hok
      rw [(f64 hok).1]
      exact hok
  refine ⟨hiff, ?_, ?_, fun hok => (f46 hok).2.symm⟩
  · by_cases hok : (parseV1 ParseIP c4).1.2.2 = none
    · rw [(f46 hok).1]
    · have hok6 : ¬ (parseV1 ParseIP c6).1.2.2 = none := fun x => hok (hiff.mpr x)
      rcases (parseV1_state ParseIP c4).2 with ⟨a, _⟩ | ⟨_, a, _⟩
      · exact absurd a hok
      · rcases (parseV1_state ParseIP c6).2 with ⟨b, _⟩ | ⟨_, b, _⟩
        · exact absurd b hok6
        · rw [a, b]
  · by_cases hok : (parseV1 ParseIP c4).1.2.2 = none
    · rw [(f46 hok).1]
    · have hok6 : ¬ (parseV1 ParseIP c6).1.2.2 = none := fun x => hok (hiff.mpr x)
      rcases (parseV1_state ParseIP c4).2 with ⟨a, _⟩ | ⟨_, _, a⟩
      · exact absurd a hok
      · rcases (parseV1_state ParseIP c6).2 with ⟨b, _⟩ | ⟨_, _, b⟩
        · exact absurd b hok6
        · rw [a, b]

/-- C21: the protocol token of a v1 header does not influence the parsed
result. For two buffers `pre ++ "TCP4" ++ tail` and `pre ++ "TCP6" ++ tail`
with the cursor right after `pre` (for detection `pre` is the v1 magic),
`parseV1` fails on both or succeeds on both, returns the same source and the
same destination address, and after a success leaves the cursor at the same
position. After detection of the two first reads `"PROXY " ++ "TCP4" ++ tail`
and `"PROXY " ++ "TCP6" ++ tail` the cursor is the same and `RemoteAddr` and
`LocalAddr` answer the same. The family of the literals is not compared with
the token: for `proto` either of `TCP4`, `TCP6` and every two space-free
literals that `net.ParseIP` accepts, of whatever family, a header with ports
accepted by `strconv.Atoi` is accepted, with the cursor after the header and
the addresses read from the literals. -/
theorem v1_token_independence (ParseIP : List Nat → Option (List Nat)) (c : dynamicPPConn)
    (pre tail : List Nat) (rest : List ReadEvent) (la ra : NetAddr)
    (hoff : c.offset = pre.length) :
    (((parseV1 ParseIP { c with buff := pre ++ TCP4 ++ tail }).1.2.2 = none ↔
        (parseV1 ParseIP { c with buff := pre ++ TCP6 ++ tail }).1.2.2 = none) ∧
      (parseV1 ParseIP { c with buff := pre ++ TCP4 ++ tail }).1.1
        = (parseV1 ParseIP { c with buff := pre ++ TCP6 ++ tail }).1.1 ∧
      (parseV1 ParseIP { c with buff := pre ++ TCP4 ++ tail }).1.2.1
        = (parseV1 ParseIP { c with buff := pre ++ TCP6 ++ tail }).1.2.1 ∧
      ((parseV1 ParseIP { c with buff := pre ++ TCP4 ++ tail }).1.2.2 = none →
        (parseV1 ParseIP { c with buff := pre ++ TCP4 ++ tail }).2.offset
          = (parseV1 ParseIP { c with buff := pre ++ TCP6 ++ tail }).2.offset)) ∧
    ((PPv1Identifier ++ TCP4 ++ tail).length ≤ 512 →
      (readProxyProtocol ParseIP (freshConn (PPv1Identifier ++ TCP4 ++ tail) rest la ra)).2.offset
        = (readProxyProtocol ParseIP
            (freshConn (PPv1Identifier ++ TCP6 ++ tail) rest la ra)).2.offset ∧
      (RemoteAddr ParseIP (freshConn (PPv1Identifier ++ TCP4 ++ tail) rest la ra)).1
        = (RemoteAddr ParseIP (freshConn (PPv1Identifier ++ TCP6 ++ tail) rest la ra)).1 ∧
      (LocalAddr ParseIP (freshConn (PPv1Identifier ++ TCP4 ++ tail) rest la ra)).1
        = (LocalAddr ParseIP (freshConn (PPv1Identifier ++ TCP6 ++ tail) rest la ra)).1) ∧
    (∀ (proto s d sp dp P ips ipd : List Nat) (psp pdp : Int),
      (proto = TCP4 ∨ proto = TCP6) → 0x20 ∉ s → 0x20 ∉ d →
      ParseIP s = some ips → ParseIP d = some ipd → Atoi sp = some psp → Atoi dp = some pdp →
      (parseV1 ParseIP
          { filledConn (v1Header proto s d sp dp ++ P) rest la ra with offset := 6 }).1
        = (some { IP := ips, Port := psp }, some { IP := ipd, Port := pdp }, none) ∧
      ((v1Header proto s d sp dp ++ P).length ≤ 512 →
        (readProxyProtocol ParseIP
            (freshConn (v1Header proto s d sp dp ++ P) rest la ra)).2.offset
          = (v1Header proto s d sp dp).length ∧
        (RemoteAddr ParseIP (freshConn (v1Header proto s d sp dp ++ P) rest la ra)).1
          = NetAddr.tcp (some { IP := ips, Port := psp }) ∧
        (LocalAddr ParseIP (freshConn (v1Header proto s d sp dp ++ P) rest la ra)).1
          = NetAddr.tcp (some { IP := ipd, Port := pdp }))) := by
  have hpre : ∀ t : List Nat, (pre ++ t ++ tail).drop c.offset = t ++ tail := by
    intro t
    rw [hoff, List.append_assoc, List.drop_left]
  refine ⟨parseV1_token_pair ParseIP { c with buff := pre ++ TCP4 ++ tail }
      { c with buff := pre ++ TCP6 ++ tail } tail (hpre TCP4) (hpre TCP6) rfl, ?_, ?_⟩
  · intro hlen
    have hlen6 : (PPv1Identifier ++ TCP6 ++ tail).length ≤ 512 := hlen
    have i4 : isV1 (PPv1Identifier ++ TCP4 ++ tail) := by
      simp [isV1, PPv1Identifier, PPv1IdentifierLen]
    have i6 : isV1 (PPv1Identifier ++ TCP6 ++ tail) := by
      simp [isV1, PPv1Identifier, PPv1IdentifierLen]
    have d4 := (detect_outcome ParseIP _ rest la ra hlen).1 i4
    have d6 := (detect_outcome ParseIP _ rest la ra hlen6).1 i6
    obtain ⟨biff, bsrc, bdst, boff⟩ := parseV1_token_pair ParseIP
      { filledConn (PPv1Identifier ++ TCP4 ++ tail) rest la ra with offset := 6 }
      { filledConn (PPv1Identifier ++ TCP6 ++ tail) rest la ra with offset := 6 }
      tail rfl rfl rfl
    rw [RemoteAddr_first ParseIP _ _ _ rfl d4, RemoteAddr_first ParseIP _ _ _ rfl d6,
      LocalAddr_first ParseIP _ _ _ rfl d4, LocalAddr_first ParseIP _ _ _ rfl d6, d4, d6]
    dsimp only
    rw [bsrc, bdst]
    refine ⟨?_, rfl, rfl⟩
    by_cases hok : (parseV1 ParseIP
        { filledConn (PPv1Identifier ++ TCP4 ++ tail) rest la ra with offset := 6 }).1.2.2 = none
    · rw [hok, biff.mp hok]
      exact boff hok
    · obtain ⟨x, hx⟩ := Option.ne_none_iff_exists'.mp hok
      obtain ⟨y, hy⟩ := Option.ne_none_iff_exists'.mp (fun h => hok (biff.mpr h))
      rw [hx, hy]
      rfl
  · intro proto s d sp dp P ips ipd psp pdp hproto hs hd hips hipd hsp hdp
    have n1 : 0x20 ∉ proto := by rcases hproto with r | r <;> subst r <;> decide
    have n4 : 0x20 ∉ sp := fun hm => by
      rcases Atoi_mem _ _ hsp _ hm with r | r | r <;> omega
    have n5 : 0x0D ∉ dp := fun hm => by
      rcases Atoi_mem _ _ hdp _ hm with r | r | r <;> omega
    have hgood : ¬ (¬ (proto = TCP4 ∨ proto = TCP6) ∨ ParseIP s = none ∨ ParseIP d = none ∨
        Atoi sp = none ∨ Atoi dp = none) := by
      rw [hips, hipd, hsp, hdp]
      simp [hproto]
    refine ⟨?_, fun hlen => ?_⟩
    · rcases parseV1_shape ParseIP
          { filledConn (v1Header proto s d sp dp ++ P) rest la ra with offset := 6 }
          proto s d sp dp P (by simpa [filledConn] using v1Header_drop proto s d sp dp P)
          n1 hs hd n4 n5 with
        ⟨ip1, ip2, p1, p2, _, h2, h3, h4, h5, he⟩ | ⟨hbad, _⟩
      · rw [hips] at h2
        rw [hipd] at h3
        rw [hsp] at h4
        rw [hdp] at h5
        cases h2
        cases h3
        cases h4
        cases h5
        rw [he]
      · exact absurd hbad hgood
    · rcases detect_v1Header ParseIP proto s d sp dp P rest la ra n1 hs hd n4 n5 hlen with
        ⟨ip1, ip2, p1, p2, _, h2, h3, h4, h5, he⟩ | ⟨hbad, _⟩
      · rw [hips] at h2
        rw [hipd] at h3
        rw [hsp] at h4
        rw [hdp] at h5
        cases h2
        cases h3
        cases h4
        cases h5
        rw [RemoteAddr_first ParseIP _ _ _ rfl he, LocalAddr_first ParseIP _ _ _ rfl he, he]
        exact ⟨rfl, rfl, rfl⟩
      · exact absurd hbad hgood

/-- C21, witness: the first read
`"PROXY TCP4 ::1 2001:db8::2 1000 2000\r\nping"` carries IPv6 literals under
the token `TCP4`; `parseV1` accepts it with the addresses `[::1]:1000` and
`[2001:db8::2]:2000` and the cursor at 38, it succeeds on it exactly when it
succeeds on the same bytes with `TCP6`, and `RemoteAddr` answers
`[::1]:1000`. -/
theorem v1_token_independence_witness :
    ({ filledConn [] [] (loopback 80) (loopback 4000) with offset := 6 } : dynamicPPConn).offset
      = PPv1Identifier.length ∧
    (parseV1 netParseIP
        { filledConn (PPv1Identifier ++ TCP4 ++
            v1Tail litLoopback6 litDoc6 [49, 48, 48, 48] [50, 48, 48, 48] ping)
          [] (loopback 80) (loopback 4000) with offset := 6 }).1
      = (some { IP := [0, 0, 0, 0, 0, 0, 0, 0, 0, 0, 0, 0, 0, 0, 0, 1], Port := 1000 },
         some { IP := [0x20, 0x01, 0x0D, 0xB8, 0, 0, 0, 0, 0, 0, 0, 0, 0, 0, 0, 2], Port := 2000 },
         none) ∧
    (parseV1 netParseIP
        { filledConn (PPv1Identifier ++ TCP4 ++
            v1Tail litLoopback6 litDoc6 [49, 48, 48, 48] [50, 48, 48, 48] ping)
          [] (loopback 80) (loopback 4000) with offset := 6 }).2.offset = 38 ∧
    ((parseV1 netParseIP
        { filledConn [] [] (loopback 80) (loopback 4000) with
          offset := 6
          buff := PPv1Identifier ++ TCP4 ++
            v1Tail litLoopback6 litDoc6 [49, 48, 48, 48] [50, 48, 48, 48] ping }).1.2.2 = none ↔
      (parseV1 netParseIP
        { filledConn [] [] (loopback 80) (loopback 4000) with
          offset := 6
          buff := PPv1Identifier ++ TCP6 ++
            v1Tail litLoopback6 litDoc6 [49, 48, 48, 48] [50, 48, 48, 48] ping }).1.2.2 = none) ∧
    (RemoteAddr netParseIP
        (freshConn (v1Header TCP4 litLoopback6 litDoc6 [49, 48, 48, 48] [50, 48, 48, 48] ++ ping)
          [] (loopback 80) (loopback 4000))).1
      = tcpAddr [0, 0, 0, 0, 0, 0, 0, 0, 0, 0, 0, 0, 0, 0, 0, 1] 1000 :=
  ⟨by decide, by decide, by decide,
   (v1_token_independence netParseIP
      { filledConn [] [] (loopback 80) (loopback 4000) with offset := 6 }
      PPv1Identifier (v1Tail litLoopback6 litDoc6 [49, 48, 48, 48] [50, 48, 48, 48] ping)
      [] (loopback 80) (loopback 4000) (by decide)).1.1,
   (((v1_token_independence netParseIP
      { filledConn [] [] (loopback 80) (loopback 4000) with offset := 6 }
      PPv1Identifier [] [] (loopback 80) (loopback 4000) (by decide)).2.2
      TCP4 litLoopback6 litDoc6 [49, 48, 48, 48] [50, 48, 48, 48] ping
      [0, 0, 0, 0, 0, 0, 0, 0, 0, 0, 0, 0, 0, 0, 0, 1]
      [0x20, 0x01, 0x0D, 0xB8, 0, 0, 0, 0, 0, 0, 0, 0, 0, 0, 0, 2] 1000 2000
      (Or.inl rfl) (by decide) (by decide) (by decide) (by decide) (by decide) (by decide)).2
      (by decide)).2.1⟩

end DynamicPP
